import Mathlib

/-!
# simple-oscilloscope: ring buffer and double-buffered audio/GUI handoff

A shallow embedding of `src/RingBuffer.h`, of the handoff at the end of
`AudioPluginAudioProcessor::processBlock` / `prepareToPlay` /
`releaseResources` (`src/PluginProcessor.cpp`) and of the drain in
`AudioPluginAudioProcessorEditor::timerCallback` (`src/PluginEditor.cpp`).

Conventions of the embedding:

* `std::int64_t` values are mathematical integers (`Int`); signed 64-bit
  overflow is undefined behaviour in C++ and outside the model.
* every conversion to the 32-bit `int` that the source performs
  (`std::min<int>`, `int const num_copy1`, `int end`, `int getNumWritten()`)
  is the explicit wrap-around `toInt32`.
* a failed `assert`, a dereferenced null pointer, a throwing constructor and
  a spin that can never end are the result `none`.
* `T const * const *` and `T **` arguments are functions from a channel index
  and a sample index to a sample; `std::vector<std::vector<T>>` is a list of
  rows.  A `std::copy_n` store that falls outside a vector does not change
  the vector, and a load that falls outside a vector leaves the destination
  cell as it was.
* the audio thread and the GUI thread are also modelled statement by
  statement (`stepProducer`, `stepConsumer`), interleaved by a schedule; run
  alone, the statements of one call compose to `processBlock` and
  `timerCallback`.
-/

namespace SimpleOscilloscope

/-! ## Machine integers -/

/-- Conversion of a 64-bit value to the 32-bit `int` of the source: the value
modulo `2^32`, taken in `[-2^31, 2^31)`. -/
def toInt32 (x : Int) : Int :=
  (x + 2147483648) % 4294967296 - 2147483648

/-! ## `RingBuffer<T>` (src/RingBuffer.h) -/

/-- The data members of `RingBuffer<T>`, lines 94-98. -/
structure RingBuffer (T : Type) where
  num_channels_ : Int
  num_samples_ : Int
  write_pos_ : Int
  num_written_ : Int
  buffer_ : List (List T)
deriving DecidableEq

/-- Element `i` of a vector, when `i` is inside it. -/
def getCell {T : Type} (l : List T) (i : Int) : Option T :=
  if 0 ≤ i then l[i.toNat]? else none

/-- Worker of `copy_n_into`: walks the destination vector, `j` being the index
of the head cell. -/
def copyCells {T : Type} (first : Int → T) (count off : Int) : List T → Int → List T
  | [], _ => []
  | x :: xs, j =>
    (if off ≤ j ∧ j < off + count then first (j - off) else x)
      :: copyCells first count off xs (j + 1)

/-- The call `std::copy_n(first, count, result.data() + off)` into a vector:
cell `off + i` receives `first[i]` for `0 ≤ i < count`. -/
def copy_n_into {T : Type} (first : Int → T) (count : Int) (result : List T) (off : Int) :
    List T :=
  copyCells first count off result 0

/-- The call `std::copy_n(first.data() + firstOff, count, result + resultOff)`
out of a vector into pointed-to memory. -/
def copy_n_from {T : Type} (first : List T) (firstOff count : Int) (result : Int → T)
    (resultOff : Int) : Int → T :=
  fun j =>
    if resultOff ≤ j ∧ j < resultOff + count then
      match getCell first (firstOff + (j - resultOff)) with
      | some v => v
      | none => result j
    else result j

/-- The loop `for(int ch = 0, end = ...; ch < end; ++ch)` over the rows of
`buffer_`, `ch` being the index of the head row. -/
def forChannels {T : Type} (last : Int) (body : Int → List T → List T) :
    List (List T) → Int → List (List T)
  | [], _ => []
  | row :: rows, ch =>
    (if ch < last then body ch row else row) :: forChannels last body rows (ch + 1)

namespace RingBuffer

variable {T : Type}

/-- The default constructor `RingBuffer()`, lines 12-13. -/
def empty : RingBuffer T :=
  { num_channels_ := 0, num_samples_ := 0, write_pos_ := 0, num_written_ := 0, buffer_ := [] }

/-- The constructor `RingBuffer(num_channels, num_samples)`, lines 19-28.
A negative size makes `std::vector::resize` throw. -/
def construct [Zero T] (num_channels num_samples : Int) : Option (RingBuffer T) :=
  if num_channels < 0 ∨ num_samples < 0 then none
  else some
    { num_channels_ := num_channels
      num_samples_ := num_samples
      write_pos_ := 0
      num_written_ := 0
      buffer_ := List.replicate num_channels.toNat (List.replicate num_samples.toNat 0) }

/-- The local `num_copy1` of `write`, line 44:
`int const num_copy1 = std::min<int>(write_pos_ + length, num_samples_) - write_pos_;`. -/
def write_num_copy1 (rb : RingBuffer T) (length : Int) : Int :=
  toInt32 (min (toInt32 (rb.write_pos_ + length)) (toInt32 rb.num_samples_) - rb.write_pos_)

/-- The local `num_copy2` of `write`, line 47:
`int const num_copy2 = length - num_copy1;`. -/
def write_num_copy2 (rb : RingBuffer T) (length : Int) : Int :=
  toInt32 (length - rb.write_num_copy1 length)

/-- The cursor update of `write`, lines 57-58. -/
def write_next_pos (rb : RingBuffer T) (length : Int) : Int :=
  if rb.write_pos_ + length ≥ rb.num_samples_ then rb.write_pos_ + length - rb.num_samples_
  else rb.write_pos_ + length

/-- The body of the channel loop of `write`, lines 50-54, on one row. -/
def write_row (rb : RingBuffer T) (src : Int → Int → T) (src_start_sample length : Int)
    (ch : Int) (row : List T) : List T :=
  copy_n_into (fun i => src ch (src_start_sample + rb.write_num_copy1 length + i))
    (rb.write_num_copy2 length)
    (copy_n_into (fun i => src ch (src_start_sample + i)) (rb.write_num_copy1 length)
      row rb.write_pos_)
    0

/-- The method `write(src, src_start_sample, length)`, lines 38-60. -/
def write (rb : RingBuffer T) (src : Int → Int → T) (src_start_sample length : Int) :
    Option (RingBuffer T) :=
  if length = 0 ∨ rb.num_samples_ = 0 then some rb
  else if ¬ length ≤ rb.num_samples_ then none
  else some
    { rb with
      buffer_ := forChannels (toInt32 rb.num_channels_)
        (rb.write_row src src_start_sample length) rb.buffer_ 0
      write_pos_ := rb.write_next_pos length
      num_written_ := rb.num_written_ + length }

/-- The local `num_copy1` of `read`, lines 73-76. -/
def read_num_copy1 (rb : RingBuffer T) (length : Int) : Int :=
  toInt32 (if rb.write_pos_ ≥ length then 0 else length - rb.write_pos_)

/-- The local `num_copy2` of `read`, line 79. -/
def read_num_copy2 (rb : RingBuffer T) (length : Int) : Int :=
  toInt32 (length - rb.read_num_copy1 length)

/-- The body of the channel loop of `read`, lines 82-85, on one row. -/
def read_row (rb : RingBuffer T) (dest_start_index length : Int) (row : List T)
    (ch_dest : Int → T) : Int → T :=
  copy_n_from row (rb.write_pos_ - rb.read_num_copy2 length) (rb.read_num_copy2 length)
    (copy_n_from row (rb.num_samples_ - rb.read_num_copy1 length) (rb.read_num_copy1 length)
      ch_dest dest_start_index)
    (dest_start_index + rb.read_num_copy1 length)

/-- The method `read(dest, dest_start_index, length)`, lines 66-87; the result
is the memory behind `dest` after the call.  The method is `const`: the
buffer itself is not part of the result. -/
def read (rb : RingBuffer T) (dest : Int → Int → T) (dest_start_index length : Int) :
    Option (Int → Int → T) :=
  if length = 0 ∨ rb.num_samples_ = 0 then some dest
  else if ¬ length ≤ rb.num_samples_ then none
  else some fun ch =>
    if 0 ≤ ch ∧ ch < toInt32 rb.num_channels_ then
      match getCell rb.buffer_ ch with
      | some row => rb.read_row dest_start_index length row (dest ch)
      | none => dest ch
    else dest ch

/-- The accessor `getNumChannels()`, line 89. -/
def getNumChannels (rb : RingBuffer T) : Int := rb.num_channels_

/-- The accessor `getNumSamples()`, line 90. -/
def getNumSamples (rb : RingBuffer T) : Int := rb.num_samples_

/-- The accessor `int getNumWritten()`, line 91: the 64-bit field returned
through a 32-bit `int`. -/
def getNumWritten (rb : RingBuffer T) : Int := toInt32 rb.num_written_

end RingBuffer

/-! ## Sequences of calls on one `RingBuffer` -/

/-- The arguments of one `write` call: the source pointers, the start index in
the source and the number of samples. -/
structure Block (T : Type) where
  src : Int → Int → T
  start : Int
  length : Int

/-- One call on a `RingBuffer`: `write(src, start, length)` or
`read(dest, start, length)`. -/
inductive Op (T : Type) where
  | write (b : Block T)
  | read (dest : Int → Int → T) (dest_start_index length : Int)

/-- The calls whose `assert(length <= num_samples_)` holds, writes having a
length of at least 0. -/
def Op.valid {T : Type} (capacity : Int) : Op T → Prop
  | .write b => 0 ≤ b.length ∧ b.length ≤ capacity
  | .read _ _ length => length ≤ capacity

/-- The number of samples that the `write` calls of a sequence pass. -/
def writtenLength {T : Type} : List (Op T) → Int
  | [] => 0
  | .write b :: ops => b.length + writtenLength ops
  | .read _ _ _ :: ops => writtenLength ops

/-- One call; a `read` leaves the buffer as it is (the method is `const`). -/
def applyOp {T : Type} (rb : RingBuffer T) : Op T → Option (RingBuffer T)
  | .write b => rb.write b.src b.start b.length
  | .read dest dest_start_index length => (rb.read dest dest_start_index length).map fun _ => rb

/-- A sequence of calls, stopping at the first failed assertion. -/
def applyOps {T : Type} : RingBuffer T → List (Op T) → Option (RingBuffer T)
  | rb, [] => some rb
  | rb, op :: ops => (applyOp rb op).bind fun rb1 => applyOps rb1 ops

/-- A sequence of `write` calls, stopping at the first failed assertion. -/
def writeAll {T : Type} : RingBuffer T → List (Block T) → Option (RingBuffer T)
  | rb, [] => some rb
  | rb, b :: bs => (rb.write b.src b.start b.length).bind fun rb1 => writeAll rb1 bs

/-- The samples `src[ch][start .. start + length)` of one block. -/
def blockSamples {T : Type} (src : Int → Int → T) (ch start length : Int) : List T :=
  (List.range length.toNat).map fun (i : Nat) => src ch (start + (i : Int))

/-- The samples of channel `ch` of a sequence of written blocks, in the order
of writing. -/
def history {T : Type} (bs : List (Block T)) (ch : Int) : List T :=
  (bs.map fun b => blockSamples b.src ch b.start b.length).flatten

/-- The total number of samples of a sequence of blocks. -/
def totalLength {T : Type} (bs : List (Block T)) : Int :=
  (bs.map fun b => b.length).sum

/-- The cells `dest[ch][start .. start + n)` of pointed-to memory. -/
def cells {T : Type} (dest : Int → Int → T) (ch start : Int) (n : Nat) : List T :=
  (List.range n).map fun (i : Nat) => dest ch (start + (i : Int))

/-! ## `AudioData` (src/PluginProcessor.h) -/

/-- The data members of `AudioData`, lines 26-28.  The `juce::SpinLock` is
the flag `lock_`, `true` while some thread holds it. -/
structure AudioData (T : Type) where
  lock_ : Bool
  pre_buffer_ : RingBuffer T
  post_buffer_ : RingBuffer T
deriving DecidableEq

namespace AudioData

variable {T : Type}

/-- A default-constructed `AudioData`: a free lock and two empty buffers. -/
def init : AudioData T :=
  { lock_ := false, pre_buffer_ := RingBuffer.empty, post_buffer_ := RingBuffer.empty }

/-- The method `lock()`, line 21: `SpinLock::enter` spins until the lock is
free, which in a sequential execution never happens when it is held. -/
def lock (ad : AudioData T) : Option (AudioData T) :=
  if ad.lock_ then none else some { ad with lock_ := true }

/-- The method `unlock()`, line 22. -/
def unlock (ad : AudioData T) : AudioData T :=
  { ad with lock_ := false }

/-- The method `try_lock()`, line 23: the outcome and the slot afterwards. -/
def try_lock (ad : AudioData T) : Bool × AudioData T :=
  if ad.lock_ then (false, ad) else (true, { ad with lock_ := true })

end AudioData

/-! ## `AudioPluginAudioProcessor` (src/PluginProcessor.cpp) -/

/-- The members of `AudioPluginAudioProcessor` that take part in the handoff:
`AudioData datas_[2]` and `std::atomic<AudioData *> active_audio_data_`, where
`none` is `nullptr` and `some i` is `&datas_[i]`. -/
structure AudioPluginAudioProcessor (T : Type) where
  datas_ : AudioData T × AudioData T
  active_audio_data_ : Option (Fin 2)
deriving DecidableEq

namespace AudioPluginAudioProcessor

variable {T : Type}

/-- The slot `datas_[i]`. -/
def data (p : AudioPluginAudioProcessor T) (i : Fin 2) : AudioData T :=
  if i = 0 then p.datas_.1 else p.datas_.2

/-- Store into the slot `datas_[i]`. -/
def setData (p : AudioPluginAudioProcessor T) (i : Fin 2) (ad : AudioData T) :
    AudioPluginAudioProcessor T :=
  if i = 0 then { p with datas_ := (ad, p.datas_.2) } else { p with datas_ := (p.datas_.1, ad) }

/-- The constructor, lines 5-26: `active_audio_data_.store(nullptr)`. -/
def init : AudioPluginAudioProcessor T :=
  { datas_ := (AudioData.init, AudioData.init), active_audio_data_ := none }

/-- The call `active_audio_data_.exchange(desired)`: the previous value and
the processor afterwards. -/
def exchange (p : AudioPluginAudioProcessor T) (desired : Option (Fin 2)) :
    Option (Fin 2) × AudioPluginAudioProcessor T :=
  (p.active_audio_data_, { p with active_audio_data_ := desired })

/-- The expression `(&datas_[0] == ad) ? &datas_[1] : &datas_[0]`, line 242. -/
def opposite (ad : Fin 2) : Fin 2 :=
  if (0 : Fin 2) = ad then 1 else 0

/-- The method `prepareToPlay`, lines 104-118; `num_samples` is the value of
`(int)std::round(sampleRate)`. -/
def prepareToPlay [Zero T] (p : AudioPluginAudioProcessor T) (num_samples : Int) :
    Option (AudioPluginAudioProcessor T) :=
  (match p.active_audio_data_ with
    | some i => (p.data i).lock.map fun ad => (p.setData i ad, true)
    | none => some (p, false)).bind fun locked =>
  (RingBuffer.construct 2 num_samples).bind fun buffer =>
  let p1 := locked.1
  let p2 := p1.setData 0 { p1.data 0 with pre_buffer_ := buffer }
  let p3 := p2.setData 0 { p2.data 0 with post_buffer_ := buffer }
  let p4 := p3.setData 1 { p3.data 1 with pre_buffer_ := buffer }
  let p5 := p4.setData 1 { p4.data 1 with post_buffer_ := buffer }
  let p6 := if locked.2 = false then { p5 with active_audio_data_ := some 0 } else p5
  match p.active_audio_data_ with
  | some i => some (p6.setData i (p6.data i).unlock)
  | none => some p6

/-- The method `releaseResources`, lines 128-133. -/
def releaseResources (p : AudioPluginAudioProcessor T) : AudioPluginAudioProcessor T :=
  { p with active_audio_data_ := none }

/-- The success path of `processBlock`, lines 235-236, followed by the release
of the `unique_lock` at the end of the scope. -/
def processBlock_locked (p : AudioPluginAudioProcessor T) (ad : Fin 2)
    (pre_data post_data : Int → Int → T) (length : Int) :
    Option (AudioPluginAudioProcessor T) :=
  ((p.data ad).pre_buffer_.write pre_data 0 length).bind fun pre =>
  let p1 := p.setData ad { p.data ad with pre_buffer_ := pre }
  ((p1.data ad).post_buffer_.write post_data 0 length).bind fun post =>
  let p2 := p1.setData ad { p1.data ad with post_buffer_ := post }
  some (p2.setData ad (p2.data ad).unlock)

/-- The failure path of `processBlock` up to the exchange, lines 242-257: the
stores of the current slot are assigned to the other slot and the block is
written there. -/
def processBlock_clone_and_write (p : AudioPluginAudioProcessor T) (ad : Fin 2)
    (pre_data post_data : Int → Int → T) (length : Int) :
    Option (AudioPluginAudioProcessor T) :=
  let opposite_ad := opposite ad
  let p1 := p.setData opposite_ad { p.data opposite_ad with pre_buffer_ := (p.data ad).pre_buffer_ }
  let p2 := p1.setData opposite_ad
    { p1.data opposite_ad with post_buffer_ := (p1.data ad).post_buffer_ }
  ((p2.data opposite_ad).pre_buffer_.write pre_data 0 length).bind fun pre =>
  let p3 := p2.setData opposite_ad { p2.data opposite_ad with pre_buffer_ := pre }
  ((p3.data opposite_ad).post_buffer_.write post_data 0 length).bind fun post =>
  some (p3.setData opposite_ad { p3.data opposite_ad with post_buffer_ := post })

/-- The failure path of `processBlock`, lines 242-260: clone, write, then
`prev = active_audio_data_.exchange(opposite_ad)` and
`assert(prev == ad && prev != opposite_ad)`. -/
def processBlock_contended (p : AudioPluginAudioProcessor T) (ad : Fin 2)
    (pre_data post_data : Int → Int → T) (length : Int) :
    Option (AudioPluginAudioProcessor T) :=
  (p.processBlock_clone_and_write ad pre_data post_data length).bind fun p4 =>
  let prev := (p4.exchange (some (opposite ad))).1
  if prev = some ad ∧ prev ≠ some (opposite ad) then some (p4.exchange (some (opposite ad))).2
  else none

/-- The handoff at the end of `processBlock`, lines 230-262; `pre_data`,
`post_data` and `length` are the pointers and the block length that the first
part of the method has computed. -/
def processBlock (p : AudioPluginAudioProcessor T) (pre_data post_data : Int → Int → T)
    (length : Int) : Option (AudioPluginAudioProcessor T) :=
  match p.active_audio_data_ with
  | none => none
  | some ad =>
    if (p.data ad).try_lock.1 then
      (p.setData ad (p.data ad).try_lock.2).processBlock_locked ad pre_data post_data length
    else
      p.processBlock_contended ad pre_data post_data length

end AudioPluginAudioProcessor

/-! ## `AudioPluginAudioProcessorEditor` (src/PluginEditor.cpp) -/

/-- The members of `AudioPluginAudioProcessorEditor` that take part in the
drain.  `buffer_` is the memory of the four-channel `juce::AudioSampleBuffer`;
`thumb_` records the calls `thumb_.addBlock(start, buffer_, 0, n)` in order,
each with its start position and the `n` samples of the four channels. -/
structure AudioPluginAudioProcessorEditor (T : Type) where
  buffer_ : Int → Int → T
  thumb_ : List (Int × List (List T))
  saved_thumbnail_position_ : Int
  saved_written_size_ : Int

/-- The samples `buffer[ch][0 .. n)` of the four channels that one call of
`thumb_.addBlock(_, buffer, 0, n)` hands over. -/
def addedBlock {T : Type} (buffer : Int → Int → T) (n : Int) : List (List T) :=
  (List.range 4).map fun (ch : Nat) =>
    (List.range n.toNat).map fun (i : Nat) => buffer (ch : Int) (i : Int)

namespace AudioPluginAudioProcessorEditor

variable {T : Type}

/-- The local `num_to_read` of `timerCallback`, lines 190-192, from the value
`new_written_size` that `getNumWritten()` returned, the watermark
`saved_written_size_` and `getNumSamples()`. -/
def num_to_read (new_written_size saved_written_size num_samples : Int) : Int :=
  min (max new_written_size saved_written_size - saved_written_size) num_samples

/-- The drain of `timerCallback`, lines 162-204, run with no other thread
interleaved.  The reconfiguration at lines 147-160 is not part of it (sample
rate and block size as at the previous call). -/
def timerCallback (p : AudioPluginAudioProcessor T) (e : AudioPluginAudioProcessorEditor T) :
    Option (AudioPluginAudioProcessor T × AudioPluginAudioProcessorEditor T) :=
  match p.active_audio_data_ with
  | none => some (p, e)
  | some ad =>
    if (p.data ad).try_lock.1 then
      let locked := (p.data ad).try_lock.2
      let apre := locked.pre_buffer_
      let apost := locked.post_buffer_
      if apre.getNumWritten = apost.getNumWritten then
        let new_written_size := apre.getNumWritten
        let n := num_to_read new_written_size e.saved_written_size_ apre.getNumSamples
        (apre.read e.buffer_ 0 n).bind fun b1 =>
        (apost.read (fun ch => b1 (ch + 2)) 0 n).bind fun b2 =>
        let buffer : Int → Int → T := fun ch => b2 (ch - 2)
        some (p.setData ad locked.unlock,
          { buffer_ := buffer
            thumb_ := e.thumb_ ++ [(e.saved_thumbnail_position_, addedBlock buffer n)]
            saved_thumbnail_position_ := e.saved_thumbnail_position_ + n
            saved_written_size_ := new_written_size })
      else none
    else none

end AudioPluginAudioProcessorEditor

/-! ## Sequential executions of producer, consumer and host -/

/-- One atomic step of the sequential model: a producer step of
`processBlock` during which the consumer holds (`try_lock_fails = true`) or
does not hold the guard of the active slot, a consumer drain, or a
`prepareToPlay` of the host. -/
inductive Event (T : Type) where
  | produce (try_lock_fails : Bool) (pre_data post_data : Int → Int → T) (length : Int)
  | drain
  | prepare (num_samples : Int)

/-- The processor together with its editor. -/
structure System (T : Type) where
  processor : AudioPluginAudioProcessor T
  editor : AudioPluginAudioProcessorEditor T

/-- The guard of the active slot as the consumer leaves it before a producer
step: held or free. -/
def consumerHolds {T : Type} (p : AudioPluginAudioProcessor T) (held : Bool) :
    AudioPluginAudioProcessor T :=
  match p.active_audio_data_ with
  | some ad => p.setData ad { p.data ad with lock_ := held }
  | none => p

/-- The consumer has released whatever guard it held. -/
def consumerReleases {T : Type} (p : AudioPluginAudioProcessor T) :
    AudioPluginAudioProcessor T :=
  { p with datas_ := (p.datas_.1.unlock, p.datas_.2.unlock) }

/-- One step of the sequential model. -/
def step {T : Type} [Zero T] (s : System T) : Event T → Option (System T)
  | .produce fails pre_data post_data length =>
    ((consumerHolds s.processor fails).processBlock pre_data post_data length).map fun p =>
      { s with processor := consumerReleases p }
  | .drain =>
    (AudioPluginAudioProcessorEditor.timerCallback s.processor s.editor).map fun r =>
      { processor := r.1, editor := r.2 }
  | .prepare num_samples =>
    (s.processor.prepareToPlay num_samples).map fun p => { s with processor := p }

/-- A sequence of steps, stopping at the first one that has no result. -/
def run {T : Type} [Zero T] : System T → List (Event T) → Option (System T)
  | s, [] => some s
  | s, ev :: evs => (step s ev).bind fun s1 => run s1 evs

/-- An editor that has drained nothing yet: watermark 0. -/
def freshEditor {T : Type} [Zero T] : AudioPluginAudioProcessorEditor T :=
  { buffer_ := fun _ _ => 0, thumb_ := [], saved_thumbnail_position_ := 0,
    saved_written_size_ := 0 }

/-- The samples of channel `ch` handed to the thumbnail so far, in order. -/
def drained {T : Type} (e : AudioPluginAudioProcessorEditor T) (ch : Nat) : List T :=
  (e.thumb_.map fun b => b.2.getD ch []).flatten

/-- The events that are producer steps with a block of at most `capacity`
samples. -/
def Event.isProduceUpTo {T : Type} (capacity : Int) : Event T → Prop
  | .produce _ _ _ length => length ≤ capacity
  | .drain => False
  | .prepare _ => False

/-- All four stores have the capacity `capacity`, and in each slot the pre-
and the post-store have the same total-written counter. -/
def CountersAgree {T : Type} (capacity : Int) (p : AudioPluginAudioProcessor T) : Prop :=
  ∀ i : Fin 2,
    (p.data i).pre_buffer_.num_samples_ = capacity ∧
    (p.data i).post_buffer_.num_samples_ = capacity ∧
    (p.data i).pre_buffer_.num_written_ = (p.data i).post_buffer_.num_written_

/-! ## What a buffer remembers -/

/-- The physical index of the cell that was written `e` samples before the
cursor `wp` of a buffer of `N` samples (`1 ≤ e ≤ N`). -/
def back (N wp e : Int) : Int :=
  if e ≤ wp then wp - e else wp - e + N

/-- The samples `xs` (at most `N` of them) are the last ones written to the
row before the cursor `wp`, oldest first. -/
def RowTail {T : Type} (row : List T) (N wp : Int) (xs : List T) : Prop :=
  (xs.length : Int) ≤ N ∧
    ∀ k : Nat, k < xs.length → getCell row (back N wp (xs.length - k)) = xs[k]?

/-- A valid buffer state: the cursor is inside `[0, num_samples_)` and
`buffer_` has `num_channels_` rows of `num_samples_` cells. -/
def RingBuffer.Valid {T : Type} (rb : RingBuffer T) : Prop :=
  0 ≤ rb.write_pos_ ∧ rb.write_pos_ < rb.num_samples_ ∧ 0 ≤ rb.num_channels_ ∧
    rb.buffer_.length = rb.num_channels_.toNat ∧
    ∀ ch row, getCell rb.buffer_ ch = some row → row.length = rb.num_samples_.toNat

/-- The sizes for which the 32-bit intermediates of `write` and `read` never
wrap: `write_pos_ + length < 2^31` for every cursor and every length up to
the capacity, and a channel count that fits `int`. -/
def RingBuffer.FitsInt {T : Type} (rb : RingBuffer T) : Prop :=
  rb.num_samples_ ≤ 1073741824 ∧ rb.num_channels_ < 2147483648

/-- The buffer remembers the streams `h`: for every channel, every suffix of
`h ch` of at most `num_samples_` samples is what lies before the cursor. -/
def Remembers {T : Type} (rb : RingBuffer T) (h : Int → List T) : Prop :=
  ∀ ch, 0 ≤ ch → ch < rb.num_channels_ →
    ∃ row, getCell rb.buffer_ ch = some row ∧
      ∀ d : Nat, (((h ch).drop d).length : Int) ≤ rb.num_samples_ →
        RowTail row rb.num_samples_ rb.write_pos_ ((h ch).drop d)

/-! ## The handoff invariant -/

/-- A store of capacity `N` and 2 channels, in a valid state whose sizes fit
`int`, that has received `t` samples per channel and remembers the streams
`H`, each of `t` samples. -/
def StoreHolds {T : Type} (N t : Int) (rb : RingBuffer T) (H : Int → List T) : Prop :=
  rb.Valid ∧ rb.FitsInt ∧ rb.num_samples_ = N ∧ rb.num_channels_ = 2 ∧ rb.num_written_ = t ∧
    Remembers rb H ∧ ∀ ch, 0 ≤ ch → ch < 2 → ((H ch).length : Int) = t

/-- The state of producer and consumer between two steps of the sequential
model: the guards are free, the two stores of the active slot hold the `t`
samples per channel produced so far (`Hpre`, `Hpost`), and the samples handed
to the thumbnail are the first `saved_written_size_` of them. -/
def HandoffInv {T : Type} (N t : Int) (Hpre Hpost : Int → List T) (s : System T) : Prop :=
  ∃ ad, s.processor.active_audio_data_ = some ad ∧
    (∀ i, (s.processor.data i).lock_ = false) ∧
    StoreHolds N t (s.processor.data ad).pre_buffer_ Hpre ∧
    StoreHolds N t (s.processor.data ad).post_buffer_ Hpost ∧
    0 ≤ s.editor.saved_written_size_ ∧ s.editor.saved_written_size_ ≤ t ∧
    ∀ ch : Nat, ch < 2 →
      drained s.editor ch = (Hpre ch).take s.editor.saved_written_size_.toNat ∧
      drained s.editor (ch + 2) = (Hpost ch).take s.editor.saved_written_size_.toNat

/-- The sequences of producer steps and drains in which every block has a
length of at least 0 and at most `N` samples are produced between two
consecutive drains; `pending` is the number of samples produced since the
last drain. -/
def WithinCapacity {T : Type} (N : Int) : Int → List (Event T) → Prop
  | _, [] => True
  | pending, .produce _ _ _ length :: evs =>
    0 ≤ length ∧ pending + length ≤ N ∧ WithinCapacity N (pending + length) evs
  | _, .drain :: evs => WithinCapacity N 0 evs
  | _, .prepare _ :: _ => False

/-- The number of samples per channel that the producer steps of a sequence
pass. -/
def producedLength {T : Type} : List (Event T) → Int
  | [] => 0
  | .produce _ _ _ length :: evs => length + producedLength evs
  | .drain :: evs => producedLength evs
  | .prepare _ :: evs => producedLength evs

/-- The pre-effect blocks of the producer steps of a sequence, in order. -/
def preBlocks {T : Type} : List (Event T) → List (Block T)
  | [] => []
  | .produce _ pre_data _ length :: evs =>
    { src := pre_data, start := 0, length := length } :: preBlocks evs
  | .drain :: evs => preBlocks evs
  | .prepare _ :: evs => preBlocks evs

/-- The post-effect blocks of the producer steps of a sequence, in order. -/
def postBlocks {T : Type} : List (Event T) → List (Block T)
  | [] => []
  | .produce _ _ post_data length :: evs =>
    { src := post_data, start := 0, length := length } :: postBlocks evs
  | .drain :: evs => postBlocks evs
  | .prepare _ :: evs => postBlocks evs

/-! ## The copy regions of `write` and `read` -/

/-- The two destination regions of the `std::copy_n` calls of `write`, lines
53-54, each as the physical offset in the row and the count: `num_copy1`
cells from `write_pos_`, `num_copy2` cells from 0. -/
def RingBuffer.write_regions {T : Type} (rb : RingBuffer T) (length : Int) : List (Int × Int) :=
  [(rb.write_pos_, rb.write_num_copy1 length), (0, rb.write_num_copy2 length)]

/-- The two source regions of the `std::copy_n` calls of `read`, lines 84-85,
each as the physical offset in the row and the count: `num_copy1` cells from
`num_samples_ - num_copy1`, `num_copy2` cells from `write_pos_ - num_copy2`. -/
def RingBuffer.read_regions {T : Type} (rb : RingBuffer T) (length : Int) : List (Int × Int) :=
  [(rb.num_samples_ - rb.read_num_copy1 length, rb.read_num_copy1 length),
   (rb.write_pos_ - rb.read_num_copy2 length, rb.read_num_copy2 length)]

/-- The physical index `i` is one of the cells of the region (offset, count)
that `std::copy_n` accesses. -/
def touches (region : Int × Int) (i : Int) : Prop :=
  region.1 ≤ i ∧ i < region.1 + region.2

/-! ## The two threads, statement by statement -/

/-- A guard operation of `AudioData`: `lock()` (blocking), `try_lock()` or
`unlock()` on `datas_[i]`. -/
inductive GuardOp where
  | lock (i : Fin 2)
  | try_lock (i : Fin 2)
  | unlock (i : Fin 2)
deriving DecidableEq

/-- The statement of the handoff of `processBlock` (lines 230-262) that the
audio thread executes next; `idle` outside the handoff. -/
inductive ProducerPc where
  | idle
  | load
  | tryLock
  | writePre
  | writePost
  | unlock
  | clonePre
  | clonePost
  | writeOtherPre
  | writeOtherPost
  | exchange
deriving DecidableEq

/-- The audio thread inside `processBlock`: the next statement, the local
`ad`, the arguments of the two `write` calls, and the guard operations it
has invoked since the call began (a record kept for the proofs; no
statement reads it). -/
structure ProducerState (T : Type) where
  pc : ProducerPc
  ad : Option (Fin 2)
  pre_data : Int → Int → T
  post_data : Int → Int → T
  length : Int
  guard_ops : List GuardOp

/-- The statement of the drain of `timerCallback` (lines 162-204) that the
GUI thread executes next; `idle` outside the drain. -/
inductive ConsumerPc where
  | idle
  | load
  | tryLock
  | read
  | unlock
  | forward
deriving DecidableEq

/-- The GUI thread inside `timerCallback`: the next statement, the local `ad`,
the local `num_to_read` and the members of the editor. -/
structure ConsumerState (T : Type) where
  pc : ConsumerPc
  ad : Option (Fin 2)
  num_to_read : Int
  editor : AudioPluginAudioProcessorEditor T

/-- The shared processor and the two threads. -/
structure Threads (T : Type) where
  processor : AudioPluginAudioProcessor T
  producer : ProducerState T
  consumer : ConsumerState T

/-- The slots whose guard the audio thread holds: its `unique_lock` owns
`*ad` from the successful `try_lock` (line 231) to the end of the scope. -/
def producerOwns (pc : ProducerPc) (ad : Option (Fin 2)) (i : Fin 2) : Bool :=
  (pc = .writePre ∨ pc = .writePost ∨ pc = .unlock) ∧ ad = some i

/-- The slots whose guard the GUI thread holds: its `unique_lock` owns `*ad`
from the successful `try_lock` (line 170) to `lock.unlock()` (line 199). -/
def consumerOwns (pc : ConsumerPc) (ad : Option (Fin 2)) (i : Fin 2) : Bool :=
  (pc = .read ∨ pc = .unlock) ∧ ad = some i

/-- The statements of the failure path of `processBlock`, lines 242-260:
after the failed `try_lock`, up to and including the exchange. -/
def onFailurePath (pc : ProducerPc) : Bool :=
  pc = .clonePre ∨ pc = .clonePost ∨ pc = .writeOtherPre ∨ pc = .writeOtherPost ∨
    pc = .exchange

/-- The audio thread enters `processBlock` with a block (only when it is not
inside the handoff already: there is one audio thread). -/
def callProcessBlock {T : Type} (st : Threads T) (pre_data post_data : Int → Int → T)
    (length : Int) : Option (Threads T) :=
  if st.producer.pc = .idle then
    some { st with producer :=
      { pc := .load, ad := st.producer.ad, pre_data := pre_data, post_data := post_data,
        length := length, guard_ops := [] } }
  else none

/-- One statement of the audio thread in `processBlock`, lines 230-262. -/
def stepProducer {T : Type} (st : Threads T) : Option (Threads T) :=
  let p := st.processor
  let pr := st.producer
  match pr.pc with
  | .idle => some st
  | .load =>
    some { st with producer := { pr with pc := .tryLock, ad := p.active_audio_data_ } }
  | .tryLock =>
    match pr.ad with
    | none => none
    | some ad =>
      if (p.data ad).try_lock.1 then
        some { st with
          processor := p.setData ad (p.data ad).try_lock.2
          producer := { pr with pc := .writePre, guard_ops := pr.guard_ops ++ [.try_lock ad] } }
      else
        some { st with
          producer := { pr with pc := .clonePre, guard_ops := pr.guard_ops ++ [.try_lock ad] } }
  | .writePre =>
    match pr.ad with
    | none => none
    | some ad =>
      ((p.data ad).pre_buffer_.write pr.pre_data 0 pr.length).map fun pre =>
        { st with
          processor := p.setData ad { p.data ad with pre_buffer_ := pre }
          producer := { pr with pc := .writePost } }
  | .writePost =>
    match pr.ad with
    | none => none
    | some ad =>
      ((p.data ad).post_buffer_.write pr.post_data 0 pr.length).map fun post =>
        { st with
          processor := p.setData ad { p.data ad with post_buffer_ := post }
          producer := { pr with pc := .unlock } }
  | .unlock =>
    match pr.ad with
    | none => none
    | some ad =>
      some { st with
        processor := p.setData ad (p.data ad).unlock
        producer := { pr with pc := .idle, guard_ops := pr.guard_ops ++ [.unlock ad] } }
  | .clonePre =>
    match pr.ad with
    | none => none
    | some ad =>
      some { st with
        processor := p.setData (AudioPluginAudioProcessor.opposite ad)
          { p.data (AudioPluginAudioProcessor.opposite ad) with
            pre_buffer_ := (p.data ad).pre_buffer_ }
        producer := { pr with pc := .clonePost } }
  | .clonePost =>
    match pr.ad with
    | none => none
    | some ad =>
      some { st with
        processor := p.setData (AudioPluginAudioProcessor.opposite ad)
          { p.data (AudioPluginAudioProcessor.opposite ad) with
            post_buffer_ := (p.data ad).post_buffer_ }
        producer := { pr with pc := .writeOtherPre } }
  | .writeOtherPre =>
    match pr.ad with
    | none => none
    | some ad =>
      ((p.data (AudioPluginAudioProcessor.opposite ad)).pre_buffer_.write
          pr.pre_data 0 pr.length).map fun pre =>
        { st with
          processor := p.setData (AudioPluginAudioProcessor.opposite ad)
            { p.data (AudioPluginAudioProcessor.opposite ad) with pre_buffer_ := pre }
          producer := { pr with pc := .writeOtherPost } }
  | .writeOtherPost =>
    match pr.ad with
    | none => none
    | some ad =>
      ((p.data (AudioPluginAudioProcessor.opposite ad)).post_buffer_.write
          pr.post_data 0 pr.length).map fun post =>
        { st with
          processor := p.setData (AudioPluginAudioProcessor.opposite ad)
            { p.data (AudioPluginAudioProcessor.opposite ad) with post_buffer_ := post }
          producer := { pr with pc := .exchange } }
  | .exchange =>
    match pr.ad with
    | none => none
    | some ad =>
      let prev := (p.exchange (some (AudioPluginAudioProcessor.opposite ad))).1
      if prev = some ad ∧ prev ≠ some (AudioPluginAudioProcessor.opposite ad) then
        some { st with
          processor := (p.exchange (some (AudioPluginAudioProcessor.opposite ad))).2
          producer := { pr with pc := .idle } }
      else none

/-- The GUI thread enters the drain of `timerCallback` (only when it is not
inside it already: there is one GUI thread). -/
def callTimerCallback {T : Type} (st : Threads T) : Option (Threads T) :=
  if st.consumer.pc = .idle then
    some { st with consumer := { st.consumer with pc := .load } }
  else none

/-- One statement of the GUI thread in `timerCallback`, lines 162-204: the
load of the active reference (line 167), the `try_lock` (line 170, followed by
`yield` and a new load on failure), the copy under the guard (lines 185-197),
`lock.unlock()` (line 199) and the hand-over to the thumbnail (lines 201-202). -/
def stepConsumer {T : Type} (st : Threads T) : Option (Threads T) :=
  let p := st.processor
  let c := st.consumer
  match c.pc with
  | .idle => some st
  | .load =>
    match p.active_audio_data_ with
    | none => some { st with consumer := { c with pc := .idle, ad := none } }
    | some ad => some { st with consumer := { c with pc := .tryLock, ad := some ad } }
  | .tryLock =>
    match c.ad with
    | none => none
    | some ad =>
      if (p.data ad).try_lock.1 then
        some { st with
          processor := p.setData ad (p.data ad).try_lock.2
          consumer := { c with pc := .read } }
      else some { st with consumer := { c with pc := .load } }
  | .read =>
    match c.ad with
    | none => none
    | some ad =>
      let apre := (p.data ad).pre_buffer_
      let apost := (p.data ad).post_buffer_
      if apre.getNumWritten = apost.getNumWritten then
        let new_written_size := apre.getNumWritten
        let n := AudioPluginAudioProcessorEditor.num_to_read new_written_size
          c.editor.saved_written_size_ apre.getNumSamples
        (apre.read c.editor.buffer_ 0 n).bind fun b1 =>
        (apost.read (fun ch => b1 (ch + 2)) 0 n).bind fun b2 =>
        some { st with consumer :=
          { c with
            pc := .unlock
            num_to_read := n
            editor := { c.editor with
              buffer_ := fun ch => b2 (ch - 2)
              saved_written_size_ := new_written_size } } }
      else none
  | .unlock =>
    match c.ad with
    | none => none
    | some ad =>
      some { st with
        processor := p.setData ad (p.data ad).unlock
        consumer := { c with pc := .forward } }
  | .forward =>
    some { st with consumer :=
      { c with
        pc := .idle
        editor := { c.editor with
          thumb_ := c.editor.thumb_ ++
            [(c.editor.saved_thumbnail_position_, addedBlock c.editor.buffer_ c.num_to_read)]
          saved_thumbnail_position_ := c.editor.saved_thumbnail_position_ + c.num_to_read } } }

/-- What the scheduler can do next: let the audio thread enter `processBlock`
or execute its next statement, let the GUI thread enter `timerCallback` or
execute its next statement. -/
inductive Action (T : Type) where
  | produceCall (pre_data post_data : Int → Int → T) (length : Int)
  | producerStep
  | consumeCall
  | consumerStep

/-- One action of the two-thread step relation. -/
def act {T : Type} (st : Threads T) : Action T → Option (Threads T)
  | .produceCall pre_data post_data length => callProcessBlock st pre_data post_data length
  | .producerStep => stepProducer st
  | .consumeCall => callTimerCallback st
  | .consumerStep => stepConsumer st

/-- A schedule: a sequence of actions, stopping at the first one that has no
result (a failed assertion, a null dereference, a second call on a busy
thread). -/
def runActions {T : Type} : Threads T → List (Action T) → Option (Threads T)
  | st, [] => some st
  | st, a :: as => (act st a).bind fun st1 => runActions st1 as

/-- Both threads outside their functions, on a given processor and editor. -/
def startThreads {T : Type} [Zero T] (p : AudioPluginAudioProcessor T)
    (e : AudioPluginAudioProcessorEditor T) : Threads T :=
  { processor := p
    producer := { pc := .idle, ad := none, pre_data := fun _ _ => 0,
                  post_data := fun _ _ => 0, length := 0, guard_ops := [] }
    consumer := { pc := .idle, ad := none, num_to_read := 0, editor := e } }

/-! ## The control skeleton of the two threads -/

/-- The part of the state that the guard protocol depends on: the active
reference, the two guards, and of each thread the next statement and the
local `ad`. -/
structure Skeleton where
  active : Option (Fin 2)
  lock0 : Bool
  lock1 : Bool
  ppc : ProducerPc
  pad : Option (Fin 2)
  cpc : ConsumerPc
  cad : Option (Fin 2)
deriving DecidableEq

namespace Skeleton

/-- The guard of slot `i`. -/
def lockOf (s : Skeleton) (i : Fin 2) : Bool :=
  if i = 0 then s.lock0 else s.lock1

/-- Set the guard of slot `i`. -/
def setLock (s : Skeleton) (i : Fin 2) (b : Bool) : Skeleton :=
  if i = 0 then { s with lock0 := b } else { s with lock1 := b }

/-- The effect of `callProcessBlock` on the skeleton. -/
def callProcessBlock (s : Skeleton) : Option Skeleton :=
  if s.ppc = .idle then some { s with ppc := .load } else none

/-- The effect of `stepProducer` on the skeleton; a `write` is taken to pass
its assertion. -/
def stepProducer (s : Skeleton) : Option Skeleton :=
  match s.ppc with
  | .idle => some s
  | .load => some { s with ppc := .tryLock, pad := s.active }
  | .tryLock =>
    match s.pad with
    | none => none
    | some ad =>
      if s.lockOf ad then some { s with ppc := .clonePre }
      else some { s.setLock ad true with ppc := .writePre }
  | .writePre => s.pad.map fun _ => { s with ppc := .writePost }
  | .writePost => s.pad.map fun _ => { s with ppc := .unlock }
  | .unlock => s.pad.map fun ad => { s.setLock ad false with ppc := .idle }
  | .clonePre => s.pad.map fun _ => { s with ppc := .clonePost }
  | .clonePost => s.pad.map fun _ => { s with ppc := .writeOtherPre }
  | .writeOtherPre => s.pad.map fun _ => { s with ppc := .writeOtherPost }
  | .writeOtherPost => s.pad.map fun _ => { s with ppc := .exchange }
  | .exchange =>
    match s.pad with
    | none => none
    | some ad =>
      if s.active = some ad ∧ s.active ≠ some (AudioPluginAudioProcessor.opposite ad) then
        some { s with active := some (AudioPluginAudioProcessor.opposite ad), ppc := .idle }
      else none

/-- The effect of `callTimerCallback` on the skeleton. -/
def callTimerCallback (s : Skeleton) : Option Skeleton :=
  if s.cpc = .idle then some { s with cpc := .load } else none

/-- The effect of `stepConsumer` on the skeleton; the copy is taken to pass
its assertions. -/
def stepConsumer (s : Skeleton) : Option Skeleton :=
  match s.cpc with
  | .idle => some s
  | .load =>
    match s.active with
    | none => some { s with cpc := .idle, cad := none }
    | some ad => some { s with cpc := .tryLock, cad := some ad }
  | .tryLock =>
    match s.cad with
    | none => none
    | some ad =>
      if s.lockOf ad then some { s with cpc := .load }
      else some { s.setLock ad true with cpc := .read }
  | .read => s.cad.map fun _ => { s with cpc := .unlock }
  | .unlock => s.cad.map fun ad => { s.setLock ad false with cpc := .forward }
  | .forward => some { s with cpc := .idle }

/-- The invariant of the guard protocol: a guard is taken exactly when one
of the two threads holds it, never both; the active reference is not null;
inside the handoff (after the load) the local `ad` of the audio thread is the
active reference; and while the audio thread is on its failure path, a GUI
thread that is about to `try_lock` or holds a guard has the same slot in its
local `ad`. -/
def Inv (s : Skeleton) : Bool :=
  (s.lockOf 0 == (producerOwns s.ppc s.pad 0 || consumerOwns s.cpc s.cad 0)) &&
  (s.lockOf 1 == (producerOwns s.ppc s.pad 1 || consumerOwns s.cpc s.cad 1)) &&
  !(producerOwns s.ppc s.pad 0 && consumerOwns s.cpc s.cad 0) &&
  !(producerOwns s.ppc s.pad 1 && consumerOwns s.cpc s.cad 1) &&
  s.active.isSome &&
  (decide (s.ppc = .idle) || decide (s.ppc = .load) || decide (s.pad = s.active)) &&
  (!onFailurePath s.ppc ||
    !(decide (s.cpc = .tryLock) || decide (s.cpc = .read) || decide (s.cpc = .unlock)) ||
    decide (s.cad = s.pad))

/-- The invariant holds after a step that has a result. -/
def keeps (f : Skeleton → Option Skeleton) (s : Skeleton) : Bool :=
  match f s with
  | some s1 => s1.Inv
  | none => true

end Skeleton

/-- The skeleton of a state of the two threads. -/
def skeleton {T : Type} (st : Threads T) : Skeleton :=
  { active := st.processor.active_audio_data_
    lock0 := (st.processor.data 0).lock_
    lock1 := (st.processor.data 1).lock_
    ppc := st.producer.pc
    pad := st.producer.ad
    cpc := st.consumer.pc
    cad := st.consumer.ad }

/-! ## Guards and mutations -/

/-- The slots whose stores the next statement of the audio thread modifies:
its current slot at the two `write` calls of the success path (lines
235-236), the other slot at the two assignments and the two `write` calls of
the failure path (lines 254-257). -/
def producerMutates (pc : ProducerPc) (ad : Option (Fin 2)) (i : Fin 2) : Bool :=
  ((pc = .writePre ∨ pc = .writePost) ∧ ad = some i) ∨
    ((pc = .clonePre ∨ pc = .clonePost ∨ pc = .writeOtherPre ∨ pc = .writeOtherPost) ∧
      ad.map AudioPluginAudioProcessor.opposite = some i)

/-- The first statements of `prepareToPlay`, lines 104-107: the blocking
`lock()` on the active slot if the reference is not null.  The result is the
processor and the slot whose guard the `unique_lock` owns. -/
def AudioPluginAudioProcessor.prepareToPlay_lock {T : Type} (p : AudioPluginAudioProcessor T) :
    Option (AudioPluginAudioProcessor T × Option (Fin 2)) :=
  match p.active_audio_data_ with
  | some i => (p.data i).lock.map fun ad => (p.setData i ad, some i)
  | none => some (p, none)

/-- The four assignments of `prepareToPlay`, lines 111-114. -/
def AudioPluginAudioProcessor.prepareToPlay_assign {T : Type} (p : AudioPluginAudioProcessor T)
    (buffer : RingBuffer T) : AudioPluginAudioProcessor T :=
  let p2 := p.setData 0 { p.data 0 with pre_buffer_ := buffer }
  let p3 := p2.setData 0 { p2.data 0 with post_buffer_ := buffer }
  let p4 := p3.setData 1 { p3.data 1 with pre_buffer_ := buffer }
  p4.setData 1 { p4.data 1 with post_buffer_ := buffer }

/-- The end of `prepareToPlay`, lines 116-118 and the end of the scope: the
store of `&datas_[0]` when the `unique_lock` owns no guard, and the release of
the guard it owns. -/
def AudioPluginAudioProcessor.prepareToPlay_finish {T : Type} (p : AudioPluginAudioProcessor T)
    (owned : Option (Fin 2)) : AudioPluginAudioProcessor T :=
  match owned with
  | some i => p.setData i (p.data i).unlock
  | none => { p with active_audio_data_ := some 0 }

/-! ## The audio thread under interference -/

/-- A change of the state that leaves the audio thread, the active reference
and the four stores as they are; the guards and the GUI thread may change in
any way.  Every statement of the GUI thread is such a change. -/
def ConsumerOnly {T : Type} (st st1 : Threads T) : Prop :=
  st1.producer = st.producer ∧
  st1.processor.active_audio_data_ = st.processor.active_audio_data_ ∧
  ∀ i, (st1.processor.data i).pre_buffer_ = (st.processor.data i).pre_buffer_ ∧
    (st1.processor.data i).post_buffer_ = (st.processor.data i).post_buffer_

/-- The audio thread under interference: `k` statements of the audio thread,
each preceded by a change `env j` of the state by the other thread. -/
def handoffUnder {T : Type} (env : Nat → Threads T → Threads T) :
    Nat → Threads T → Option (Threads T)
  | 0, st => some st
  | k + 1, st => (stepProducer (env k st)).bind fun st1 => handoffUnder env k st1

/-- The number of statements that the audio thread has left in the handoff,
at most. -/
def remaining : ProducerPc → Nat
  | .idle => 0
  | .load => 7
  | .tryLock => 6
  | .writePre => 3
  | .writePost => 2
  | .unlock => 1
  | .clonePre => 5
  | .clonePost => 4
  | .writeOtherPre => 3
  | .writeOtherPost => 2
  | .exchange => 1

/-- What holds at each statement of a handoff that started with the active
slot `cur` and a block of `len` samples: the local `ad`, the active reference,
the capacity of the stores that are still to be written, and the guard
operations invoked so far. -/
def HandoffStage {T : Type} (cur : Fin 2) (len : Int) (st : Threads T) : Prop :=
  st.producer.length = len ∧
  match st.producer.pc with
  | .idle =>
    (st.producer.guard_ops = [.try_lock cur, .unlock cur] ∧
      st.processor.active_audio_data_ = some cur) ∨
    (st.producer.guard_ops = [.try_lock cur] ∧
      st.processor.active_audio_data_ = some (AudioPluginAudioProcessor.opposite cur))
  | .load =>
    st.processor.active_audio_data_ = some cur ∧
    len ≤ (st.processor.data cur).pre_buffer_.num_samples_ ∧
    len ≤ (st.processor.data cur).post_buffer_.num_samples_ ∧
    st.producer.guard_ops = []
  | .tryLock =>
    st.producer.ad = some cur ∧ st.processor.active_audio_data_ = some cur ∧
    len ≤ (st.processor.data cur).pre_buffer_.num_samples_ ∧
    len ≤ (st.processor.data cur).post_buffer_.num_samples_ ∧
    st.producer.guard_ops = []
  | .writePre =>
    st.producer.ad = some cur ∧ st.processor.active_audio_data_ = some cur ∧
    len ≤ (st.processor.data cur).pre_buffer_.num_samples_ ∧
    len ≤ (st.processor.data cur).post_buffer_.num_samples_ ∧
    st.producer.guard_ops = [.try_lock cur]
  | .writePost =>
    st.producer.ad = some cur ∧ st.processor.active_audio_data_ = some cur ∧
    len ≤ (st.processor.data cur).post_buffer_.num_samples_ ∧
    st.producer.guard_ops = [.try_lock cur]
  | .unlock =>
    st.producer.ad = some cur ∧ st.processor.active_audio_data_ = some cur ∧
    st.producer.guard_ops = [.try_lock cur]
  | .clonePre =>
    st.producer.ad = some cur ∧ st.processor.active_audio_data_ = some cur ∧
    len ≤ (st.processor.data cur).pre_buffer_.num_samples_ ∧
    len ≤ (st.processor.data cur).post_buffer_.num_samples_ ∧
    st.producer.guard_ops = [.try_lock cur]
  | .clonePost =>
    st.producer.ad = some cur ∧ st.processor.active_audio_data_ = some cur ∧
    len ≤ (st.processor.data (AudioPluginAudioProcessor.opposite cur)).pre_buffer_.num_samples_ ∧
    len ≤ (st.processor.data cur).post_buffer_.num_samples_ ∧
    st.producer.guard_ops = [.try_lock cur]
  | .writeOtherPre =>
    st.producer.ad = some cur ∧ st.processor.active_audio_data_ = some cur ∧
    len ≤ (st.processor.data (AudioPluginAudioProcessor.opposite cur)).pre_buffer_.num_samples_ ∧
    len ≤ (st.processor.data (AudioPluginAudioProcessor.opposite cur)).post_buffer_.num_samples_ ∧
    st.producer.guard_ops = [.try_lock cur]
  | .writeOtherPost =>
    st.producer.ad = some cur ∧ st.processor.active_audio_data_ = some cur ∧
    len ≤ (st.processor.data (AudioPluginAudioProcessor.opposite cur)).post_buffer_.num_samples_ ∧
    st.producer.guard_ops = [.try_lock cur]
  | .exchange =>
    st.producer.ad = some cur ∧ st.processor.active_audio_data_ = some cur ∧
    st.producer.guard_ops = [.try_lock cur]

/-- The GUI thread as interference: it executes its next statement whenever it
is given the chance (and does nothing where that statement has no result). -/
def guiInterference {T : Type} (_ : Nat) (st : Threads T) : Threads T :=
  (stepConsumer st).getD st

/-! ## Concrete data for the worked cases -/

/-- Source memory whose sample `i` of channel `ch` is `1000 * ch + first + i`:
a ramp that starts at `first`. -/
def rampFrom (first : Int) : Int → Int → Int :=
  fun ch i => 1000 * ch + first + i

/-- Destination memory filled with zeros. -/
def zeroMemory : Int → Int → Int :=
  fun _ _ => 0

/-- A fresh buffer of 2 channels and 4 samples, as the constructor builds it. -/
def smallBuffer : RingBuffer Int :=
  { num_channels_ := 2, num_samples_ := 4, write_pos_ := 0, num_written_ := 0,
    buffer_ := [[0, 0, 0, 0], [0, 0, 0, 0]] }

/-- Three calls on `smallBuffer`: write 3 samples, read 2, write 4. -/
def smallOps : List (Op Int) :=
  [.write { src := rampFrom 0, start := 0, length := 3 },
   .read zeroMemory 0 2,
   .write { src := rampFrom 0, start := 3, length := 4 }]

/-- The processor after construction and a first `prepareToPlay` at a sample
rate that rounds to `num_samples`. -/
def preparedProcessor (num_samples : Int) : AudioPluginAudioProcessor Int :=
  ((AudioPluginAudioProcessor.init : AudioPluginAudioProcessor Int).prepareToPlay
    num_samples).getD AudioPluginAudioProcessor.init

/-- The forced-contention scenario: capacity 100, the consumer holds the guard
of slot 0 throughout, the producer writes two blocks of 30 samples. -/
def contendedTwice : Option (AudioPluginAudioProcessor Int) :=
  (((preparedProcessor 100).setData 0
      { (preparedProcessor 100).data 0 with lock_ := true }).processBlock
    (rampFrom 0) (rampFrom 500) 30).bind fun q => q.processBlock (rampFrom 30) (rampFrom 530) 30

/-- The same two blocks written with no contention. -/
def uncontendedTwice : Option (AudioPluginAudioProcessor Int) :=
  ((preparedProcessor 100).processBlock (rampFrom 0) (rampFrom 500) 30).bind fun q =>
    q.processBlock (rampFrom 30) (rampFrom 530) 30

/-- Producer steps only: contended, free, contended. -/
def produceEvents : List (Event Int) :=
  [.produce true (rampFrom 0) (rampFrom 500) 3,
   .produce false (rampFrom 3) (rampFrom 503) 8,
   .produce true (rampFrom 11) (rampFrom 511) 5]

/-- Producer steps, drains and a second `prepareToPlay`. -/
def mixedEvents : List (Event Int) :=
  [.produce true (rampFrom 0) (rampFrom 500) 3,
   .drain,
   .produce false (rampFrom 3) (rampFrom 503) 8,
   .prepare 6,
   .produce true (rampFrom 11) (rampFrom 511) 5,
   .drain]

/-- The run of `mixedEvents` from the first `prepareToPlay` with capacity 8. -/
def mixedRun : Option (System Int) :=
  run { processor := preparedProcessor 8, editor := freshEditor } mixedEvents

/-- A buffer of 1 channel and `2^30 + 1` samples, all zero, with the given
cursor and counter. -/
def hugeBuffer (cursor written : Int) : RingBuffer Int :=
  { num_channels_ := 1, num_samples_ := 1073741825, write_pos_ := cursor,
    num_written_ := written,
    buffer_ := List.replicate 1 (List.replicate 1073741825 0) }

/-- One second at 44100 Hz: the producer writes a block of 44100 samples with
the guard free, then the consumer drains. -/
def oneRound : List (Event Int) :=
  [.produce false (rampFrom 0) (rampFrom 500) 44100, .drain]

/-- The round `oneRound` repeated `k` times. -/
def rounds (k : Nat) : List (Event Int) :=
  (List.replicate k oneRound).flatten

/-- The concrete scenario of the specification: capacity 100, 2 channels,
the values `0..59` written, then the values `60..119`. -/
def scenarioBuffer : Option (RingBuffer Int) :=
  (RingBuffer.construct 2 100).bind fun rb0 =>
    (rb0.write (rampFrom 0) 0 60).bind fun rb1 => rb1.write (rampFrom 0) 60 60

/-- One second of audio at 44100 Hz. -/
def oneSecond : Block Int :=
  { src := rampFrom 0, start := 0, length := 44100 }

/-- A buffer of 2 channels and 44100 samples whose counter has reached
`total`, with the cursor at 0 (`total` a multiple of 44100). -/
def longRunBuffer (total : Int) : RingBuffer Int :=
  { num_channels_ := 2, num_samples_ := 44100, write_pos_ := 0, num_written_ := total,
    buffer_ := List.replicate 2 (List.replicate 44100 0) }

/-- A processor at 44100 Hz whose active slot 0 has received `total` samples
in both stores. -/
def longRunProcessor (total : Int) : AudioPluginAudioProcessor Int :=
  { datas_ :=
      ({ lock_ := false, pre_buffer_ := longRunBuffer total, post_buffer_ := longRunBuffer total },
       { lock_ := false, pre_buffer_ := longRunBuffer 0, post_buffer_ := longRunBuffer 0 })
    active_audio_data_ := some 0 }

/-- An editor whose watermark is `watermark`. -/
def editorAt (watermark : Int) : AudioPluginAudioProcessorEditor Int :=
  { buffer_ := zeroMemory, thumb_ := [], saved_thumbnail_position_ := 0,
    saved_written_size_ := watermark }

/-- Two blocks for a buffer of 4 samples: 3 samples, then 4. -/
def cursorBlocks : List (Block Int) :=
  [{ src := rampFrom 0, start := 0, length := 3 },
   { src := rampFrom 0, start := 3, length := 4 }]

/-- A processor that has run: capacity 8, a block of 3 samples written under
contention (slot 1 becomes active), then a block of 8 samples written with the
guard free. -/
def usedProcessor : AudioPluginAudioProcessor Int :=
  ((run { processor := preparedProcessor 8, editor := freshEditor }
      [.produce true (rampFrom 0) (rampFrom 500) 3,
       .produce false (rampFrom 3) (rampFrom 503) 8]).map fun s => s.processor).getD
    AudioPluginAudioProcessor.init

/-- The reset of `usedProcessor` to capacity 6. -/
def usedReset : Option (AudioPluginAudioProcessor Int) :=
  usedProcessor.prepareToPlay 6

/-- A schedule on a processor prepared with capacity 4: the GUI thread takes
the guard of slot 0, the audio thread fails its `try_lock`; the GUI thread
finishes its drain, starts the next one and loads the active reference (slot
0); the audio thread completes its failure path, which makes slot 1 active.
The GUI thread is now about to `try_lock` slot 0. -/
def lateAcquire : List (Action Int) :=
  [.consumeCall, .consumerStep, .consumerStep,
   .produceCall (rampFrom 0) (rampFrom 500) 3, .producerStep, .producerStep,
   .consumerStep, .consumerStep, .consumerStep,
   .consumeCall, .consumerStep,
   .producerStep, .producerStep, .producerStep, .producerStep, .producerStep]

/-- A schedule on a processor prepared with capacity 4: the GUI thread takes
the guard of slot 0, the audio thread fails its `try_lock` and assigns the
stores of slot 0 to slot 1.  It is now about to write its block to the
pre-store of slot 1. -/
def failedTryLock : List (Action Int) :=
  [.consumeCall, .consumerStep, .consumerStep,
   .produceCall (rampFrom 0) (rampFrom 500) 3, .producerStep, .producerStep,
   .producerStep, .producerStep]

/-- The run of `failedTryLock`. -/
def failedTryLockRun : Option (Threads Int) :=
  runActions (startThreads (preparedProcessor 4) freshEditor) failedTryLock

/-- The statement of the audio thread that follows the run of `failedTryLock`. -/
def failedTryLockNext : Option (Threads Int) :=
  failedTryLockRun.bind stepProducer

/-- Both threads on a processor prepared with capacity 4, the GUI thread at
the start of its drain. -/
def drainStarted : Threads Int :=
  (callTimerCallback (startThreads (preparedProcessor 4) freshEditor)).getD
    (startThreads (preparedProcessor 4) freshEditor)

/-! ## Basic facts about `toInt32` and `write` -/

theorem toInt32_of_range (x : Int) (h1 : -2147483648 ≤ x) (h2 : x < 2147483648) :
    toInt32 x = x := by
  unfold toInt32; omega

theorem write_noop {T : Type} (rb : RingBuffer T) (src : Int → Int → T)
    (start length : Int) (h : length = 0 ∨ rb.num_samples_ = 0) :
    rb.write src start length = some rb := by
  unfold RingBuffer.write
  rw [if_pos h]

theorem write_copy {T : Type} (rb : RingBuffer T) (src : Int → Int → T)
    (start length : Int) (h : ¬ (length = 0 ∨ rb.num_samples_ = 0))
    (hN : length ≤ rb.num_samples_) :
    rb.write src start length = some
      { rb with
        buffer_ := forChannels (toInt32 rb.num_channels_)
          (rb.write_row src start length) rb.buffer_ 0
        write_pos_ := rb.write_next_pos length
        num_written_ := rb.num_written_ + length } := by
  unfold RingBuffer.write
  rw [if_neg h, if_neg (not_not.mpr hN)]

theorem write_eq_some_of_le {T : Type} (rb : RingBuffer T) (src : Int → Int → T)
    (start length : Int) (h : length ≤ rb.num_samples_) :
    ∃ rb1, rb.write src start length = some rb1 := by
  by_cases hz : length = 0 ∨ rb.num_samples_ = 0
  · exact ⟨_, write_noop rb src start length hz⟩
  · exact ⟨_, write_copy rb src start length hz h⟩

theorem write_le_of_eq_some {T : Type} (rb rb1 : RingBuffer T) (src : Int → Int → T)
    (start length : Int) (h : rb.write src start length = some rb1) :
    length = 0 ∨ rb.num_samples_ = 0 ∨ length ≤ rb.num_samples_ := by
  by_cases hz : length = 0 ∨ rb.num_samples_ = 0
  · rcases hz with hz | hz
    · exact Or.inl hz
    · exact Or.inr (Or.inl hz)
  · by_cases hN : length ≤ rb.num_samples_
    · exact Or.inr (Or.inr hN)
    · unfold RingBuffer.write at h
      rw [if_neg hz, if_pos hN] at h
      cases h

theorem write_num_samples {T : Type} (rb rb1 : RingBuffer T) (src : Int → Int → T)
    (start length : Int) (h : rb.write src start length = some rb1) :
    rb1.num_samples_ = rb.num_samples_ := by
  by_cases hz : length = 0 ∨ rb.num_samples_ = 0
  · rw [write_noop rb src start length hz] at h
    cases h; rfl
  · by_cases hN : length ≤ rb.num_samples_
    · rw [write_copy rb src start length hz hN] at h
      cases h; rfl
    · unfold RingBuffer.write at h
      rw [if_neg hz, if_pos hN] at h
      cases h

theorem write_num_channels {T : Type} (rb rb1 : RingBuffer T) (src : Int → Int → T)
    (start length : Int) (h : rb.write src start length = some rb1) :
    rb1.num_channels_ = rb.num_channels_ := by
  by_cases hz : length = 0 ∨ rb.num_samples_ = 0
  · rw [write_noop rb src start length hz] at h
    cases h; rfl
  · by_cases hN : length ≤ rb.num_samples_
    · rw [write_copy rb src start length hz hN] at h
      cases h; rfl
    · unfold RingBuffer.write at h
      rw [if_neg hz, if_pos hN] at h
      cases h

theorem write_num_written {T : Type} (rb rb1 : RingBuffer T) (src : Int → Int → T)
    (start length : Int) (h0 : 0 ≤ length) (hN : length ≤ rb.num_samples_)
    (h : rb.write src start length = some rb1) :
    rb1.num_written_ = rb.num_written_ + length := by
  by_cases hz : length = 0 ∨ rb.num_samples_ = 0
  · rw [write_noop rb src start length hz] at h
    cases h
    rcases hz with hz | hz
    · omega
    · omega
  · rw [write_copy rb src start length hz hN] at h
    cases h; rfl

theorem read_eq_some_of_le {T : Type} (rb : RingBuffer T) (dest : Int → Int → T)
    (start length : Int) (h : length ≤ rb.num_samples_) :
    ∃ d, rb.read dest start length = some d := by
  unfold RingBuffer.read
  by_cases hz : length = 0 ∨ rb.num_samples_ = 0
  · rw [if_pos hz]; exact ⟨_, rfl⟩
  · rw [if_neg hz, if_neg (not_not.mpr h)]; exact ⟨_, rfl⟩

theorem applyOps_num_written {T : Type} (ops : List (Op T)) :
    ∀ rb : RingBuffer T, (∀ op ∈ ops, op.valid rb.num_samples_) →
      ∃ rb1, applyOps rb ops = some rb1 ∧ rb1.num_samples_ = rb.num_samples_ ∧
        rb1.num_written_ = rb.num_written_ + writtenLength ops ∧ 0 ≤ writtenLength ops := by
  induction ops with
  | nil => intro rb _; exact ⟨rb, rfl, rfl, by simp [writtenLength], by simp [writtenLength]⟩
  | cons op ops ih =>
    intro rb hv
    have hop := hv op (List.mem_cons_self _ _)
    have hrest : ∀ o ∈ ops, o.valid rb.num_samples_ :=
      fun o ho => hv o (List.mem_cons_of_mem _ ho)
    cases op with
    | write b =>
      obtain ⟨h0, hN⟩ := hop
      obtain ⟨rb1, h1⟩ := write_eq_some_of_le rb b.src b.start b.length hN
      have hs := write_num_samples rb rb1 _ _ _ h1
      have hw := write_num_written rb rb1 _ _ _ h0 hN h1
      obtain ⟨rb2, h2, hs2, hw2, hpos⟩ := ih rb1 (by rw [hs]; exact hrest)
      refine ⟨rb2, ?_, ?_, ?_, ?_⟩
      · simp [applyOps, applyOp, h1, h2]
      · rw [hs2, hs]
      · rw [hw2, hw]; simp [writtenLength]; omega
      · simp [writtenLength]; omega
    | read dest start length =>
      obtain ⟨d, hd⟩ := read_eq_some_of_le rb dest start length hop
      obtain ⟨rb2, h2, hs2, hw2, hpos⟩ := ih rb hrest
      refine ⟨rb2, ?_, hs2, ?_, ?_⟩
      · simp [applyOps, applyOp, hd, h2]
      · rw [hw2]; simp [writtenLength]
      · simp [writtenLength]; exact hpos

/-! ## The claims about the counter and the no-op case of `write` -/

/-- C3. Counter monotonicity: from every buffer state, a sequence of `write`
calls of lengths between 0 and the capacity and of `read` calls of lengths
up to the capacity runs to the end, and the total-written counter afterwards
is the counter before plus exactly the lengths of the writes; so each write
adds exactly its length, the counter never decreases, and a read leaves it
as it is. -/
theorem counter_adds_written_lengths {T : Type} (rb : RingBuffer T) (ops : List (Op T))
    (hvalid : ∀ op ∈ ops, op.valid rb.num_samples_) :
    ∃ rb1, applyOps rb ops = some rb1 ∧
      rb1.num_written_ = rb.num_written_ + writtenLength ops ∧
      rb.num_written_ ≤ rb1.num_written_ := by
  obtain ⟨rb1, h1, _, hw, hpos⟩ := applyOps_num_written ops rb hvalid
  exact ⟨rb1, h1, hw, by omega⟩

/-- C5. `write` is a no-op when `length == 0` or the capacity is 0: the call
returns the buffer it was given, with the stored samples, the cursor and the
total-written counter as before. -/
theorem write_is_noop_on_zero {T : Type} (rb : RingBuffer T) (src : Int → Int → T)
    (src_start_sample length : Int) (h : length = 0 ∨ rb.num_samples_ = 0) :
    rb.write src src_start_sample length = some rb ∧
      ∀ rb1, rb.write src src_start_sample length = some rb1 →
        rb1.buffer_ = rb.buffer_ ∧ rb1.write_pos_ = rb.write_pos_ ∧
          rb1.num_written_ = rb.num_written_ := by
  have hw := write_noop rb src src_start_sample length h
  refine ⟨hw, ?_⟩
  intro rb1 h1
  rw [hw] at h1
  cases h1
  exact ⟨rfl, rfl, rfl⟩

/-! ## The producer step -/

theorem data_setData_same {T : Type} (p : AudioPluginAudioProcessor T) (i : Fin 2)
    (ad : AudioData T) : (p.setData i ad).data i = ad := by
  fin_cases i <;> simp [AudioPluginAudioProcessor.data, AudioPluginAudioProcessor.setData]

theorem data_setData_opposite {T : Type} (p : AudioPluginAudioProcessor T) (i : Fin 2)
    (ad : AudioData T) :
    (p.setData (AudioPluginAudioProcessor.opposite i) ad).data i = p.data i := by
  fin_cases i <;>
    simp [AudioPluginAudioProcessor.data, AudioPluginAudioProcessor.setData,
      AudioPluginAudioProcessor.opposite]

theorem active_setData {T : Type} (p : AudioPluginAudioProcessor T) (i : Fin 2)
    (ad : AudioData T) : (p.setData i ad).active_audio_data_ = p.active_audio_data_ := by
  fin_cases i <;> simp [AudioPluginAudioProcessor.setData]

theorem setData_setData {T : Type} (p : AudioPluginAudioProcessor T) (i : Fin 2)
    (a b : AudioData T) : (p.setData i a).setData i b = p.setData i b := by
  fin_cases i <;> simp [AudioPluginAudioProcessor.setData]

theorem opposite_ne (i : Fin 2) : AudioPluginAudioProcessor.opposite i ≠ i := by
  fin_cases i <;> simp [AudioPluginAudioProcessor.opposite]

/-- The success path: both stores of the current slot are written in place,
the guard is released and the active reference stays. -/
theorem processBlock_locked_eq {T : Type} (p : AudioPluginAudioProcessor T) (ad : Fin 2)
    (pre_data post_data : Int → Int → T) (length : Int) (pre post : RingBuffer T)
    (hpre : (p.data ad).pre_buffer_.write pre_data 0 length = some pre)
    (hpost : (p.data ad).post_buffer_.write post_data 0 length = some post) :
    p.processBlock_locked ad pre_data post_data length =
      some (p.setData ad { lock_ := false, pre_buffer_ := pre, post_buffer_ := post }) := by
  unfold AudioPluginAudioProcessor.processBlock_locked
  rw [hpre]
  simp only [Option.bind, data_setData_same]
  rw [hpost]
  fin_cases ad <;> simp [AudioPluginAudioProcessor.setData, AudioData.unlock]

/-- The failure path before the exchange: the other slot has received the
current slot's stores with the block written to them. -/
theorem processBlock_clone_and_write_eq {T : Type} (p : AudioPluginAudioProcessor T)
    (ad : Fin 2) (pre_data post_data : Int → Int → T) (length : Int) (pre post : RingBuffer T)
    (hpre : (p.data ad).pre_buffer_.write pre_data 0 length = some pre)
    (hpost : (p.data ad).post_buffer_.write post_data 0 length = some post) :
    p.processBlock_clone_and_write ad pre_data post_data length =
      some (p.setData (AudioPluginAudioProcessor.opposite ad)
          { lock_ := (p.data (AudioPluginAudioProcessor.opposite ad)).lock_,
            pre_buffer_ := pre, post_buffer_ := post }) := by
  unfold AudioPluginAudioProcessor.processBlock_clone_and_write
  simp only [data_setData_same, data_setData_opposite]
  rw [hpre]
  simp only [Option.bind, data_setData_same]
  rw [hpost]
  simp only [setData_setData]

/-- The failure path: the other slot receives the current slot's stores with
the block written to them, and becomes the active one. -/
theorem processBlock_contended_eq {T : Type} (p : AudioPluginAudioProcessor T) (ad : Fin 2)
    (pre_data post_data : Int → Int → T) (length : Int) (pre post : RingBuffer T)
    (hact : p.active_audio_data_ = some ad)
    (hpre : (p.data ad).pre_buffer_.write pre_data 0 length = some pre)
    (hpost : (p.data ad).post_buffer_.write post_data 0 length = some post) :
    p.processBlock_contended ad pre_data post_data length =
      some { (p.setData (AudioPluginAudioProcessor.opposite ad)
          { lock_ := (p.data (AudioPluginAudioProcessor.opposite ad)).lock_,
            pre_buffer_ := pre, post_buffer_ := post }) with
        active_audio_data_ := some (AudioPluginAudioProcessor.opposite ad) } := by
  unfold AudioPluginAudioProcessor.processBlock_contended
  rw [processBlock_clone_and_write_eq p ad pre_data post_data length pre post hpre hpost]
  simp only [Option.bind, AudioPluginAudioProcessor.exchange, active_setData, hact]
  fin_cases ad <;>
    simp [AudioPluginAudioProcessor.setData, AudioPluginAudioProcessor.opposite]

theorem data_setData_of_ne {T : Type} (p : AudioPluginAudioProcessor T) (i j : Fin 2)
    (ad : AudioData T) (h : j ≠ i) : (p.setData i ad).data j = p.data j := by
  fin_cases i <;> fin_cases j <;>
    simp_all [AudioPluginAudioProcessor.data, AudioPluginAudioProcessor.setData]

/-- The whole producer step, by the state of the current slot's guard. -/
theorem processBlock_eq {T : Type} (p : AudioPluginAudioProcessor T) (ad : Fin 2)
    (pre_data post_data : Int → Int → T) (length : Int) (pre post : RingBuffer T)
    (hact : p.active_audio_data_ = some ad)
    (hpre : (p.data ad).pre_buffer_.write pre_data 0 length = some pre)
    (hpost : (p.data ad).post_buffer_.write post_data 0 length = some post) :
    p.processBlock pre_data post_data length =
      if (p.data ad).lock_ then
        some { (p.setData (AudioPluginAudioProcessor.opposite ad)
            { lock_ := (p.data (AudioPluginAudioProcessor.opposite ad)).lock_,
              pre_buffer_ := pre, post_buffer_ := post }) with
          active_audio_data_ := some (AudioPluginAudioProcessor.opposite ad) }
      else some (p.setData ad { lock_ := false, pre_buffer_ := pre, post_buffer_ := post }) := by
  unfold AudioPluginAudioProcessor.processBlock
  rw [hact]
  by_cases hl : (p.data ad).lock_ = true
  · simp only [AudioData.try_lock, hl, if_true]
    exact processBlock_contended_eq p ad pre_data post_data length pre post hact hpre hpost
  · have hl2 : (p.data ad).lock_ = false := by simpa using hl
    simp only [AudioData.try_lock, hl2, if_true, Bool.false_eq_true, if_false]
    rw [processBlock_locked_eq _ ad pre_data post_data length pre post
      (by rw [data_setData_same]; exact hpre) (by rw [data_setData_same]; exact hpost)]
    rw [setData_setData]

theorem consumerHolds_active {T : Type} (p : AudioPluginAudioProcessor T) (held : Bool) :
    (consumerHolds p held).active_audio_data_ = p.active_audio_data_ := by
  unfold consumerHolds
  split
  · rw [active_setData]
  · rfl

theorem consumerHolds_data {T : Type} (p : AudioPluginAudioProcessor T) (held : Bool)
    (ad : Fin 2) (hact : p.active_audio_data_ = some ad) :
    (consumerHolds p held).data ad = { p.data ad with lock_ := held } := by
  unfold consumerHolds
  rw [hact]
  simp only [data_setData_same]

theorem consumerHolds_data_buffers {T : Type} (p : AudioPluginAudioProcessor T) (held : Bool)
    (i : Fin 2) :
    ((consumerHolds p held).data i).pre_buffer_ = (p.data i).pre_buffer_ ∧
      ((consumerHolds p held).data i).post_buffer_ = (p.data i).post_buffer_ := by
  unfold consumerHolds
  split
  · rename_i ad _
    by_cases h : i = ad
    · subst h; rw [data_setData_same]; exact ⟨rfl, rfl⟩
    · rw [data_setData_of_ne _ _ _ _ h]; exact ⟨rfl, rfl⟩
  · exact ⟨rfl, rfl⟩

/-- A producer step of the sequential model: with the guard free the current
slot is written in place, with the guard held the other slot receives the
current stores plus the block and becomes active. -/
theorem processBlock_consumerHolds {T : Type} (p : AudioPluginAudioProcessor T) (ad : Fin 2)
    (held : Bool) (pre_data post_data : Int → Int → T) (length : Int)
    (pre post : RingBuffer T)
    (hact : p.active_audio_data_ = some ad)
    (hpre : (p.data ad).pre_buffer_.write pre_data 0 length = some pre)
    (hpost : (p.data ad).post_buffer_.write post_data 0 length = some post) :
    ∃ q, (consumerHolds p held).processBlock pre_data post_data length = some q ∧
      q.active_audio_data_ = some (if held then AudioPluginAudioProcessor.opposite ad else ad) ∧
      (q.data (if held then AudioPluginAudioProcessor.opposite ad else ad)).pre_buffer_ = pre ∧
      (q.data (if held then AudioPluginAudioProcessor.opposite ad else ad)).post_buffer_ = post ∧
      (∀ i, i ≠ (if held then AudioPluginAudioProcessor.opposite ad else ad) →
        (q.data i).pre_buffer_ = (p.data i).pre_buffer_ ∧
        (q.data i).post_buffer_ = (p.data i).post_buffer_) := by
  have hb := consumerHolds_data_buffers p held
  have hd := consumerHolds_data p held ad hact
  rw [processBlock_eq (consumerHolds p held) ad pre_data post_data length pre post
    (by rw [consumerHolds_active]; exact hact)
    (by rw [(hb ad).1]; exact hpre) (by rw [(hb ad).2]; exact hpost)]
  rw [hd]
  cases held with
  | true =>
    simp only [if_true]
    refine ⟨_, rfl, rfl, ?_, ?_, ?_⟩
    · show (AudioPluginAudioProcessor.data (AudioPluginAudioProcessor.setData _ _ _) _).pre_buffer_
        = pre
      rw [data_setData_same]
    · show (AudioPluginAudioProcessor.data (AudioPluginAudioProcessor.setData _ _ _) _).post_buffer_
        = post
      rw [data_setData_same]
    · intro i hi
      show (AudioPluginAudioProcessor.data (AudioPluginAudioProcessor.setData _ _ _) _).pre_buffer_
          = _ ∧
        (AudioPluginAudioProcessor.data (AudioPluginAudioProcessor.setData _ _ _) _).post_buffer_
          = _
      rw [data_setData_of_ne _ _ _ _ hi]
      exact hb i
  | false =>
    simp only [Bool.false_eq_true, if_false]
    refine ⟨_, rfl, ?_, ?_, ?_, ?_⟩
    · rw [active_setData, consumerHolds_active]; exact hact
    · rw [data_setData_same]
    · rw [data_setData_same]
    · intro i hi
      rw [data_setData_of_ne _ _ _ _ hi]
      exact hb i

/-- C6. Contention does not change the result of a producer step: from every
coordinator state with an active slot and for every block no longer than the
capacity of that slot's stores, the step has a result both when the guard of
the current slot is free (write in place) and when it is held (clone into the
other slot, write there, exchange), and the pre-store and the post-store of
the slot that is active afterwards are the same in both cases (contents,
cursor and total-written counter). -/
theorem contention_keeps_written_stores {T : Type} (p : AudioPluginAudioProcessor T)
    (cur : Fin 2) (pre_data post_data : Int → Int → T) (length : Int)
    (hact : p.active_audio_data_ = some cur)
    (hpre : length ≤ (p.data cur).pre_buffer_.num_samples_)
    (hpost : length ≤ (p.data cur).post_buffer_.num_samples_) :
    ∃ q1 q2 a1 a2,
      (consumerHolds p false).processBlock pre_data post_data length = some q1 ∧
      (consumerHolds p true).processBlock pre_data post_data length = some q2 ∧
      q1.active_audio_data_ = some a1 ∧ q2.active_audio_data_ = some a2 ∧
      a1 = cur ∧ a2 = AudioPluginAudioProcessor.opposite cur ∧
      (q1.data a1).pre_buffer_ = (q2.data a2).pre_buffer_ ∧
      (q1.data a1).post_buffer_ = (q2.data a2).post_buffer_ := by
  obtain ⟨pre, hw1⟩ := write_eq_some_of_le _ pre_data 0 length hpre
  obtain ⟨post, hw2⟩ := write_eq_some_of_le _ post_data 0 length hpost
  obtain ⟨q1, h1, ha1, hp1, hq1, _⟩ :=
    processBlock_consumerHolds p cur false pre_data post_data length pre post hact hw1 hw2
  obtain ⟨q2, h2, ha2, hp2, hq2, _⟩ :=
    processBlock_consumerHolds p cur true pre_data post_data length pre post hact hw1 hw2
  simp only [Bool.false_eq_true, if_false] at ha1 hp1 hq1
  simp only [if_true] at ha2 hp2 hq2
  exact ⟨q1, q2, cur, AudioPluginAudioProcessor.opposite cur, h1, h2, ha1, ha2, rfl, rfl,
    by rw [hp1, hp2], by rw [hq1, hq2]⟩

/-! ## Reset and the counters of a slot -/

theorem write_num_written_cases {T : Type} (rb rb1 : RingBuffer T) (src : Int → Int → T)
    (start length : Int) (h : rb.write src start length = some rb1) :
    rb1.num_written_ =
      if length = 0 ∨ rb.num_samples_ = 0 then rb.num_written_ else rb.num_written_ + length := by
  by_cases hz : length = 0 ∨ rb.num_samples_ = 0
  · rw [write_noop rb src start length hz] at h
    cases h
    rw [if_pos hz]
  · rw [if_neg hz]
    by_cases hN : length ≤ rb.num_samples_
    · rw [write_copy rb src start length hz hN] at h
      cases h; rfl
    · unfold RingBuffer.write at h
      rw [if_neg hz, if_pos hN] at h
      cases h

theorem construct_eq_some {T : Type} [Zero T] (c n : Int) (rb : RingBuffer T)
    (h : RingBuffer.construct c n = some rb) :
    0 ≤ c ∧ 0 ≤ n ∧ rb.num_channels_ = c ∧ rb.num_samples_ = n ∧ rb.write_pos_ = 0 ∧
      rb.num_written_ = 0 ∧
      rb.buffer_ = List.replicate c.toNat (List.replicate n.toNat 0) := by
  unfold RingBuffer.construct at h
  split at h
  · cases h
  · cases h
    refine ⟨by omega, by omega, rfl, rfl, rfl, rfl, rfl⟩

/-- What `prepareToPlay` leaves behind: four copies of one freshly constructed
buffer, and an active reference that is the previous one when that was not
null and slot 0 otherwise. -/
theorem prepareToPlay_eq_some {T : Type} [Zero T] (p p1 : AudioPluginAudioProcessor T)
    (n : Int) (h : p.prepareToPlay n = some p1) :
    ∃ buffer : RingBuffer T, RingBuffer.construct 2 n = some buffer ∧
      (∀ i, (p1.data i).pre_buffer_ = buffer ∧ (p1.data i).post_buffer_ = buffer) ∧
      p1.active_audio_data_ = some (p.active_audio_data_.getD 0) := by
  unfold AudioPluginAudioProcessor.prepareToPlay at h
  cases hc : (RingBuffer.construct 2 n : Option (RingBuffer T)) with
  | none =>
    rw [hc] at h
    cases hact : p.active_audio_data_ with
    | none => rw [hact] at h; simp at h
    | some i =>
      rw [hact] at h
      dsimp only at h
      cases hl : (p.data i).lock <;> rw [hl] at h <;> simp at h
  | some buffer =>
    rw [hc] at h
    refine ⟨buffer, rfl, ?_⟩
    cases hact : p.active_audio_data_ with
    | none =>
      rw [hact] at h
      simp only [Option.bind, if_true] at h
      cases h
      constructor
      · intro i
        fin_cases i <;>
          simp [AudioPluginAudioProcessor.data, AudioPluginAudioProcessor.setData]
      · simp [AudioPluginAudioProcessor.setData]
    | some i =>
      rw [hact] at h
      dsimp only at h
      cases hl : (p.data i).lock with
      | none => rw [hl] at h; simp at h
      | some ad =>
        rw [hl] at h
        simp only [Option.map, Option.bind, Bool.true_eq_false, if_false] at h
        cases h
        constructor
        · intro j
          fin_cases i <;> fin_cases j <;>
            simp [AudioPluginAudioProcessor.data, AudioPluginAudioProcessor.setData,
              AudioData.unlock]
        · fin_cases i <;>
            simp [AudioPluginAudioProcessor.setData, hact]

theorem consumerReleases_active {T : Type} (p : AudioPluginAudioProcessor T) :
    (consumerReleases p).active_audio_data_ = p.active_audio_data_ := rfl

theorem consumerReleases_data {T : Type} (p : AudioPluginAudioProcessor T) (i : Fin 2) :
    (consumerReleases p).data i = (p.data i).unlock := by
  fin_cases i <;> simp [consumerReleases, AudioPluginAudioProcessor.data]

/-- A producer step that has a result had an active slot whose two writes
passed their assertion. -/
theorem processBlock_eq_some {T : Type} (p q : AudioPluginAudioProcessor T)
    (pre_data post_data : Int → Int → T) (length : Int)
    (h : p.processBlock pre_data post_data length = some q) :
    ∃ ad pre post, p.active_audio_data_ = some ad ∧
      (p.data ad).pre_buffer_.write pre_data 0 length = some pre ∧
      (p.data ad).post_buffer_.write post_data 0 length = some post := by
  cases hact : p.active_audio_data_ with
  | none =>
    unfold AudioPluginAudioProcessor.processBlock at h
    rw [hact] at h
    cases h
  | some ad =>
    cases hw1 : (p.data ad).pre_buffer_.write pre_data 0 length with
    | none =>
      exfalso
      unfold AudioPluginAudioProcessor.processBlock at h
      rw [hact] at h
      dsimp only at h
      split at h
      · unfold AudioPluginAudioProcessor.processBlock_locked at h
        simp only [data_setData_same, AudioData.try_lock] at h
        split at h <;> simp_all
      · unfold AudioPluginAudioProcessor.processBlock_contended
          AudioPluginAudioProcessor.processBlock_clone_and_write at h
        simp only [data_setData_same, data_setData_opposite, hw1] at h
        simp at h
    | some pre =>
      cases hw2 : (p.data ad).post_buffer_.write post_data 0 length with
      | none =>
        exfalso
        unfold AudioPluginAudioProcessor.processBlock at h
        rw [hact] at h
        dsimp only at h
        split at h
        · unfold AudioPluginAudioProcessor.processBlock_locked at h
          simp only [data_setData_same, AudioData.try_lock] at h
          split at h <;> simp_all [data_setData_same]
        · unfold AudioPluginAudioProcessor.processBlock_contended
            AudioPluginAudioProcessor.processBlock_clone_and_write at h
          simp only [data_setData_same, data_setData_opposite, hw1, Option.bind, hw2] at h
          simp at h
      | some post => exact ⟨ad, pre, post, rfl, hw1, hw2⟩

theorem write_counters_agree {T : Type} (a b a1 b1 : RingBuffer T) (sa sb : Int → Int → T)
    (length : Int) (hs : a.num_samples_ = b.num_samples_) (hw : a.num_written_ = b.num_written_)
    (ha : a.write sa 0 length = some a1) (hb : b.write sb 0 length = some b1) :
    a1.num_samples_ = a.num_samples_ ∧ b1.num_samples_ = a.num_samples_ ∧
      a1.num_written_ = b1.num_written_ := by
  refine ⟨write_num_samples _ _ _ _ _ ha, ?_, ?_⟩
  · rw [write_num_samples _ _ _ _ _ hb, hs]
  · rw [write_num_written_cases _ _ _ _ _ ha, write_num_written_cases _ _ _ _ _ hb, hs, hw]

/-- A producer step keeps the capacities and the equality of the two counters
of each slot. -/
theorem produce_keeps_CountersAgree {T : Type} (capacity : Int)
    (p q : AudioPluginAudioProcessor T) (held : Bool) (pre_data post_data : Int → Int → T)
    (length : Int) (hJ : CountersAgree capacity p)
    (h : (consumerHolds p held).processBlock pre_data post_data length = some q) :
    CountersAgree capacity (consumerReleases q) ∧ q.active_audio_data_.isSome := by
  obtain ⟨ad, pre, post, hact, hw1, hw2⟩ := processBlock_eq_some _ _ _ _ _ h
  rw [consumerHolds_active] at hact
  have hb := consumerHolds_data_buffers p held
  rw [(hb ad).1] at hw1
  rw [(hb ad).2] at hw2
  obtain ⟨q1, h1, ha1, hp1, hq1, hrest⟩ :=
    processBlock_consumerHolds p ad held pre_data post_data length pre post hact hw1 hw2
  rw [h] at h1
  cases h1
  obtain ⟨hJ1, hJ2, hJ3⟩ := hJ ad
  obtain ⟨hc1, hc2, hc3⟩ := write_counters_agree _ _ _ _ _ _ _ (by rw [hJ1, hJ2]) hJ3 hw1 hw2
  refine ⟨?_, by rw [ha1]; rfl⟩
  intro i
  rw [consumerReleases_data]
  by_cases hi : i = (if held then AudioPluginAudioProcessor.opposite ad else ad)
  · subst hi
    show (q.data _).pre_buffer_.num_samples_ = capacity ∧
      (q.data _).post_buffer_.num_samples_ = capacity ∧
      (q.data _).pre_buffer_.num_written_ = (q.data _).post_buffer_.num_written_
    rw [hp1, hq1]
    exact ⟨by rw [hc1, hJ1], by rw [hc2, hJ1], hc3⟩
  · obtain ⟨hr1, hr2⟩ := hrest i hi
    show (q.data i).pre_buffer_.num_samples_ = capacity ∧
      (q.data i).post_buffer_.num_samples_ = capacity ∧
      (q.data i).pre_buffer_.num_written_ = (q.data i).post_buffer_.num_written_
    rw [hr1, hr2]
    exact hJ i

/-- A producer step with a block of at most the capacity has a result. -/
theorem produce_eq_some {T : Type} (capacity : Int) (p : AudioPluginAudioProcessor T)
    (ad : Fin 2) (held : Bool) (pre_data post_data : Int → Int → T) (length : Int)
    (hJ : CountersAgree capacity p) (hact : p.active_audio_data_ = some ad)
    (hlen : length ≤ capacity) :
    ∃ q, (consumerHolds p held).processBlock pre_data post_data length = some q := by
  obtain ⟨hJ1, hJ2, _⟩ := hJ ad
  obtain ⟨pre, hw1⟩ := write_eq_some_of_le (p.data ad).pre_buffer_ pre_data 0 length
    (by rw [hJ1]; exact hlen)
  obtain ⟨post, hw2⟩ := write_eq_some_of_le (p.data ad).post_buffer_ post_data 0 length
    (by rw [hJ2]; exact hlen)
  obtain ⟨q, hq, _⟩ :=
    processBlock_consumerHolds p ad held pre_data post_data length pre post hact hw1 hw2
  exact ⟨q, hq⟩

theorem run_produce_CountersAgree {T : Type} [Zero T] (capacity : Int) (events : List (Event T)) :
    ∀ s : System T, CountersAgree capacity s.processor →
      s.processor.active_audio_data_.isSome →
      (∀ ev ∈ events, ev.isProduceUpTo capacity) →
      ∃ s1, run s events = some s1 ∧ CountersAgree capacity s1.processor ∧
        s1.processor.active_audio_data_.isSome := by
  induction events with
  | nil => intro s hJ ha _; exact ⟨s, rfl, hJ, ha⟩
  | cons ev evs ih =>
    intro s hJ ha hev
    have h0 := hev ev (List.mem_cons_self _ _)
    have hrest : ∀ e ∈ evs, e.isProduceUpTo capacity :=
      fun e he => hev e (List.mem_cons_of_mem _ he)
    cases ev with
    | produce held pre_data post_data length =>
      obtain ⟨ad, hact⟩ := Option.isSome_iff_exists.mp ha
      obtain ⟨q, hq⟩ := produce_eq_some capacity s.processor ad held pre_data post_data length
        hJ hact h0
      obtain ⟨hJ1, ha1⟩ := produce_keeps_CountersAgree capacity _ _ _ _ _ _ hJ hq
      obtain ⟨s1, hs1, hJ2, ha2⟩ := ih { s with processor := consumerReleases q } hJ1
        (by rw [consumerReleases_active]; exact ha1) hrest
      refine ⟨s1, ?_, hJ2, ha2⟩
      simp only [run, step, hq, Option.map, Option.bind]
      exact hs1
    | drain => exact absurd h0 (by simp [Event.isProduceUpTo])
    | prepare n => exact absurd h0 (by simp [Event.isProduceUpTo])

/-- C9. Pre/post counter equality: after a reset by `prepareToPlay`, every
sequence of producer steps (with the guard of the active slot held or free,
blocks of at most the capacity) runs to the end, and in the state reached the
pre-store and the post-store of each of the two slots have equal
total-written counters, so that `getNumWritten()` of the two agree and the
consumer's assertion holds. -/
theorem pre_post_counters_equal {T : Type} [Zero T] (p0 p1 : AudioPluginAudioProcessor T)
    (num_samples : Int) (e : AudioPluginAudioProcessorEditor T) (events : List (Event T))
    (hreset : p0.prepareToPlay num_samples = some p1)
    (hprod : ∀ ev ∈ events, ev.isProduceUpTo num_samples) :
    ∃ s, run { processor := p1, editor := e } events = some s ∧
      ∀ i : Fin 2,
        (s.processor.data i).pre_buffer_.num_written_ =
          (s.processor.data i).post_buffer_.num_written_ ∧
        (s.processor.data i).pre_buffer_.getNumWritten =
          (s.processor.data i).post_buffer_.getNumWritten := by
  obtain ⟨buffer, hc, hb, hact⟩ := prepareToPlay_eq_some p0 p1 num_samples hreset
  obtain ⟨_, _, _, hn, _, _, _⟩ := construct_eq_some 2 num_samples buffer hc
  have hJ : CountersAgree num_samples p1 := by
    intro i
    rw [(hb i).1, (hb i).2]
    exact ⟨hn, hn, rfl⟩
  obtain ⟨s, hs, hJ1, _⟩ := run_produce_CountersAgree num_samples events
    { processor := p1, editor := e } hJ (by rw [hact]; rfl) hprod
  refine ⟨s, hs, fun i => ⟨(hJ1 i).2.2, ?_⟩⟩
  unfold RingBuffer.getNumWritten
  rw [(hJ1 i).2.2]

/-! ## The active reference -/

theorem timerCallback_processor {T : Type} (p q : AudioPluginAudioProcessor T)
    (e e1 : AudioPluginAudioProcessorEditor T)
    (h : AudioPluginAudioProcessorEditor.timerCallback p e = some (q, e1)) :
    q.active_audio_data_ = p.active_audio_data_ ∧
      ∀ i, (q.data i).pre_buffer_ = (p.data i).pre_buffer_ ∧
        (q.data i).post_buffer_ = (p.data i).post_buffer_ := by
  unfold AudioPluginAudioProcessorEditor.timerCallback at h
  cases hact : p.active_audio_data_ with
  | none =>
    rw [hact] at h
    simp only [Option.some.injEq, Prod.mk.injEq] at h
    rw [← h.1]
    exact ⟨hact, fun i => ⟨rfl, rfl⟩⟩
  | some ad =>
    rw [hact] at h
    dsimp only at h
    split at h
    · split at h
      · simp only [Option.bind_eq_some, Option.some.injEq, Prod.mk.injEq] at h
        obtain ⟨b1, _, b2, _, hq, _⟩ := h
        rw [← hq]
        refine ⟨by rw [active_setData, hact], ?_⟩
        intro i
        by_cases hi : i = ad
        · subst hi
          rw [data_setData_same]
          unfold AudioData.try_lock AudioData.unlock
          split <;> exact ⟨rfl, rfl⟩
        · rw [data_setData_of_ne _ _ _ _ hi]
          exact ⟨rfl, rfl⟩
      · cases h
    · cases h

theorem step_keeps_active_isSome {T : Type} [Zero T] (s s1 : System T) (ev : Event T)
    (h : step s ev = some s1) (ha : s.processor.active_audio_data_.isSome) :
    s1.processor.active_audio_data_.isSome := by
  cases ev with
  | produce held pre_data post_data length =>
    simp only [step, Option.map_eq_some'] at h
    obtain ⟨q, hq, hs1⟩ := h
    obtain ⟨ad, pre, post, hact, hw1, hw2⟩ := processBlock_eq_some _ _ _ _ _ hq
    rw [consumerHolds_active] at hact
    have hb := consumerHolds_data_buffers s.processor held
    rw [(hb ad).1] at hw1
    rw [(hb ad).2] at hw2
    obtain ⟨q1, h1, ha1, _⟩ :=
      processBlock_consumerHolds s.processor ad held pre_data post_data length pre post
        hact hw1 hw2
    rw [hq] at h1
    cases h1
    rw [← hs1]
    show (consumerReleases q).active_audio_data_.isSome
    rw [consumerReleases_active, ha1]
    rfl
  | drain =>
    simp only [step, Option.map_eq_some'] at h
    obtain ⟨r, hr, hs1⟩ := h
    obtain ⟨hact, _⟩ := timerCallback_processor s.processor r.1 s.editor r.2 hr
    rw [← hs1]
    show r.1.active_audio_data_.isSome
    rw [hact]
    exact ha
  | prepare n =>
    simp only [step, Option.map_eq_some'] at h
    obtain ⟨q, hq, hs1⟩ := h
    obtain ⟨_, _, _, hact⟩ := prepareToPlay_eq_some _ _ _ hq
    rw [← hs1]
    show q.active_audio_data_.isSome
    rw [hact]
    rfl

theorem run_keeps_active_isSome {T : Type} [Zero T] (events : List (Event T)) :
    ∀ s s1 : System T, run s events = some s1 → s.processor.active_audio_data_.isSome →
      s1.processor.active_audio_data_.isSome := by
  induction events with
  | nil =>
    intro s s1 h ha
    simp only [run, Option.some.injEq] at h
    rw [← h]; exact ha
  | cons ev evs ih =>
    intro s s1 h ha
    simp only [run, Option.bind_eq_some] at h
    obtain ⟨s2, h2, h3⟩ := h
    exact ih s2 s1 h3 (step_keeps_active_isSome s s2 ev h2 ha)

theorem fin2_some_cases (a : Option (Fin 2)) (h : a.isSome) : a = some 0 ∨ a = some 1 := by
  obtain ⟨i, rfl⟩ := Option.isSome_iff_exists.mp h
  fin_cases i
  · exact Or.inl rfl
  · exact Or.inr rfl

/-- C10. Active-slot invariant: the first `prepareToPlay` after construction
leaves the active reference at slot 0 (`datas_[0]`); in every state reached
from there by producer steps, consumer drains and further `prepareToPlay`
calls the reference is not null and is slot 0 or slot 1; and a producer step
from such a state changes the reference exactly when `try_lock` on the
current slot fails, in which case the new reference is the other slot and the
exchange returns the previous one. -/
theorem active_slot_invariant {T : Type} [Zero T] (num_samples : Int)
    (p1 : AudioPluginAudioProcessor T) (e : AudioPluginAudioProcessorEditor T)
    (events : List (Event T)) (s : System T)
    (hfirst : (AudioPluginAudioProcessor.init : AudioPluginAudioProcessor T).prepareToPlay
      num_samples = some p1)
    (hrun : run { processor := p1, editor := e } events = some s) :
    p1.active_audio_data_ = some 0 ∧
    (s.processor.active_audio_data_ = some 0 ∨ s.processor.active_audio_data_ = some 1) ∧
    ∀ (held : Bool) (pre_data post_data : Int → Int → T) (length : Int)
      (q : AudioPluginAudioProcessor T),
      (consumerHolds s.processor held).processBlock pre_data post_data length = some q →
      ∃ cur, s.processor.active_audio_data_ = some cur ∧
        (q.active_audio_data_ ≠ some cur ↔
          ((consumerHolds s.processor held).data cur).try_lock.1 = false) ∧
        (((consumerHolds s.processor held).data cur).try_lock.1 = false →
          q.active_audio_data_ = some (AudioPluginAudioProcessor.opposite cur) ∧
          ∃ p4, (consumerHolds s.processor held).processBlock_clone_and_write cur
              pre_data post_data length = some p4 ∧
            (p4.exchange (some (AudioPluginAudioProcessor.opposite cur))).1 = some cur) := by
  obtain ⟨_, _, _, hact1⟩ := prepareToPlay_eq_some _ _ _ hfirst
  have h10 : p1.active_audio_data_ = some 0 := by
    rw [hact1]; rfl
  have hsome := run_keeps_active_isSome events _ s hrun (by show p1.active_audio_data_.isSome
                                                            rw [h10]; rfl)
  refine ⟨h10, fin2_some_cases _ hsome, ?_⟩
  intro held pre_data post_data length q hq
  obtain ⟨ad, pre, post, hact, hw1, hw2⟩ := processBlock_eq_some _ _ _ _ _ hq
  have hw1c := hw1
  have hw2c := hw2
  have hactc := hact
  rw [consumerHolds_active] at hact
  have hb := consumerHolds_data_buffers s.processor held
  rw [(hb ad).1] at hw1
  rw [(hb ad).2] at hw2
  obtain ⟨q1, h1, ha1, _⟩ :=
    processBlock_consumerHolds s.processor ad held pre_data post_data length pre post
      hact hw1 hw2
  rw [hq] at h1
  cases h1
  have htry : ((consumerHolds s.processor held).data ad).try_lock.1 = !held := by
    rw [consumerHolds_data _ _ _ hact]
    cases held <;> rfl
  refine ⟨ad, hact, ?_, ?_⟩
  · rw [ha1, htry]
    cases held
    · simp
    · simp only [if_true, Bool.not_true, iff_true]
      intro hx
      exact opposite_ne ad (Option.some.inj hx)
  · rw [htry]
    intro hh
    have hheld : held = true := by
      cases held
      · exact absurd hh (by decide)
      · rfl
    subst hheld
    refine ⟨by rw [ha1]; rfl, _, processBlock_clone_and_write_eq _ ad pre_data post_data length
      pre post hw1c hw2c, ?_⟩
    show (AudioPluginAudioProcessor.setData _ _ _).active_audio_data_ = some ad
    rw [active_setData]
    exact hactc

/-! ## The 32-bit accessor `getNumWritten` -/

theorem writeAll_num_written {T : Type} (bs : List (Block T)) :
    ∀ rb : RingBuffer T, (∀ b ∈ bs, 0 ≤ b.length ∧ b.length ≤ rb.num_samples_) →
      ∃ rb1, writeAll rb bs = some rb1 ∧ rb1.num_samples_ = rb.num_samples_ ∧
        rb1.num_written_ = rb.num_written_ + totalLength bs := by
  induction bs with
  | nil => intro rb _; exact ⟨rb, rfl, rfl, by simp [totalLength]⟩
  | cons b bs ih =>
    intro rb hv
    obtain ⟨h0, hN⟩ := hv b (List.mem_cons_self _ _)
    obtain ⟨rb1, h1⟩ := write_eq_some_of_le rb b.src b.start b.length hN
    have hs := write_num_samples rb rb1 _ _ _ h1
    have hw := write_num_written rb rb1 _ _ _ h0 hN h1
    obtain ⟨rb2, h2, hs2, hw2⟩ := ih rb1 (fun c hc => by
      rw [hs]; exact hv c (List.mem_cons_of_mem _ hc))
    refine ⟨rb2, ?_, by rw [hs2, hs], ?_⟩
    · simp only [writeAll, h1, Option.bind]
      exact h2
    · rw [hw2, hw]
      simp only [totalLength, List.map_cons, List.sum_cons]
      omega

theorem totalLength_replicate {T : Type} (k : Nat) (b : Block T) :
    totalLength (List.replicate k b) = k * b.length := by
  unfold totalLength
  rw [List.map_replicate, List.sum_replicate]
  simp

/-- C4 at the failing input. A `RingBuffer<float>(2, 44100)` that has received
48696 blocks of 44100 samples holds the total 2147493600 in `num_written_`,
and `getNumWritten()` returns -2147473696. -/
theorem getNumWritten_wraps_past_int_max :
    RingBuffer.construct 2 44100 = some (longRunBuffer 0) ∧
    ∃ rb, writeAll (longRunBuffer 0) (List.replicate 48696 oneSecond) = some rb ∧
      rb.num_written_ = 2147493600 ∧ rb.getNumWritten = -2147473696 := by
  refine ⟨rfl, ?_⟩
  obtain ⟨rb, h1, _, h3⟩ := writeAll_num_written (List.replicate 48696 oneSecond)
    (longRunBuffer 0) (fun b hb => by
      rw [List.eq_of_mem_replicate hb]
      exact ⟨by decide, by decide⟩)
  rw [totalLength_replicate] at h3
  have h4 : rb.num_written_ = 2147493600 := by
    rw [h3]
    show (0 : Int) + ((48696 : Nat) : Int) * 44100 = 2147493600
    norm_num
  refine ⟨rb, h1, h4, ?_⟩
  unfold RingBuffer.getNumWritten
  rw [h4]
  decide

/-! ## The drain of `timerCallback` -/

/-- C8 at the failing input. At 44100 Hz, with 2147493600 samples written in
the active slot and the watermark at 2147449500 (one block of 44100 behind),
one drain hands a block of 0 samples to the thumbnail and leaves the
watermark at -2147473696; the unread gap is 44100 samples. -/
theorem drain_stalls_after_counter_wrap :
    (AudioPluginAudioProcessorEditor.timerCallback (longRunProcessor 2147493600)
        (editorAt 2147449500)).map
      (fun r => (r.2.saved_written_size_, r.2.thumb_.map fun b => b.2.map List.length))
      = some (-2147473696, [[0, 0, 0, 0]]) ∧
    ((longRunProcessor 2147493600).data 0).pre_buffer_.num_written_ = 2147493600 ∧
    min (2147493600 - 2147449500) ((longRunProcessor 2147493600).data 0).pre_buffer_.num_samples_
      = (44100 : Int) := by
  decide

/-! ## Worked cases -/

/-- C3 on a buffer of capacity 4: write 3, read 2, write 4 gives the counter 7. -/
theorem counter_adds_written_lengths_witness :
    (∀ op ∈ smallOps, op.valid smallBuffer.num_samples_) ∧
    ∃ rb1, applyOps smallBuffer smallOps = some rb1 ∧
      rb1.num_written_ = smallBuffer.num_written_ + writtenLength smallOps ∧
      smallBuffer.num_written_ ≤ rb1.num_written_ :=
  ⟨by simp [smallOps, Op.valid, smallBuffer],
   counter_adds_written_lengths smallBuffer smallOps
    (by simp [smallOps, Op.valid, smallBuffer])⟩

/-- C5 on a buffer of capacity 4: a write of length 0 returns the buffer. -/
theorem write_is_noop_on_zero_witness :
    ((0 : Int) = 0 ∨ smallBuffer.num_samples_ = 0) ∧
    smallBuffer.write (rampFrom 0) 0 0 = some smallBuffer :=
  ⟨Or.inl rfl, (write_is_noop_on_zero smallBuffer (rampFrom 0) 0 0 (Or.inl rfl)).1⟩

set_option maxRecDepth 100000 in
/-- C6 in the forced-contention scenario: capacity 100, one block of 30
samples from the prepared state, and the two consecutive blocks of 30 with
the consumer holding slot 0: the active reference is slot 1 after the first
block and after the second, and slot 1 then holds what slot 0 holds after
the same two blocks without contention. -/
theorem contention_keeps_written_stores_witness :
    (preparedProcessor 100).active_audio_data_ = some 0 ∧
    (30 : Int) ≤ ((preparedProcessor 100).data 0).pre_buffer_.num_samples_ ∧
    (30 : Int) ≤ ((preparedProcessor 100).data 0).post_buffer_.num_samples_ ∧
    (∃ q1 q2 a1 a2,
      (consumerHolds (preparedProcessor 100) false).processBlock (rampFrom 0) (rampFrom 500) 30
        = some q1 ∧
      (consumerHolds (preparedProcessor 100) true).processBlock (rampFrom 0) (rampFrom 500) 30
        = some q2 ∧
      q1.active_audio_data_ = some a1 ∧ q2.active_audio_data_ = some a2 ∧
      a1 = 0 ∧ a2 = AudioPluginAudioProcessor.opposite 0 ∧
      (q1.data a1).pre_buffer_ = (q2.data a2).pre_buffer_ ∧
      (q1.data a1).post_buffer_ = (q2.data a2).post_buffer_) ∧
    (((preparedProcessor 100).setData 0
        { (preparedProcessor 100).data 0 with lock_ := true }).processBlock
      (rampFrom 0) (rampFrom 500) 30).map (fun q => q.active_audio_data_) = some (some 1) ∧
    contendedTwice.map (fun q => q.active_audio_data_) = some (some 1) ∧
    contendedTwice.map (fun q => ((q.data 1).pre_buffer_, (q.data 1).post_buffer_)) =
      uncontendedTwice.map (fun q => ((q.data 0).pre_buffer_, (q.data 0).post_buffer_)) ∧
    contendedTwice.map (fun q => (q.data 1).pre_buffer_.num_written_) = some 60 :=
  ⟨by decide, by decide, by decide,
   contention_keeps_written_stores (preparedProcessor 100) 0 (rampFrom 0) (rampFrom 500) 30
    (by decide) (by decide) (by decide),
   by decide, by decide, by decide, by decide⟩

/-- C9 on three producer steps at capacity 8 (contended, free, contended). -/
theorem pre_post_counters_equal_witness :
    (AudioPluginAudioProcessor.init : AudioPluginAudioProcessor Int).prepareToPlay 8
      = some (preparedProcessor 8) ∧
    (∀ ev ∈ produceEvents, ev.isProduceUpTo 8) ∧
    ∃ s, run { processor := preparedProcessor 8, editor := freshEditor } produceEvents = some s ∧
      ∀ i : Fin 2,
        (s.processor.data i).pre_buffer_.num_written_ =
          (s.processor.data i).post_buffer_.num_written_ ∧
        (s.processor.data i).pre_buffer_.getNumWritten =
          (s.processor.data i).post_buffer_.getNumWritten :=
  ⟨by decide, by simp [produceEvents, Event.isProduceUpTo],
   pre_post_counters_equal AudioPluginAudioProcessor.init (preparedProcessor 8) 8 freshEditor
    produceEvents (by decide) (by simp [produceEvents, Event.isProduceUpTo])⟩

theorem mixedRun_isSome : mixedRun.isSome = true := by decide

/-- C10 on a run with producer steps, drains and a second `prepareToPlay`. -/
theorem active_slot_invariant_witness :
    (AudioPluginAudioProcessor.init : AudioPluginAudioProcessor Int).prepareToPlay 8
      = some (preparedProcessor 8) ∧
    run { processor := preparedProcessor 8, editor := freshEditor } mixedEvents
      = some (mixedRun.get mixedRun_isSome) ∧
    (preparedProcessor 8).active_audio_data_ = some 0 ∧
    ((mixedRun.get mixedRun_isSome).processor.active_audio_data_ = some 0 ∨
      (mixedRun.get mixedRun_isSome).processor.active_audio_data_ = some 1) :=
  ⟨by decide, (Option.some_get mixedRun_isSome).symm,
   (active_slot_invariant 8 (preparedProcessor 8) freshEditor mixedEvents
      (mixedRun.get mixedRun_isSome) (by decide) (Option.some_get mixedRun_isSome).symm).1,
   (active_slot_invariant 8 (preparedProcessor 8) freshEditor mixedEvents
      (mixedRun.get mixedRun_isSome) (by decide) (Option.some_get mixedRun_isSome).symm).2.1⟩

/-! ## Correctness of `write` and `read` for sizes that fit `int` -/

theorem copyCells_getElem {T : Type} (first : Int → T) (count off : Int) (l : List T) :
    ∀ (j0 : Int) (k : Nat), (copyCells first count off l j0)[k]? =
      (l[k]?).map (fun x => if off ≤ j0 + k ∧ j0 + k < off + count then first (j0 + k - off)
        else x) := by
  induction l with
  | nil => intro j0 k; simp [copyCells]
  | cons x xs ih =>
    intro j0 k
    cases k with
    | zero => simp [copyCells]
    | succ k =>
      simp only [copyCells, List.getElem?_cons_succ]
      rw [ih (j0 + 1) k]
      congr 1
      funext y
      have e : j0 + 1 + (k : Int) = j0 + ((k + 1 : Nat) : Int) := by push_cast; ring
      rw [e]

theorem copyCells_length {T : Type} (first : Int → T) (count off : Int) (l : List T) :
    ∀ j0 : Int, (copyCells first count off l j0).length = l.length := by
  induction l with
  | nil => intro j0; rfl
  | cons x xs ih => intro j0; simp [copyCells, ih]

theorem getCell_copy_n_into {T : Type} (first : Int → T) (count off : Int) (l : List T)
    (i : Int) :
    getCell (copy_n_into first count l off) i =
      (getCell l i).map (fun x => if off ≤ i ∧ i < off + count then first (i - off) else x) := by
  unfold getCell copy_n_into
  by_cases hi : 0 ≤ i
  · rw [if_pos hi, if_pos hi, copyCells_getElem]
    have e : (0 : Int) + ((i.toNat : Nat) : Int) = i := by omega
    rw [e]
  · rw [if_neg hi, if_neg hi]; rfl

theorem forChannels_getElem {T : Type} (last : Int) (body : Int → List T → List T)
    (rows : List (List T)) :
    ∀ (c0 : Int) (k : Nat), (forChannels last body rows c0)[k]? =
      (rows[k]?).map (fun row => if c0 + k < last then body (c0 + k) row else row) := by
  induction rows with
  | nil => intro c0 k; simp [forChannels]
  | cons x xs ih =>
    intro c0 k
    cases k with
    | zero => simp [forChannels]
    | succ k =>
      simp only [forChannels, List.getElem?_cons_succ]
      rw [ih (c0 + 1) k]
      congr 1
      funext y
      have e : c0 + 1 + (k : Int) = c0 + ((k + 1 : Nat) : Int) := by push_cast; ring
      rw [e]

theorem forChannels_length {T : Type} (last : Int) (body : Int → List T → List T)
    (rows : List (List T)) :
    ∀ c0 : Int, (forChannels last body rows c0).length = rows.length := by
  induction rows with
  | nil => intro c0; rfl
  | cons x xs ih => intro c0; simp [forChannels, ih]

theorem getCell_forChannels {T : Type} (last : Int) (body : Int → List T → List T)
    (rows : List (List T)) (ch : Int) :
    getCell (forChannels last body rows 0) ch =
      (getCell rows ch).map (fun row => if ch < last then body ch row else row) := by
  unfold getCell
  by_cases hi : 0 ≤ ch
  · rw [if_pos hi, if_pos hi, forChannels_getElem]
    have e : (0 : Int) + ((ch.toNat : Nat) : Int) = ch := by omega
    rw [e]
  · rw [if_neg hi, if_neg hi]; rfl

/-- The cell `i` of a row after the two `copy_n` calls of `write`. -/
theorem getCell_write_row {T : Type} (rb : RingBuffer T) (src : Int → Int → T)
    (start length ch : Int) (row : List T) (i : Int) :
    getCell (rb.write_row src start length ch row) i =
      (getCell row i).map (fun x =>
        if 0 ≤ i ∧ i < 0 + rb.write_num_copy2 length then
          src ch (start + rb.write_num_copy1 length + (i - 0))
        else if rb.write_pos_ ≤ i ∧ i < rb.write_pos_ + rb.write_num_copy1 length then
          src ch (start + (i - rb.write_pos_))
        else x) := by
  unfold RingBuffer.write_row
  rw [getCell_copy_n_into, getCell_copy_n_into]
  cases getCell row i with
  | none => rfl
  | some x => simp only [Option.map]


theorem write_num_copy_eq {T : Type} (rb : RingBuffer T) (length : Int)
    (hN : rb.num_samples_ ≤ 1073741824) (hp0 : 0 ≤ rb.write_pos_)
    (hp1 : rb.write_pos_ < rb.num_samples_) (hL0 : 0 ≤ length) (hL1 : length ≤ rb.num_samples_) :
    rb.write_num_copy1 length = min (rb.write_pos_ + length) rb.num_samples_ - rb.write_pos_ ∧
    rb.write_num_copy2 length =
      length - (min (rb.write_pos_ + length) rb.num_samples_ - rb.write_pos_) := by
  unfold RingBuffer.write_num_copy2 RingBuffer.write_num_copy1 toInt32
  omega

theorem getElem?_blockSamples {T : Type} (src : Int → Int → T) (ch start length : Int)
    (m : Nat) (hm : (m : Int) < length) :
    (blockSamples src ch start length)[m]? = some (src ch (start + m)) := by
  unfold blockSamples
  rw [List.getElem?_map, List.getElem?_range (by omega)]
  rfl

theorem length_blockSamples {T : Type} (src : Int → Int → T) (ch start length : Int) :
    (blockSamples src ch start length).length = length.toNat := by
  unfold blockSamples
  simp

theorem getCell_eq_some_of_lt {T : Type} (row : List T) (i : Int) (h0 : 0 ≤ i)
    (h1 : i < row.length) : ∃ x, getCell row i = some x := by
  unfold getCell
  rw [if_pos h0]
  have : i.toNat < row.length := by omega
  exact ⟨row[i.toNat], List.getElem?_eq_getElem this⟩

/-- Row-level effect of `write` on the samples before the cursor. -/
theorem RowTail_write_row {T : Type} (rb : RingBuffer T) (src : Int → Int → T)
    (start length ch : Int) (row xs : List T) (d : Nat)
    (hN : rb.num_samples_ ≤ 1073741824) (hp0 : 0 ≤ rb.write_pos_)
    (hp1 : rb.write_pos_ < rb.num_samples_) (hL0 : 0 ≤ length) (hL1 : length ≤ rb.num_samples_)
    (hrow : row.length = rb.num_samples_.toNat)
    (hxs : RowTail row rb.num_samples_ rb.write_pos_ xs)
    (hys : (((xs ++ blockSamples src ch start length).drop d).length : Int) ≤ rb.num_samples_) :
    RowTail (rb.write_row src start length ch row) rb.num_samples_ (rb.write_next_pos length)
      ((xs ++ blockSamples src ch start length).drop d) := by
  obtain ⟨hc1, hc2⟩ := write_num_copy_eq rb length hN hp0 hp1 hL0 hL1
  refine ⟨hys, ?_⟩
  intro k hk
  have hlen : ((xs ++ blockSamples src ch start length).drop d).length
      = xs.length + length.toNat - d := by
    simp [length_blockSamples]
  rw [hlen] at hk hys ⊢
  rw [List.getElem?_drop, getCell_write_row, hc1, hc2]
  by_cases hcase : d + k < xs.length
  · -- a sample that was already stored
    rw [List.getElem?_append_left hcase]
    have hold := hxs.2 (d + k) hcase
    have hpos : back rb.num_samples_ (rb.write_next_pos length)
        (((xs.length + length.toNat - d : Nat) : Int) - k) =
        back rb.num_samples_ rb.write_pos_ ((xs.length : Int) - ((d + k : Nat) : Int)) := by
      unfold back RingBuffer.write_next_pos
      split <;> split <;> split <;> omega
    rw [hpos, hold]
    have hget : xs[d + k]? = some xs[d + k] := List.getElem?_eq_getElem hcase
    rw [hget]
    simp only [Option.map]
    have hp := hxs.1
    unfold back
    split <;> (rw [if_neg (by omega), if_neg (by omega)])
  · -- a sample of the new block
    have hm : ((d + k - xs.length : Nat) : Int) < length := by omega
    rw [List.getElem?_append_right (by omega), getElem?_blockSamples _ _ _ _ _ hm]
    have hp := hxs.1
    have hin : 0 ≤ back rb.num_samples_ (rb.write_next_pos length)
          (((xs.length + length.toNat - d : Nat) : Int) - k) ∧
        back rb.num_samples_ (rb.write_next_pos length)
          (((xs.length + length.toNat - d : Nat) : Int) - k) < row.length := by
      unfold back RingBuffer.write_next_pos
      split <;> split <;> omega
    obtain ⟨x, hx⟩ := getCell_eq_some_of_lt row _ hin.1 hin.2
    rw [hx]
    simp only [Option.map]
    congr 1
    unfold back RingBuffer.write_next_pos
    split
    · split
      · split
        · congr 1; omega
        · rw [if_pos (by omega)]; congr 1; omega
      · split
        · congr 1; omega
        · rw [if_pos (by omega)]; congr 1; omega
    · split
      · split
        · congr 1; omega
        · rw [if_pos (by omega)]; congr 1; omega
      · split
        · congr 1; omega
        · rw [if_pos (by omega)]; congr 1; omega


theorem read_num_copy_eq {T : Type} (rb : RingBuffer T) (length : Int)
    (hN : rb.num_samples_ ≤ 1073741824) (hp0 : 0 ≤ rb.write_pos_)
    (hp1 : rb.write_pos_ < rb.num_samples_) (hL0 : 0 ≤ length) (hL1 : length ≤ rb.num_samples_) :
    rb.read_num_copy1 length = (if rb.write_pos_ ≥ length then 0 else length - rb.write_pos_) ∧
    rb.read_num_copy2 length =
      length - (if rb.write_pos_ ≥ length then 0 else length - rb.write_pos_) := by
  unfold RingBuffer.read_num_copy2 RingBuffer.read_num_copy1 toInt32
  split <;> omega

/-- Row-level effect of `read`: the destination receives the samples before
the cursor, oldest first. -/
theorem read_row_inside {T : Type} (rb : RingBuffer T) (d0 length : Int) (row xs : List T)
    (dest : Int → T) (i : Nat)
    (hN : rb.num_samples_ ≤ 1073741824) (hp0 : 0 ≤ rb.write_pos_)
    (hp1 : rb.write_pos_ < rb.num_samples_)
    (hxs : RowTail row rb.num_samples_ rb.write_pos_ xs)
    (hlen : (xs.length : Int) = length) (hi : i < xs.length) :
    some (rb.read_row d0 length row dest (d0 + i)) = xs[i]? := by
  have hL1 : length ≤ rb.num_samples_ := by rw [← hlen]; exact hxs.1
  obtain ⟨hc1, hc2⟩ := read_num_copy_eq rb length hN hp0 hp1 (by omega) hL1
  have key := hxs.2 i hi
  rw [List.getElem?_eq_getElem hi] at key ⊢
  unfold back at key
  unfold RingBuffer.read_row copy_n_from
  simp only [hc1, hc2]
  by_cases hw : rb.write_pos_ ≥ length
  · simp only [if_pos hw]
    rw [if_pos (by omega)]
    have e1 : rb.write_pos_ - (length - 0) + (d0 + ↑i - (d0 + 0)) =
        rb.write_pos_ - (xs.length - i) := by
      omega
    rw [if_pos (by omega)] at key
    rw [e1, key]
  · simp only [if_neg hw]
    by_cases h2 : (xs.length : Int) - i ≤ rb.write_pos_
    · rw [if_pos (by omega)]
      have e1 : rb.write_pos_ - (length - (length - rb.write_pos_)) +
          (d0 + ↑i - (d0 + (length - rb.write_pos_))) = rb.write_pos_ - (xs.length - i) := by
        omega
      rw [if_pos h2] at key
      rw [e1, key]
    · rw [if_neg (by omega), if_pos (by omega)]
      have e1 : rb.num_samples_ - (length - rb.write_pos_) + (d0 + ↑i - d0) =
          rb.write_pos_ - (xs.length - i) + rb.num_samples_ := by
        omega
      rw [if_neg h2] at key
      rw [e1, key]

theorem read_row_outside {T : Type} (rb : RingBuffer T) (d0 length : Int) (row : List T)
    (dest : Int → T) (j : Int)
    (hN : rb.num_samples_ ≤ 1073741824) (hp0 : 0 ≤ rb.write_pos_)
    (hp1 : rb.write_pos_ < rb.num_samples_) (hL0 : 0 ≤ length) (hL1 : length ≤ rb.num_samples_)
    (hj : ¬ (d0 ≤ j ∧ j < d0 + length)) :
    rb.read_row d0 length row dest j = dest j := by
  obtain ⟨hc1, hc2⟩ := read_num_copy_eq rb length hN hp0 hp1 hL0 hL1
  unfold RingBuffer.read_row copy_n_from
  simp only [hc1, hc2]
  split <;> (rw [if_neg (by omega), if_neg (by omega)])


theorem RowTail_nil {T : Type} (row : List T) (N wp : Int) (hN : 0 ≤ N) :
    RowTail row N wp [] := by
  refine ⟨by simpa using hN, ?_⟩
  intro k hk
  simp at hk

theorem Valid_row {T : Type} (rb : RingBuffer T) (hv : rb.Valid) (ch : Int) (h0 : 0 ≤ ch)
    (h1 : ch < rb.num_channels_) :
    ∃ row, getCell rb.buffer_ ch = some row ∧ row.length = rb.num_samples_.toNat := by
  obtain ⟨_, _, _, hlen, hrows⟩ := hv
  obtain ⟨row, hrow⟩ := getCell_eq_some_of_lt rb.buffer_ ch h0 (by rw [hlen]; omega)
  exact ⟨row, hrow, hrows ch row hrow⟩

theorem Remembers_nil {T : Type} (rb : RingBuffer T) (hv : rb.Valid) :
    Remembers rb (fun _ => []) := by
  intro ch h0 h1
  obtain ⟨row, hrow, _⟩ := Valid_row rb hv ch h0 h1
  refine ⟨row, hrow, ?_⟩
  intro d _
  rw [List.drop_nil]
  exact RowTail_nil row _ _ (by have := hv.1; have := hv.2.1; omega)

theorem write_row_length {T : Type} (rb : RingBuffer T) (src : Int → Int → T)
    (start length ch : Int) (row : List T) :
    (rb.write_row src start length ch row).length = row.length := by
  unfold RingBuffer.write_row copy_n_into
  rw [copyCells_length, copyCells_length]

theorem write_Valid {T : Type} (rb rb1 : RingBuffer T) (src : Int → Int → T)
    (start length : Int) (hv : rb.Valid) (hL0 : 0 ≤ length)
    (h : rb.write src start length = some rb1) : rb1.Valid := by
  by_cases hz : length = 0 ∨ rb.num_samples_ = 0
  · rw [write_noop rb src start length hz] at h
    cases h; exact hv
  · have hN : length ≤ rb.num_samples_ := by
      rcases write_le_of_eq_some rb rb1 src start length h with h1 | h1 | h1
      · exact absurd (Or.inl h1) hz
      · exact absurd (Or.inr h1) hz
      · exact h1
    rw [write_copy rb src start length hz hN] at h
    cases h
    obtain ⟨hp0, hp1, hc, hlen, hrows⟩ := hv
    refine ⟨?_, ?_, hc, ?_, ?_⟩
    · show 0 ≤ rb.write_next_pos length
      unfold RingBuffer.write_next_pos; split <;> omega
    · show rb.write_next_pos length < rb.num_samples_
      unfold RingBuffer.write_next_pos; split <;> omega
    · show (forChannels _ _ rb.buffer_ 0).length = _
      rw [forChannels_length]; exact hlen
    · intro ch row hrow
      change getCell (forChannels _ _ rb.buffer_ 0) ch = some row at hrow
      rw [getCell_forChannels] at hrow
      cases hg : getCell rb.buffer_ ch with
      | none => rw [hg] at hrow; cases hrow
      | some r =>
        rw [hg] at hrow
        simp only [Option.map, Option.some.injEq] at hrow
        rw [← hrow]
        show (if _ then _ else _ : List T).length = rb.num_samples_.toNat
        split
        · rw [write_row_length]; exact hrows ch r hg
        · exact hrows ch r hg

/-- Buffer-level effect of `write`: the buffer remembers the old samples
followed by the new block. -/
theorem write_Remembers {T : Type} (rb rb1 : RingBuffer T) (src : Int → Int → T)
    (start length : Int) (h : Int → List T) (hv : rb.Valid) (hf : rb.FitsInt)
    (hL0 : 0 ≤ length) (hr : Remembers rb h)
    (hw : rb.write src start length = some rb1) :
    Remembers rb1 (fun ch => h ch ++ blockSamples src ch start length) := by
  have hns := write_num_samples rb rb1 src start length hw
  have hnc := write_num_channels rb rb1 src start length hw
  obtain ⟨hp0, hp1, hc, hlen, hrows⟩ := hv
  by_cases hz : length = 0 ∨ rb.num_samples_ = 0
  · rw [write_noop rb src start length hz] at hw
    cases hw
    have hL : length = 0 := by
      rcases hz with hz | hz
      · exact hz
      · omega
    intro ch h0 h1
    obtain ⟨row, hrow, htail⟩ := hr ch h0 h1
    refine ⟨row, hrow, ?_⟩
    intro d hd
    have hb : blockSamples src ch start length = [] := by
      apply List.eq_nil_of_length_eq_zero
      rw [length_blockSamples, hL]; rfl
    simp only [hb, List.append_nil] at hd ⊢
    exact htail d hd
  · have hN : length ≤ rb.num_samples_ := by
      rcases write_le_of_eq_some rb rb1 src start length hw with h1 | h1 | h1
      · exact absurd (Or.inl h1) hz
      · exact absurd (Or.inr h1) hz
      · exact h1
    rw [write_copy rb src start length hz hN] at hw
    cases hw
    intro ch h0 h1
    change ch < rb.num_channels_ at h1
    obtain ⟨row, hrow, htail⟩ := hr ch h0 h1
    have hrl := hrows ch row hrow
    refine ⟨rb.write_row src start length ch row, ?_, ?_⟩
    · show getCell (forChannels _ _ rb.buffer_ 0) ch = _
      rw [getCell_forChannels, hrow]
      simp only [Option.map]
      rw [if_pos (by rw [toInt32_of_range _ (by omega) hf.2]; exact h1)]
    · intro d hd
      show RowTail _ rb.num_samples_ (rb.write_next_pos length) _
      change (((h ch ++ blockSamples src ch start length).drop d).length : Int)
        ≤ rb.num_samples_ at hd
      by_cases hdh : d ≤ (h ch).length
      · have e : (h ch ++ blockSamples src ch start length).drop d =
            ((h ch).drop d ++ blockSamples src ch start length).drop 0 := by
          rw [List.drop_zero, List.drop_append_of_le_length hdh]
        rw [e] at hd ⊢
        refine RowTail_write_row rb src start length ch row _ 0 hf.1 hp0 hp1 hL0 hN hrl
          (htail d ?_) hd
        simp only [List.drop_zero, List.length_append, List.length_drop] at hd ⊢
        omega
      · have e : (h ch ++ blockSamples src ch start length).drop d =
            (([] : List T) ++ blockSamples src ch start length).drop (d - (h ch).length) := by
          rw [List.nil_append, List.drop_append_eq_append_drop,
            List.drop_eq_nil_of_le (by omega), List.nil_append]
        rw [e] at hd ⊢
        exact RowTail_write_row rb src start length ch row _ _ hf.1 hp0 hp1 hL0 hN hrl
          (RowTail_nil row _ _ (by omega)) hd


theorem read_copy {T : Type} (rb : RingBuffer T) (dest : Int → Int → T)
    (start length : Int) (h : ¬ (length = 0 ∨ rb.num_samples_ = 0))
    (hN : length ≤ rb.num_samples_) :
    rb.read dest start length = some fun ch =>
      if 0 ≤ ch ∧ ch < toInt32 rb.num_channels_ then
        match getCell rb.buffer_ ch with
        | some row => rb.read_row start length row (dest ch)
        | none => dest ch
      else dest ch := by
  unfold RingBuffer.read
  rw [if_neg h, if_neg (not_not.mpr hN)]

/-- Buffer-level effect of `read`: the destination cells `[d0, d0 + n)` of
each channel receive the last `n` remembered samples, oldest first, and no
other cell changes. -/
theorem read_Remembers {T : Type} (rb : RingBuffer T) (dest : Int → Int → T) (d0 n : Int)
    (h : Int → List T) (hv : rb.Valid) (hf : rb.FitsInt) (hr : Remembers rb h)
    (hn0 : 0 ≤ n) (hn1 : n ≤ rb.num_samples_)
    (hn2 : ∀ ch, 0 ≤ ch → ch < rb.num_channels_ → n ≤ (h ch).length) :
    ∃ dest1, rb.read dest d0 n = some dest1 ∧
      (∀ ch, 0 ≤ ch → ch < rb.num_channels_ →
        cells dest1 ch d0 n.toNat = (h ch).drop ((h ch).length - n.toNat)) ∧
      (∀ ch j, ¬ (0 ≤ ch ∧ ch < rb.num_channels_ ∧ d0 ≤ j ∧ j < d0 + n) →
        dest1 ch j = dest ch j) := by
  obtain ⟨hp0, hp1, hc, hlen, hrows⟩ := hv
  by_cases hz : n = 0 ∨ rb.num_samples_ = 0
  · have hn : n = 0 := by
      rcases hz with hz | hz
      · exact hz
      · omega
    refine ⟨dest, ?_, ?_, ?_⟩
    · unfold RingBuffer.read; rw [if_pos hz]
    · intro ch _ _
      subst hn
      simp [cells]
    · intro ch j _; rfl
  · refine ⟨_, read_copy rb dest d0 n hz hn1, ?_, ?_⟩
    · intro ch h0 h1
      obtain ⟨row, hrow, htail⟩ := hr ch h0 h1
      have hle := hn2 ch h0 h1
      have hdl : (((h ch).drop ((h ch).length - n.toNat)).length : Int) = n := by
        rw [List.length_drop]; omega
      have ht := htail ((h ch).length - n.toNat) (by rw [hdl]; exact hn1)
      apply List.ext_getElem?
      intro i
      by_cases hi : i < n.toNat
      · have hi2 : i < ((h ch).drop ((h ch).length - n.toNat)).length := by omega
        rw [← read_row_inside rb d0 n row _ (dest ch) i hf.1 hp0 hp1 ht hdl hi2]
        unfold cells
        rw [List.getElem?_map, List.getElem?_range hi]
        simp only [Option.map]
        rw [if_pos ⟨h0, by rw [toInt32_of_range _ (by omega) hf.2]; exact h1⟩, hrow]
      · rw [List.getElem?_eq_none (by simp [cells]; omega),
          List.getElem?_eq_none (by omega)]
    · intro ch j hj
      show (if 0 ≤ ch ∧ ch < toInt32 rb.num_channels_ then _ else _ : Int → T) j = dest ch j
      rw [toInt32_of_range _ (by omega) hf.2]
      split
      · rename_i hch
        cases hg : getCell rb.buffer_ ch with
        | none => rfl
        | some row =>
          show rb.read_row d0 n row (dest ch) j = dest ch j
          exact read_row_outside rb d0 n row (dest ch) j hf.1 hp0 hp1 hn0 hn1
            (fun hh => hj ⟨hch.1, hch.2, hh.1, hh.2⟩)
      · rfl

theorem history_cons {T : Type} (b : Block T) (bs : List (Block T)) (ch : Int) :
    history (b :: bs) ch = blockSamples b.src ch b.start b.length ++ history bs ch := by
  simp [history]

theorem length_history {T : Type} (bs : List (Block T)) (ch : Int)
    (h0 : ∀ b ∈ bs, 0 ≤ b.length) :
    ((history bs ch).length : Int) = totalLength bs := by
  induction bs with
  | nil => simp [history, totalLength]
  | cons b bs ih =>
    rw [history_cons, List.length_append, length_blockSamples]
    have hb := h0 b (List.mem_cons_self _ _)
    have := ih (fun c hc => h0 c (List.mem_cons_of_mem _ hc))
    simp only [totalLength, List.map_cons, List.sum_cons] at this ⊢
    omega

/-- A sequence of writes: the buffer remembers the old samples followed by
all written blocks. -/
theorem writeAll_Remembers {T : Type} (bs : List (Block T)) :
    ∀ (rb : RingBuffer T) (h : Int → List T), rb.Valid → rb.FitsInt → Remembers rb h →
      (∀ b ∈ bs, 0 ≤ b.length ∧ b.length ≤ rb.num_samples_) →
      ∃ rb1, writeAll rb bs = some rb1 ∧ rb1.Valid ∧ rb1.FitsInt ∧
        rb1.num_samples_ = rb.num_samples_ ∧ rb1.num_channels_ = rb.num_channels_ ∧
        rb1.num_written_ = rb.num_written_ + totalLength bs ∧
        Remembers rb1 (fun ch => h ch ++ history bs ch) := by
  induction bs with
  | nil =>
    intro rb h hv hf hr _
    refine ⟨rb, rfl, hv, hf, rfl, rfl, by simp [totalLength], ?_⟩
    simpa [history] using hr
  | cons b bs ih =>
    intro rb h hv hf hr hb
    obtain ⟨h0, hN⟩ := hb b (List.mem_cons_self _ _)
    obtain ⟨rb1, h1⟩ := write_eq_some_of_le rb b.src b.start b.length hN
    have hs := write_num_samples rb rb1 _ _ _ h1
    have hc := write_num_channels rb rb1 _ _ _ h1
    have hw := write_num_written rb rb1 _ _ _ h0 hN h1
    have hv1 := write_Valid rb rb1 _ _ _ hv h0 h1
    have hf1 : rb1.FitsInt := by
      unfold RingBuffer.FitsInt; rw [hs, hc]; exact hf
    have hr1 := write_Remembers rb rb1 _ _ _ h hv hf h0 hr h1
    obtain ⟨rb2, h2, hv2, hf2, hs2, hc2, hw2, hr2⟩ := ih rb1 _ hv1 hf1 hr1
      (fun c hc => by rw [hs]; exact hb c (List.mem_cons_of_mem _ hc))
    refine ⟨rb2, ?_, hv2, hf2, by rw [hs2, hs], by rw [hc2, hc], ?_, ?_⟩
    · simp only [writeAll, h1, Option.bind]
      exact h2
    · rw [hw2, hw]
      simp only [totalLength, List.map_cons, List.sum_cons]
      omega
    · intro ch c0 c1
      obtain ⟨row, hrow, ht⟩ := hr2 ch c0 c1
      refine ⟨row, hrow, ?_⟩
      intro d hd
      have ht1 := ht d
      dsimp only at ht1 hd ⊢
      rw [history_cons, ← List.append_assoc] at hd ⊢
      exact ht1 hd

theorem construct_Valid {T : Type} [Zero T] (c n : Int) (rb : RingBuffer T) (hn : 0 < n)
    (h : RingBuffer.construct c n = some rb) : rb.Valid := by
  obtain ⟨hc0, _, hc, hs, hp, _, hb⟩ := construct_eq_some c n rb h
  refine ⟨by omega, by omega, by omega, ?_, ?_⟩
  · rw [hb, hc]; simp
  · intro ch row hrow
    rw [hb] at hrow
    unfold getCell at hrow
    split at hrow
    · rw [List.getElem?_replicate] at hrow
      split at hrow
      · cases hrow
        rw [hs]; simp
      · cases hrow
    · cases hrow

/-- The ring buffer is correct for capacities up to `2^30`: after any
sequence of writes on a fresh buffer, `read(dest, d, n)` with
`n ≤ min(total, capacity)` stores the last `n` written samples of each
channel, oldest first, into `dest[ch][d .. d + n)`. -/
theorem read_after_writes {T : Type} [Zero T] (c n : Int) (bs : List (Block T))
    (dest : Int → Int → T) (d0 len : Int)
    (hn0 : 0 < n) (hn1 : n ≤ 1073741824) (hc0 : 0 ≤ c) (hc1 : c < 2147483648)
    (hb : ∀ b ∈ bs, 0 ≤ b.length ∧ b.length ≤ n)
    (hl0 : 0 ≤ len) (hl1 : len ≤ totalLength bs) (hl2 : len ≤ n) :
    ∃ rb0 rb dest1, RingBuffer.construct c n = some rb0 ∧ writeAll rb0 bs = some rb ∧
      rb.read dest d0 len = some dest1 ∧
      ∀ ch, 0 ≤ ch → ch < c →
        cells dest1 ch d0 len.toNat =
          (history bs ch).drop ((history bs ch).length - len.toNat) := by
  have hcon : RingBuffer.construct c n = some
      ({ num_channels_ := c, num_samples_ := n, write_pos_ := 0, num_written_ := 0,
         buffer_ := List.replicate c.toNat (List.replicate n.toNat 0) } : RingBuffer T) := by
    unfold RingBuffer.construct
    rw [if_neg (by omega)]
  have hv := construct_Valid c n _ hn0 hcon
  obtain ⟨rb, hw, hv1, hf1, hs1, hc1', _, hr1⟩ := writeAll_Remembers bs _ (fun _ => [])
    hv ⟨hn1, hc1⟩ (Remembers_nil _ hv) hb
  change rb.num_samples_ = n at hs1
  change rb.num_channels_ = c at hc1'
  obtain ⟨dest1, hrd, hcells, _⟩ := read_Remembers rb dest d0 len _ hv1 hf1 hr1 hl0
    (by rw [hs1]; exact hl2)
    (fun ch _ _ => by
      simp only [List.nil_append]
      rw [length_history bs ch (fun b hb1 => (hb b hb1).1)]
      exact hl1)
  refine ⟨_, rb, dest1, hcon, hw, hrd, ?_⟩
  intro ch h0 h1
  have := hcells ch h0 (by rw [hc1']; exact h1)
  simpa using this

/-- Round trip for capacities up to `2^30`: from any valid state, writes whose
lengths sum to at most the capacity followed by a read of that total length
give back the written blocks in order. -/
theorem round_trip {T : Type} (rb : RingBuffer T) (bs : List (Block T))
    (dest : Int → Int → T) (d0 : Int) (hv : rb.Valid) (hf : rb.FitsInt)
    (hb : ∀ b ∈ bs, 0 ≤ b.length) (hsum : totalLength bs ≤ rb.num_samples_) :
    ∃ rb1 dest1, writeAll rb bs = some rb1 ∧
      rb1.read dest d0 (totalLength bs) = some dest1 ∧
      ∀ ch, 0 ≤ ch → ch < rb.num_channels_ →
        cells dest1 ch d0 (totalLength bs).toNat = history bs ch := by
  have hpos : ∀ bs1 : List (Block T), (∀ b ∈ bs1, 0 ≤ b.length) → 0 ≤ totalLength bs1 := by
    intro bs1 h1
    have := length_history bs1 0 h1
    omega
  have hle : ∀ b ∈ bs, 0 ≤ b.length ∧ b.length ≤ rb.num_samples_ := by
    intro b hbm
    refine ⟨hb b hbm, ?_⟩
    obtain ⟨l1, l2, rfl⟩ := List.append_of_mem hbm
    have h1 := hpos l1 (fun c hc => hb c (List.mem_append_left _ hc))
    have h2 := hpos l2 (fun c hc => hb c (List.mem_append_right _ (List.mem_cons_of_mem _ hc)))
    simp only [totalLength, List.map_append, List.map_cons, List.sum_append, List.sum_cons]
      at hsum h1 h2
    omega
  obtain ⟨rb1, hw, hv1, hf1, hs1, hc1, _, hr1⟩ := writeAll_Remembers bs rb (fun _ => [])
    hv hf (Remembers_nil _ hv) hle
  obtain ⟨dest1, hrd, hcells, _⟩ := read_Remembers rb1 dest d0 (totalLength bs) _ hv1 hf1 hr1
    (hpos bs hb) (by rw [hs1]; exact hsum)
    (fun ch _ _ => by
      simp only [List.nil_append]
      rw [length_history bs ch hb])
  refine ⟨rb1, dest1, hw, hrd, ?_⟩
  intro ch h0 h1
  have h2 := hcells ch h0 (by rw [hc1]; exact h1)
  have h3 := length_history bs ch hb
  simp only [List.nil_append] at h2
  rw [h2]
  have : (history bs ch).length - (totalLength bs).toNat = 0 := by omega
  rw [this, List.drop_zero]


theorem getCell_replicate {T : Type} (n : Nat) (x : T) (i : Int) (h0 : 0 ≤ i)
    (h1 : i < n) : getCell (List.replicate n x) i = some x := by
  unfold getCell
  rw [if_pos h0, List.getElem?_replicate, if_pos (by omega)]

theorem hugeBuffer_row (cursor written : Int) :
    getCell (hugeBuffer cursor written).buffer_ 0 = some (List.replicate 1073741825 0) := rfl

theorem read_row_second {T : Type} (rb : RingBuffer T) (d0 length : Int) (row : List T)
    (dest : Int → T) (j : Int) (x : T)
    (hj : d0 + rb.read_num_copy1 length ≤ j ∧
      j < d0 + rb.read_num_copy1 length + rb.read_num_copy2 length)
    (hx : getCell row (rb.write_pos_ - rb.read_num_copy2 length +
      (j - (d0 + rb.read_num_copy1 length))) = some x) :
    rb.read_row d0 length row dest j = x := by
  unfold RingBuffer.read_row copy_n_from
  rw [if_pos hj, hx]

/-- C2 at the failing input. A valid `RingBuffer` of 1 channel and
`2^30 + 1` samples with the cursor at `2^30` receives one write of `2^30`
samples (`5, 6, 7, ...`): line 44 computes `num_copy1 = 2^30` and
`num_copy2 = 0`, so nothing is stored at the head of the buffer, and the
read of `2^30` samples that follows returns `0` as its second sample where
`6` was written. -/
theorem round_trip_fails_past_int_max :
    ∃ rb1 dest1,
      (hugeBuffer 1073741824 1073741824).write (rampFrom 5) 0 1073741824 = some rb1 ∧
      rb1.read zeroMemory 0 1073741824 = some dest1 ∧
      (hugeBuffer 1073741824 1073741824).write_num_copy1 1073741824 = 1073741824 ∧
      (hugeBuffer 1073741824 1073741824).write_num_copy2 1073741824 = 0 ∧
      dest1 0 1 = 0 ∧ rampFrom 5 0 1 = 6 := by
  have hc1 : (hugeBuffer 1073741824 1073741824).write_num_copy1 1073741824 = 1073741824 := by
    decide
  have hc2 : (hugeBuffer 1073741824 1073741824).write_num_copy2 1073741824 = 0 := by
    decide
  refine ⟨_, _, write_copy _ _ _ _ (by decide) (by decide),
    read_copy _ _ _ _ (by decide) (by decide), hc1, hc2, ?_, by decide⟩
  have hrow : getCell (forChannels (toInt32 (hugeBuffer 1073741824 1073741824).num_channels_)
      ((hugeBuffer 1073741824 1073741824).write_row (rampFrom 5) 0 1073741824)
      (hugeBuffer 1073741824 1073741824).buffer_ 0) 0 =
      some ((hugeBuffer 1073741824 1073741824).write_row (rampFrom 5) 0 1073741824 0
        (List.replicate 1073741825 0)) := by
    rw [getCell_forChannels, hugeBuffer_row]
    rfl
  show (if (0 : Int) ≤ 0 ∧ (0 : Int) < toInt32 1 then
      (match getCell (forChannels (toInt32 (hugeBuffer 1073741824 1073741824).num_channels_)
        ((hugeBuffer 1073741824 1073741824).write_row (rampFrom 5) 0 1073741824)
        (hugeBuffer 1073741824 1073741824).buffer_ 0) 0 with
        | some row => RingBuffer.read_row _ 0 1073741824 row (zeroMemory 0)
        | none => zeroMemory 0)
      else zeroMemory 0) 1 = 0
  rw [if_pos (by decide), hrow]
  refine read_row_second _ _ _ _ _ _ 0 (by decide) ?_
  rw [getCell_write_row, getCell_replicate _ _ _ (by decide) (by decide)]
  simp only [Option.map]
  rw [if_neg (by decide), if_neg (by decide)]


/-- C1 at the failing input. A fresh `RingBuffer` of 1 channel and
`2^30 + 1` samples receives two writes of `2^30` samples (`0, 1, 2, ...`
continued); in the second write `write_pos_ + length = 2^31` wraps in
`std::min<int>`, line 44 computes `num_copy1 = 2^30` and `num_copy2 = 0`, and
the read of 1 sample that follows returns `1073741822`, a sample of the first
write, where the last sample written is `2147483647`. -/
theorem read_is_stale_past_int_max :
    RingBuffer.construct 1 1073741825 = some (hugeBuffer 0 0) ∧
    ∃ rb1 rb2 dest1,
      (hugeBuffer 0 0).write (rampFrom 0) 0 1073741824 = some rb1 ∧
      rb1.write (rampFrom 1073741824) 0 1073741824 = some rb2 ∧
      rb2.read zeroMemory 0 1 = some dest1 ∧
      rb1.write_pos_ = 1073741824 ∧
      rb1.write_num_copy1 1073741824 = 1073741824 ∧
      rb1.write_num_copy2 1073741824 = 0 ∧
      dest1 0 0 = 1073741822 ∧ rampFrom 1073741824 0 1073741823 = 2147483647 := by
  refine ⟨rfl, _, _, _, write_copy _ _ _ _ (by decide) (by decide),
    write_copy _ _ _ _ (by decide) (by decide),
    read_copy _ _ _ _ (by decide) (by decide), by decide, by decide, by decide, ?_, by decide⟩
  show (if (0 : Int) ≤ 0 ∧ (0 : Int) < toInt32 1 then
      (match getCell (forChannels _ _ (forChannels _ _ (hugeBuffer 0 0).buffer_ 0) 0) 0 with
        | some row => RingBuffer.read_row _ 0 1 row (zeroMemory 0)
        | none => zeroMemory 0)
      else zeroMemory 0) 0 = 1073741822
  rw [if_pos (by decide), getCell_forChannels, getCell_forChannels, hugeBuffer_row]
  simp only [Option.map]
  rw [if_pos (by decide), if_pos (by decide)]
  refine read_row_second _ _ _ _ _ _ _ (by decide) ?_
  rw [getCell_write_row, getCell_write_row, getCell_replicate _ _ _ (by decide) (by decide)]
  simp only [Option.map]
  rw [if_neg (by decide), if_neg (by decide), if_neg (by decide), if_pos (by decide)]
  decide


/-! ## Handoff continuity for sizes and totals that fit `int` -/

theorem timerCallback_eq {T : Type} (p : AudioPluginAudioProcessor T)
    (e : AudioPluginAudioProcessorEditor T) (ad : Fin 2) (b1 b2 : Int → Int → T)
    (hact : p.active_audio_data_ = some ad) (hlock : (p.data ad).lock_ = false)
    (hcnt : (p.data ad).pre_buffer_.getNumWritten = (p.data ad).post_buffer_.getNumWritten)
    (h1 : (p.data ad).pre_buffer_.read e.buffer_ 0
      (AudioPluginAudioProcessorEditor.num_to_read (p.data ad).pre_buffer_.getNumWritten
        e.saved_written_size_ (p.data ad).pre_buffer_.getNumSamples) = some b1)
    (h2 : (p.data ad).post_buffer_.read (fun ch => b1 (ch + 2)) 0
      (AudioPluginAudioProcessorEditor.num_to_read (p.data ad).pre_buffer_.getNumWritten
        e.saved_written_size_ (p.data ad).pre_buffer_.getNumSamples) = some b2) :
    AudioPluginAudioProcessorEditor.timerCallback p e =
      some (p.setData ad (p.data ad),
        { buffer_ := fun ch => b2 (ch - 2)
          thumb_ := e.thumb_ ++ [(e.saved_thumbnail_position_,
            addedBlock (fun ch => b2 (ch - 2))
              (AudioPluginAudioProcessorEditor.num_to_read
                (p.data ad).pre_buffer_.getNumWritten e.saved_written_size_
                (p.data ad).pre_buffer_.getNumSamples))]
          saved_thumbnail_position_ := e.saved_thumbnail_position_ +
            AudioPluginAudioProcessorEditor.num_to_read
              (p.data ad).pre_buffer_.getNumWritten e.saved_written_size_
              (p.data ad).pre_buffer_.getNumSamples
          saved_written_size_ := (p.data ad).pre_buffer_.getNumWritten }) := by
  have hun : ((p.data ad).try_lock.2).unlock = p.data ad := by
    unfold AudioData.try_lock AudioData.unlock
    rw [hlock]
    simp only [Bool.false_eq_true, if_false]
    cases hd : p.data ad
    rw [hd] at hlock
    simp only at hlock
    simp [hlock]
  have ht1 : (p.data ad).try_lock.1 = true := by
    unfold AudioData.try_lock; rw [hlock]; rfl
  have hpre : ((p.data ad).try_lock.2).pre_buffer_ = (p.data ad).pre_buffer_ := by
    unfold AudioData.try_lock; rw [hlock]; rfl
  have hpost : ((p.data ad).try_lock.2).post_buffer_ = (p.data ad).post_buffer_ := by
    unfold AudioData.try_lock; rw [hlock]; rfl
  unfold AudioPluginAudioProcessorEditor.timerCallback
  rw [hact]
  simp only [ht1, if_true, hpre, hpost, hcnt.symm, h1, h2, Option.bind, hun]

theorem data_setData_self {T : Type} (p : AudioPluginAudioProcessor T) (i j : Fin 2) :
    (p.setData i (p.data i)).data j = p.data j := by
  fin_cases i <;> fin_cases j <;>
    simp [AudioPluginAudioProcessor.data, AudioPluginAudioProcessor.setData]

theorem drained_append {T : Type} (e : AudioPluginAudioProcessorEditor T)
    (b : Int × List (List T)) (ch : Nat) :
    drained { e with thumb_ := e.thumb_ ++ [b] } ch = drained e ch ++ b.2.getD ch [] := by
  simp [drained]

theorem addedBlock_getD {T : Type} (buffer : Int → Int → T) (n : Int) (ch : Nat)
    (hch : ch < 4) :
    (addedBlock buffer n).getD ch [] = cells buffer ch 0 n.toNat := by
  unfold addedBlock cells
  interval_cases ch <;> simp [List.range, List.range.loop]


theorem cells_congr {T : Type} (f g : Int → Int → T) (ch1 ch2 start : Int) (n : Nat)
    (h : ∀ j, f ch1 j = g ch2 j) : cells f ch1 start n = cells g ch2 start n := by
  unfold cells
  apply List.map_congr_left
  intro i _
  exact h _

theorem drained_of_thumb_append {T : Type} (e e1 : AudioPluginAudioProcessorEditor T)
    (b : Int × List (List T)) (ch : Nat) (h : e1.thumb_ = e.thumb_ ++ [b]) :
    drained e1 ch = drained e ch ++ b.2.getD ch [] := by
  unfold drained
  rw [h]
  simp

theorem StoreHolds_nonneg {T : Type} (N t : Int) (rb : RingBuffer T) (H : Int → List T)
    (h : StoreHolds N t rb H) : 0 ≤ t := by
  have := h.2.2.2.2.2.2 0 (by omega) (by omega)
  omega

/-- A drain that finds at most `N` unread samples and a counter below `2^31`
copies exactly the unread samples and moves the watermark to the counter. -/
theorem drain_HandoffInv {T : Type} [Zero T] (N t : Int) (Hpre Hpost : Int → List T)
    (s : System T) (hinv : HandoffInv N t Hpre Hpost s) (ht : t < 2147483648)
    (hlag : t - s.editor.saved_written_size_ ≤ N) :
    ∃ s1, step s .drain = some s1 ∧ HandoffInv N t Hpre Hpost s1 ∧
      s1.editor.saved_written_size_ = t := by
  obtain ⟨ad, hact, hlocks, hpre, hpost, hw0, hw1, hdr⟩ := hinv
  obtain ⟨hv1, hf1, hs1, hc1, hn1, hr1, hl1⟩ := hpre
  obtain ⟨hv2, hf2, hs2, hc2, hn2, hr2, hl2⟩ := hpost
  have ht0 : 0 ≤ t := by omega
  have hg1 : (s.processor.data ad).pre_buffer_.getNumWritten = t := by
    unfold RingBuffer.getNumWritten
    rw [hn1, toInt32_of_range t (by omega) ht]
  have hg2 : (s.processor.data ad).post_buffer_.getNumWritten = t := by
    unfold RingBuffer.getNumWritten
    rw [hn2, toInt32_of_range t (by omega) ht]
  have hn : AudioPluginAudioProcessorEditor.num_to_read
      (s.processor.data ad).pre_buffer_.getNumWritten s.editor.saved_written_size_
      (s.processor.data ad).pre_buffer_.getNumSamples = t - s.editor.saved_written_size_ := by
    unfold AudioPluginAudioProcessorEditor.num_to_read RingBuffer.getNumSamples
    rw [hg1, hs1]
    omega
  obtain ⟨b1, hb1, hcells1, hframe1⟩ := read_Remembers (s.processor.data ad).pre_buffer_
    s.editor.buffer_ 0 (t - s.editor.saved_written_size_) Hpre hv1 hf1 hr1 (by omega)
    (by rw [hs1]; exact hlag)
    (fun ch h0 h1 => by rw [hl1 ch h0 (by rw [hc1] at h1; exact h1)]; omega)
  obtain ⟨b2, hb2, hcells2, hframe2⟩ := read_Remembers (s.processor.data ad).post_buffer_
    (fun ch => b1 (ch + 2)) 0 (t - s.editor.saved_written_size_) Hpost hv2 hf2 hr2 (by omega)
    (by rw [hs2]; exact hlag)
    (fun ch h0 h1 => by rw [hl2 ch h0 (by rw [hc2] at h1; exact h1)]; omega)
  have htc := timerCallback_eq s.processor s.editor ad b1 b2 hact (hlocks ad)
    (by rw [hg1, hg2]) (by rw [hn]; exact hb1) (by rw [hn]; exact hb2)
  rw [hn, hg1] at htc
  have hstep : step s .drain = some
      { processor := s.processor.setData ad (s.processor.data ad),
        editor :=
          { buffer_ := fun ch => b2 (ch - 2),
            thumb_ := s.editor.thumb_ ++ [(s.editor.saved_thumbnail_position_,
              addedBlock (fun ch => b2 (ch - 2)) (t - s.editor.saved_written_size_))],
            saved_thumbnail_position_ :=
              s.editor.saved_thumbnail_position_ + (t - s.editor.saved_written_size_),
            saved_written_size_ := t } } := by
    simp only [step, htc, Option.map]
  have hact1 : (s.processor.setData ad (s.processor.data ad)).active_audio_data_ = some ad := by
    rw [active_setData]; exact hact
  refine ⟨_, hstep, ?_, rfl⟩
  refine ⟨ad, hact1, ?_, ?_, ?_, ht0, le_refl t, ?_⟩
  · intro i
    show ((AudioPluginAudioProcessor.setData _ _ _).data i).lock_ = false
    rw [data_setData_self]; exact hlocks i
  · show StoreHolds N t ((AudioPluginAudioProcessor.setData _ _ _).data ad).pre_buffer_ Hpre
    rw [data_setData_self]; exact ⟨hv1, hf1, hs1, hc1, hn1, hr1, hl1⟩
  · show StoreHolds N t ((AudioPluginAudioProcessor.setData _ _ _).data ad).post_buffer_ Hpost
    rw [data_setData_self]; exact ⟨hv2, hf2, hs2, hc2, hn2, hr2, hl2⟩
  · intro ch hch
    obtain ⟨hd1, hd2⟩ := hdr ch hch
    have hL1 := hl1 ch (by omega) (by omega)
    have hL2 := hl2 ch (by omega) (by omega)
    have hsplit : ∀ H : List T, (H.length : Int) = t →
        H.take s.editor.saved_written_size_.toNat ++
          H.drop (H.length - (t - s.editor.saved_written_size_).toNat) = H.take t.toNat := by
      intro H hH
      have e1 : H.length - (t - s.editor.saved_written_size_).toNat
          = s.editor.saved_written_size_.toNat := by omega
      rw [e1, List.take_append_drop, List.take_of_length_le (by omega)]
    constructor
    · rw [drained_of_thumb_append s.editor _ _ ch rfl, addedBlock_getD _ _ _ (by omega), hd1]
      have e2 : cells (fun c => b2 (c - 2)) (ch : Int) 0
          (t - s.editor.saved_written_size_).toNat =
          cells b1 (ch : Int) 0 (t - s.editor.saved_written_size_).toNat := by
        apply cells_congr
        intro j
        show b2 ((ch : Int) - 2) j = b1 ch j
        rw [hframe2 _ j (by omega)]
        show b1 ((ch : Int) - 2 + 2) j = b1 ch j
        rw [sub_add_cancel]
      rw [e2, hcells1 ch (by omega) (by rw [hc1]; omega)]
      exact hsplit _ hL1
    · rw [drained_of_thumb_append s.editor _ _ (ch + 2) rfl, addedBlock_getD _ _ _ (by omega),
        hd2]
      have e2 : cells (fun c => b2 (c - 2)) ((ch + 2 : Nat) : Int) 0
          (t - s.editor.saved_written_size_).toNat =
          cells b2 (ch : Int) 0 (t - s.editor.saved_written_size_).toNat := by
        apply cells_congr
        intro j
        show b2 (((ch + 2 : Nat) : Int) - 2) j = b2 ch j
        congr 1
        push_cast
        ring
      rw [e2, hcells2 ch (by omega) (by rw [hc2]; omega)]
      exact hsplit _ hL2


theorem write_StoreHolds {T : Type} (N t : Int) (rb : RingBuffer T) (H : Int → List T)
    (src : Int → Int → T) (length : Int) (h : StoreHolds N t rb H) (hL0 : 0 ≤ length)
    (hL1 : length ≤ N) :
    ∃ rb1, rb.write src 0 length = some rb1 ∧
      StoreHolds N (t + length) rb1 (fun ch => H ch ++ blockSamples src ch 0 length) := by
  obtain ⟨hv, hf, hs, hc, hn, hr, hl⟩ := h
  obtain ⟨rb1, h1⟩ := write_eq_some_of_le rb src 0 length (by rw [hs]; exact hL1)
  have hs1 := write_num_samples rb rb1 _ _ _ h1
  have hc1 := write_num_channels rb rb1 _ _ _ h1
  have hw1 := write_num_written rb rb1 _ _ _ hL0 (by rw [hs]; exact hL1) h1
  refine ⟨rb1, h1, write_Valid rb rb1 _ _ _ hv hL0 h1, ?_, by rw [hs1, hs], by rw [hc1, hc],
    by rw [hw1, hn], write_Remembers rb rb1 _ _ _ H hv hf hL0 hr h1, ?_⟩
  · unfold RingBuffer.FitsInt; rw [hs1, hc1]; exact hf
  · intro ch h0 h2
    have := hl ch h0 h2
    simp only [List.length_append, length_blockSamples]
    push_cast
    omega

/-- A producer step with a block of at most `N` samples extends both
remembered streams by the block, whatever the outcome of `try_lock`. -/
theorem produce_HandoffInv {T : Type} [Zero T] (N t : Int) (Hpre Hpost : Int → List T)
    (s : System T) (held : Bool) (pre_data post_data : Int → Int → T) (length : Int)
    (hinv : HandoffInv N t Hpre Hpost s) (hL0 : 0 ≤ length) (hL1 : length ≤ N) :
    ∃ s1, step s (.produce held pre_data post_data length) = some s1 ∧
      HandoffInv N (t + length) (fun ch => Hpre ch ++ blockSamples pre_data ch 0 length)
        (fun ch => Hpost ch ++ blockSamples post_data ch 0 length) s1 ∧
      s1.editor = s.editor := by
  obtain ⟨ad, hact, hlocks, hpre, hpost, hw0, hw1, hdr⟩ := hinv
  obtain ⟨pre1, hp1, hsh1⟩ := write_StoreHolds N t _ Hpre pre_data length hpre hL0 hL1
  obtain ⟨post1, hp2, hsh2⟩ := write_StoreHolds N t _ Hpost post_data length hpost hL0 hL1
  obtain ⟨q, hq, hqa, hqpre, hqpost, _⟩ :=
    processBlock_consumerHolds s.processor ad held pre_data post_data length pre1 post1
      hact hp1 hp2
  have hstep : step s (.produce held pre_data post_data length) =
      some { s with processor := consumerReleases q } := by
    simp only [step, hq, Option.map]
  refine ⟨_, hstep, ?_, rfl⟩
  have hw2 : s.editor.saved_written_size_ ≤ t + length := by omega
  refine ⟨if held then AudioPluginAudioProcessor.opposite ad else ad, ?_, ?_, ?_, ?_, hw0,
    hw2, ?_⟩
  · show (consumerReleases q).active_audio_data_ = _
    rw [consumerReleases_active]; exact hqa
  · intro i
    show ((consumerReleases q).data i).lock_ = false
    rw [consumerReleases_data]; rfl
  · show StoreHolds N (t + length) ((consumerReleases q).data _).pre_buffer_ _
    rw [consumerReleases_data]
    show StoreHolds N (t + length) (q.data _).pre_buffer_ _
    rw [hqpre]; exact hsh1
  · show StoreHolds N (t + length) ((consumerReleases q).data _).post_buffer_ _
    rw [consumerReleases_data]
    show StoreHolds N (t + length) (q.data _).post_buffer_ _
    rw [hqpost]; exact hsh2
  · intro ch hch
    obtain ⟨hd1, hd2⟩ := hdr ch hch
    have hL1' := hpre.2.2.2.2.2.2 ch (by omega) (by omega)
    have hL2' := hpost.2.2.2.2.2.2 ch (by omega) (by omega)
    have hk1 : s.editor.saved_written_size_.toNat ≤ (Hpre ch).length := by omega
    have hk2 : s.editor.saved_written_size_.toNat ≤ (Hpost ch).length := by omega
    constructor
    · show drained s.editor ch =
        (Hpre ch ++ blockSamples pre_data ch 0 length).take s.editor.saved_written_size_.toNat
      rw [hd1, List.take_append_of_le_length hk1]
    · show drained s.editor (ch + 2) =
        (Hpost ch ++ blockSamples post_data ch 0 length).take s.editor.saved_written_size_.toNat
      rw [hd2, List.take_append_of_le_length hk2]


theorem run_append {T : Type} [Zero T] (evs1 evs2 : List (Event T)) :
    ∀ s : System T, run s (evs1 ++ evs2) = (run s evs1).bind fun s1 => run s1 evs2 := by
  induction evs1 with
  | nil => intro s; rfl
  | cons ev evs ih =>
    intro s
    simp only [List.cons_append, run]
    cases step s ev with
    | none => rfl
    | some s1 => exact ih s1

theorem producedLength_nonneg {T : Type} (N : Int) (evs : List (Event T)) :
    ∀ pending, WithinCapacity N pending evs → 0 ≤ producedLength evs := by
  induction evs with
  | nil => intro _ _; simp [producedLength]
  | cons ev evs ih =>
    intro pending h
    cases ev with
    | produce held a b length =>
      obtain ⟨h0, _, h2⟩ := h
      have := ih _ h2
      simp only [producedLength]; omega
    | drain => exact ih _ h
    | prepare n => exact absurd h (by simp [WithinCapacity])

/-- Producer steps and drains from a state that satisfies the handoff
invariant, with never more than `N` undrained samples and fewer than `2^31`
samples in total: the run has a result and the invariant holds for the
streams extended by the produced blocks. -/
theorem run_HandoffInv {T : Type} [Zero T] (N : Int) (evs : List (Event T)) :
    ∀ (s : System T) (t : Int) (Hpre Hpost : Int → List T),
      HandoffInv N t Hpre Hpost s →
      t - s.editor.saved_written_size_ ≤ N →
      WithinCapacity N (t - s.editor.saved_written_size_) evs →
      t + producedLength evs < 2147483648 →
      ∃ s1, run s evs = some s1 ∧
        HandoffInv N (t + producedLength evs)
          (fun ch => Hpre ch ++ history (preBlocks evs) ch)
          (fun ch => Hpost ch ++ history (postBlocks evs) ch) s1 ∧
        t + producedLength evs - s1.editor.saved_written_size_ ≤ N := by
  induction evs with
  | nil =>
    intro s t Hpre Hpost hinv hlag _ _
    refine ⟨s, rfl, ?_, by simpa [producedLength] using hlag⟩
    simpa [producedLength, preBlocks, postBlocks, history] using hinv
  | cons ev evs ih =>
    intro s t Hpre Hpost hinv hlag hcap htot
    cases ev with
    | produce held pre_data post_data length =>
      obtain ⟨h0, h1, h2⟩ := hcap
      have hw := hinv
      obtain ⟨_, _, _, _, _, hw0, hw1, _⟩ := hw
      obtain ⟨s1, hs1, hinv1, hed⟩ := produce_HandoffInv N t Hpre Hpost s held pre_data
        post_data length hinv h0 (by omega)
      simp only [producedLength] at htot ⊢
      obtain ⟨s2, hs2, hinv2, hlag2⟩ := ih s1 (t + length) _ _ hinv1
        (by rw [hed]; omega) (by rw [hed]; rw [show t + length - s.editor.saved_written_size_
          = t - s.editor.saved_written_size_ + length from by ring]; exact h2) (by omega)
      refine ⟨s2, by simp only [run, hs1, Option.bind]; exact hs2, ?_, by omega⟩
      have e1 : (fun ch => Hpre ch ++ history (preBlocks
          (Event.produce held pre_data post_data length :: evs)) ch) =
          (fun ch => (Hpre ch ++ blockSamples pre_data ch 0 length) ++
            history (preBlocks evs) ch) := by
        funext ch
        simp only [preBlocks, history_cons, List.append_assoc]
      have e2 : (fun ch => Hpost ch ++ history (postBlocks
          (Event.produce held pre_data post_data length :: evs)) ch) =
          (fun ch => (Hpost ch ++ blockSamples post_data ch 0 length) ++
            history (postBlocks evs) ch) := by
        funext ch
        simp only [postBlocks, history_cons, List.append_assoc]
      rw [e1, e2, ← add_assoc]
      exact hinv2
    | drain =>
      have hpos := producedLength_nonneg N evs 0 hcap
      simp only [producedLength] at htot ⊢
      obtain ⟨s1, hs1, hinv1, hw⟩ := drain_HandoffInv N t Hpre Hpost s hinv (by omega) hlag
      obtain ⟨s2, hs2, hinv2, hlag2⟩ := ih s1 t Hpre Hpost hinv1
        (by rw [hw]; have := hinv1; obtain ⟨_, _, _, hh, _⟩ := this
            have := StoreHolds_nonneg _ _ _ _ hh
            have : 0 < N ∨ N ≤ 0 := by omega
            obtain ⟨hv, _, hs, _⟩ := hh
            have := hv.1; have := hv.2.1
            omega)
        (by rw [hw, sub_self]; exact hcap) htot
      exact ⟨s2, by simp only [run, hs1, Option.bind]; exact hs2, hinv2, hlag2⟩
    | prepare n => exact absurd hcap (by simp [WithinCapacity])


theorem prepareToPlay_locks {T : Type} [Zero T] (p p1 : AudioPluginAudioProcessor T)
    (n : Int) (h : p.prepareToPlay n = some p1) (hl : ∀ i, (p.data i).lock_ = false) :
    ∀ i, (p1.data i).lock_ = false := by
  unfold AudioPluginAudioProcessor.prepareToPlay at h
  cases hc : (RingBuffer.construct 2 n : Option (RingBuffer T)) with
  | none =>
    rw [hc] at h
    cases hact : p.active_audio_data_ with
    | none => rw [hact] at h; simp at h
    | some i =>
      rw [hact] at h
      dsimp only at h
      cases hlk : (p.data i).lock <;> rw [hlk] at h <;> simp at h
  | some buffer =>
    rw [hc] at h
    have h0 := hl 0
    have h1 := hl 1
    simp only [AudioPluginAudioProcessor.data, if_true] at h0
    simp only [AudioPluginAudioProcessor.data, Fin.isValue, one_ne_zero, if_false] at h1
    cases hact : p.active_audio_data_ with
    | none =>
      rw [hact] at h
      simp only [Option.bind, if_true] at h
      cases h
      intro j
      fin_cases j <;>
        simp [AudioPluginAudioProcessor.data, AudioPluginAudioProcessor.setData, h0, h1]
    | some i =>
      rw [hact] at h
      dsimp only at h
      cases hlk : (p.data i).lock with
      | none => rw [hlk] at h; simp at h
      | some ad =>
        rw [hlk] at h
        simp only [Option.map, Option.bind, Bool.true_eq_false, if_false] at h
        cases h
        have had : ad.lock_ = true := by
          unfold AudioData.lock at hlk
          split at hlk
          · cases hlk
          · cases hlk; rfl
        intro j
        fin_cases i <;> fin_cases j <;>
          simp [AudioPluginAudioProcessor.data, AudioPluginAudioProcessor.setData,
            AudioData.unlock, h0, h1]

/-- After a reset to a capacity `0 < N ≤ 2^30`, with the watermark at 0 and
nothing drained, the handoff invariant holds for the empty streams. -/
theorem HandoffInv_reset {T : Type} [Zero T] (N : Int) (p0 p1 : AudioPluginAudioProcessor T)
    (e0 : AudioPluginAudioProcessorEditor T)
    (hN0 : 0 < N) (hN1 : N ≤ 1073741824)
    (hfree : ∀ i, (p0.data i).lock_ = false)
    (hreset : p0.prepareToPlay N = some p1)
    (hw : e0.saved_written_size_ = 0) (hth : e0.thumb_ = []) :
    HandoffInv N 0 (fun _ => []) (fun _ => [])
      ({ processor := p1, editor := e0 } : System T) := by
  obtain ⟨buffer, hc, hb, hact⟩ := prepareToPlay_eq_some p0 p1 N hreset
  have hlocks := prepareToPlay_locks p0 p1 N hreset hfree
  obtain ⟨_, _, hcc, hcs, _, hcw, _⟩ := construct_eq_some 2 N buffer hc
  have hv := construct_Valid 2 N buffer hN0 hc
  have hst : StoreHolds N 0 buffer (fun _ => []) :=
    ⟨hv, ⟨by rw [hcs]; exact hN1, by rw [hcc]; decide⟩, hcs, hcc, hcw, Remembers_nil _ hv,
      fun _ _ _ => rfl⟩
  refine ⟨p0.active_audio_data_.getD 0, hact, hlocks, ?_, ?_, ?_, ?_, ?_⟩
  · show StoreHolds N 0 (p1.data _).pre_buffer_ _
    rw [(hb _).1]; exact hst
  · show StoreHolds N 0 (p1.data _).post_buffer_ _
    rw [(hb _).2]; exact hst
  · show 0 ≤ e0.saved_written_size_
    rw [hw]
  · show e0.saved_written_size_ ≤ 0
    rw [hw]
  · intro ch _
    show drained e0 ch = _ ∧ drained e0 (ch + 2) = _
    simp [drained, hth]

/-- Handoff continuity for sizes and totals that fit `int`: after a reset to
a capacity `0 < N ≤ 2^30`, with the watermark at 0, any sequence of producer
steps (either `try_lock` outcome) and drains with never more than `N`
undrained samples and fewer than `2^31` samples in total, followed by a
drain, has delivered to the thumbnail exactly the produced blocks, in order,
for both channels of the pre and of the post stream. -/
theorem handoff_continuity {T : Type} [Zero T] (N : Int) (p0 p1 : AudioPluginAudioProcessor T)
    (e0 : AudioPluginAudioProcessorEditor T) (evs : List (Event T))
    (hN0 : 0 < N) (hN1 : N ≤ 1073741824)
    (hfree : ∀ i, (p0.data i).lock_ = false)
    (hreset : p0.prepareToPlay N = some p1)
    (hw : e0.saved_written_size_ = 0) (hth : e0.thumb_ = [])
    (hcap : WithinCapacity N 0 evs) (htot : producedLength evs < 2147483648) :
    ∃ s, run { processor := p1, editor := e0 } (evs ++ [.drain]) = some s ∧
      ∀ ch : Nat, ch < 2 →
        drained s.editor ch = history (preBlocks evs) ch ∧
        drained s.editor (ch + 2) = history (postBlocks evs) ch := by
  have hinv := HandoffInv_reset N p0 p1 e0 hN0 hN1 hfree hreset hw hth
  obtain ⟨s1, hs1, hinv1, hlag1⟩ := run_HandoffInv N evs _ 0 _ _ hinv
    (by show (0 : Int) - e0.saved_written_size_ ≤ N
        rw [hw]; omega)
    (by show WithinCapacity N (0 - e0.saved_written_size_) evs
        rw [hw]; exact hcap)
    (by omega)
  obtain ⟨s2, hs2, hinv2, hw2⟩ := drain_HandoffInv N _ _ _ s1 hinv1 (by omega) hlag1
  refine ⟨s2, ?_, ?_⟩
  · rw [run_append, hs1]
    simp only [Option.bind, run, hs2]
  · obtain ⟨_, _, _, hsp, hsq, _, _, hdr⟩ := hinv2
    intro ch hch
    obtain ⟨hd1, hd2⟩ := hdr ch hch
    have l1 := hsp.2.2.2.2.2.2 ch (by omega) (by omega)
    have l2 := hsq.2.2.2.2.2.2 ch (by omega) (by omega)
    rw [hw2] at hd1 hd2
    simp only [List.nil_append] at hd1 hd2 l1 l2
    rw [hd1, hd2]
    constructor
    · exact List.take_of_length_le (by omega)
    · exact List.take_of_length_le (by omega)


theorem rounds_succ (k : Nat) : rounds (k + 1) = oneRound ++ rounds k := by
  unfold rounds
  rw [List.replicate_succ, List.flatten_cons]

theorem rounds_succ_right (k : Nat) : rounds (k + 1) = rounds k ++ oneRound := by
  unfold rounds
  rw [List.replicate_succ', List.flatten_append]
  simp

theorem WithinCapacity_rounds (k : Nat) : WithinCapacity 44100 0 (rounds k) := by
  induction k with
  | zero => simp [rounds, WithinCapacity]
  | succ k ih =>
    have e : rounds (k + 1) =
        .produce false (rampFrom 0) (rampFrom 500) 44100 :: .drain :: rounds k := by
      rw [rounds_succ]; rfl
    rw [e]
    exact ⟨by decide, by decide, ih⟩

theorem producedLength_rounds (k : Nat) : producedLength (rounds k) = k * 44100 := by
  induction k with
  | zero => simp [rounds, producedLength]
  | succ k ih =>
    have e : rounds (k + 1) =
        .produce false (rampFrom 0) (rampFrom 500) 44100 :: .drain :: rounds k := by
      rw [rounds_succ]; rfl
    rw [e]
    simp only [producedLength, ih]
    push_cast
    ring

theorem totalLength_preBlocks {T : Type} (evs : List (Event T)) :
    totalLength (preBlocks evs) = producedLength evs := by
  induction evs with
  | nil => simp [totalLength, preBlocks, producedLength]
  | cons ev evs ih =>
    cases ev <;> simp_all [totalLength, preBlocks, producedLength]

/-- One round of producer step and drain from a drained state. -/
theorem run_oneRound (s : System Int) (t : Int) (Hpre Hpost : Int → List Int)
    (hinv : HandoffInv 44100 t Hpre Hpost s) (hw : s.editor.saved_written_size_ = t)
    (ht : t + 44100 < 2147483648) :
    ∃ s1 H1 H2, run s oneRound = some s1 ∧ HandoffInv 44100 (t + 44100) H1 H2 s1 ∧
      s1.editor.saved_written_size_ = t + 44100 := by
  obtain ⟨s1, hs1, hinv1, hed⟩ := produce_HandoffInv 44100 t Hpre Hpost s false (rampFrom 0)
    (rampFrom 500) 44100 hinv (by decide) (by decide)
  obtain ⟨s2, hs2, hinv2, hw2⟩ := drain_HandoffInv 44100 _ _ _ s1 hinv1 ht
    (by rw [hed, hw]; omega)
  refine ⟨s2, _, _, ?_, hinv2, hw2⟩
  simp only [oneRound, run, hs1, hs2, Option.bind]

theorem run_rounds (k : Nat) :
    ∀ (s : System Int) (t : Int) (Hpre Hpost : Int → List Int),
      HandoffInv 44100 t Hpre Hpost s → s.editor.saved_written_size_ = t →
      t + k * 44100 < 2147483648 →
      ∃ s1 H1 H2, run s (rounds k) = some s1 ∧ HandoffInv 44100 (t + k * 44100) H1 H2 s1 ∧
        s1.editor.saved_written_size_ = t + k * 44100 := by
  induction k with
  | zero =>
    intro s t Hpre Hpost hinv hw _
    exact ⟨s, Hpre, Hpost, rfl, by simpa using hinv, by simpa using hw⟩
  | succ k ih =>
    intro s t Hpre Hpost hinv hw ht
    push_cast at ht ⊢
    obtain ⟨s1, H1, H2, hs1, hinv1, hw1⟩ := run_oneRound s t Hpre Hpost hinv hw (by omega)
    obtain ⟨s2, H3, H4, hs2, hinv2, hw2⟩ := ih s1 (t + 44100) H1 H2 hinv1 hw1 (by omega)
    refine ⟨s2, H3, H4, ?_, ?_, ?_⟩
    · rw [rounds_succ, run_append, hs1]
      exact hs2
    · rw [show t + ((k : Int) + 1) * 44100 = t + 44100 + k * 44100 from by ring]
      exact hinv2
    · rw [hw2]; ring

/-- A drain that finds a counter in `[2^31, 2^32)`: `getNumWritten()` is
negative, nothing is copied and the watermark becomes negative. -/
theorem drain_after_wrap {T : Type} [Zero T] (N t : Int) (Hpre Hpost : Int → List T)
    (s : System T) (hinv : HandoffInv N t Hpre Hpost s) (ht0 : 2147483648 ≤ t)
    (ht1 : t < 4294967296) :
    ∃ s1, step s .drain = some s1 ∧ s1.editor.saved_written_size_ = t - 4294967296 ∧
      ∀ ch : Nat, drained s1.editor ch = drained s.editor ch := by
  obtain ⟨ad, hact, hlocks, hpre, hpost, hw0, hw1, hdr⟩ := hinv
  obtain ⟨hv1, hf1, hs1, hc1, hn1, hr1, hl1⟩ := hpre
  obtain ⟨hv2, hf2, hs2, hc2, hn2, hr2, hl2⟩ := hpost
  have hg1 : (s.processor.data ad).pre_buffer_.getNumWritten = t - 4294967296 := by
    unfold RingBuffer.getNumWritten toInt32
    rw [hn1]; omega
  have hg2 : (s.processor.data ad).post_buffer_.getNumWritten = t - 4294967296 := by
    unfold RingBuffer.getNumWritten toInt32
    rw [hn2]; omega
  have hNpos : 0 ≤ N := by
    have := hv1.1; have := hv1.2.1; omega
  have hn : AudioPluginAudioProcessorEditor.num_to_read
      (s.processor.data ad).pre_buffer_.getNumWritten s.editor.saved_written_size_
      (s.processor.data ad).pre_buffer_.getNumSamples = 0 := by
    unfold AudioPluginAudioProcessorEditor.num_to_read RingBuffer.getNumSamples
    rw [hg1, hs1]
    omega
  have hb1 : (s.processor.data ad).pre_buffer_.read s.editor.buffer_ 0 0
      = some s.editor.buffer_ := by
    unfold RingBuffer.read; rw [if_pos (Or.inl rfl)]
  have hb2 : (s.processor.data ad).post_buffer_.read (fun ch => s.editor.buffer_ (ch + 2)) 0 0
      = some (fun ch => s.editor.buffer_ (ch + 2)) := by
    unfold RingBuffer.read; rw [if_pos (Or.inl rfl)]
  have htc := timerCallback_eq s.processor s.editor ad _ _ hact (hlocks ad)
    (by rw [hg1, hg2]) (by rw [hn]; exact hb1) (by rw [hn]; exact hb2)
  rw [hn, hg1] at htc
  have hstep : step s .drain = some
      { processor := s.processor.setData ad (s.processor.data ad),
        editor :=
          { buffer_ := fun ch => s.editor.buffer_ (ch - 2 + 2),
            thumb_ := s.editor.thumb_ ++ [(s.editor.saved_thumbnail_position_,
              addedBlock (fun ch => s.editor.buffer_ (ch - 2 + 2)) 0)],
            saved_thumbnail_position_ := s.editor.saved_thumbnail_position_ + 0,
            saved_written_size_ := t - 4294967296 } } := by
    simp only [step, htc, Option.map]
  refine ⟨_, hstep, rfl, ?_⟩
  intro ch
  rw [drained_of_thumb_append s.editor _ _ ch rfl]
  have : (addedBlock (fun c => s.editor.buffer_ (c - 2 + 2)) 0).getD ch [] = [] := by
    unfold addedBlock
    simp only [Int.toNat_zero, List.range_zero, List.map_nil]
    by_cases h : ch < 4
    · interval_cases ch <;> simp [List.range, List.range.loop]
    · rw [List.getD_eq_default _ _ (by simp; omega)]
  rw [this, List.append_nil]


theorem prepareToPlay_init (N : Int) (hN : 0 ≤ N) :
    (AudioPluginAudioProcessor.init : AudioPluginAudioProcessor Int).prepareToPlay N =
      some (preparedProcessor N) := by
  unfold preparedProcessor
  cases h : (AudioPluginAudioProcessor.init : AudioPluginAudioProcessor Int).prepareToPlay N with
  | some p => rfl
  | none =>
    exfalso
    unfold AudioPluginAudioProcessor.prepareToPlay RingBuffer.construct at h
    rw [if_neg (by omega)] at h
    simp [AudioPluginAudioProcessor.init] at h

theorem preBlocks_nonneg {T : Type} (N : Int) (evs : List (Event T)) :
    ∀ pending, WithinCapacity N pending evs → ∀ b ∈ preBlocks evs, 0 ≤ b.length := by
  induction evs with
  | nil => intro _ _ b hb; simp [preBlocks] at hb
  | cons ev evs ih =>
    intro pending h b hb
    cases ev with
    | produce held x y length =>
      obtain ⟨h0, _, h2⟩ := h
      simp only [preBlocks, List.mem_cons] at hb
      rcases hb with hb | hb
      · rw [hb]; exact h0
      · exact ih _ h2 b hb
    | drain => exact ih _ h b hb
    | prepare n => exact absurd h (by simp [WithinCapacity])

/-- C7 at the failing input. At 44100 Hz, from a reset with the watermark at
0, 48696 rounds of one producer block of 44100 samples followed by one drain
(never more than the capacity between two drains): the run has a result, the
producer has passed 2147493600 samples per channel, the thumbnail has
received 2147449500 of them (the last block is missing) and the watermark is
-2147473696. -/
theorem drained_stream_stalls_after_wrap :
    (AudioPluginAudioProcessor.init : AudioPluginAudioProcessor Int).prepareToPlay 44100 =
      some (preparedProcessor 44100) ∧
    WithinCapacity 44100 0 (rounds 48696) ∧
    ∃ s, run { processor := preparedProcessor 44100, editor := freshEditor } (rounds 48696)
        = some s ∧
      (history (preBlocks (rounds 48696)) 0).length = 2147493600 ∧
      (drained s.editor 0).length = 2147449500 ∧
      s.editor.saved_written_size_ = -2147473696 := by
  have hprep := prepareToPlay_init 44100 (by decide)
  refine ⟨hprep, WithinCapacity_rounds 48696, ?_⟩
  have hinv := HandoffInv_reset 44100 AudioPluginAudioProcessor.init (preparedProcessor 44100)
    freshEditor (by decide) (by decide) (by intro i; fin_cases i <;> rfl) hprep rfl rfl
  obtain ⟨s1, H1, H2, hs1, hinv1, hw1⟩ := run_rounds 48695 _ 0 _ _ hinv rfl (by norm_num)
  have e1 : (0 : Int) + ((48695 : Nat) : Int) * 44100 = 2147449500 := by norm_num
  rw [e1] at hinv1 hw1
  obtain ⟨s2, hs2, hinv2, hed2⟩ := produce_HandoffInv 44100 _ H1 H2 s1 false (rampFrom 0)
    (rampFrom 500) 44100 hinv1 (by decide) (by decide)
  obtain ⟨s3, hs3, hw3, hd3⟩ := drain_after_wrap 44100 _ _ _ s2 hinv2 (by norm_num)
    (by norm_num)
  refine ⟨s3, ?_, ?_, ?_, ?_⟩
  · rw [show (48696 : Nat) = 48695 + 1 from rfl, rounds_succ_right, run_append, hs1]
    simp only [Option.bind, oneRound, run, hs2, hs3]
  · have hl := length_history (preBlocks (rounds 48696)) 0
      (preBlocks_nonneg 44100 _ 0 (WithinCapacity_rounds 48696))
    rw [totalLength_preBlocks, producedLength_rounds] at hl
    have e2 : ((48696 : Nat) : Int) * 44100 = 2147493600 := by norm_num
    rw [e2] at hl
    omega
  · rw [hd3 0]
    obtain ⟨_, _, _, hsp, _, _, _, hdr⟩ := hinv2
    have h0 := (hdr 0 (by decide)).1
    have hl := hsp.2.2.2.2.2.2 0 (by decide) (by decide)
    rw [hed2, hw1] at h0
    rw [hed2, h0, List.length_take]
    simp only [Nat.cast_zero] at hl ⊢
    omega
  · rw [hw3]; norm_num


/-! ## The scenario of the specification and the drain count below the wrap -/

set_option maxRecDepth 100000 in
/-- The concrete scenario of the specification at capacity 100: after the
values `0..59` and `60..119`, a read of 60 samples gives `60..119` and a read
of 100 samples gives `20..119`, on both channels (channel 1 carries the same
ramp shifted by 1000). -/
theorem scenario_capacity_100 :
    (scenarioBuffer.bind fun rb => rb.read zeroMemory 0 60).map
        (fun d => (cells d 0 0 60, cells d 1 0 60)) =
      some ((List.range 60).map (fun (i : Nat) => (60 + i : Int)),
        (List.range 60).map (fun (i : Nat) => (1060 + i : Int))) ∧
    (scenarioBuffer.bind fun rb => rb.read zeroMemory 0 100).map
        (fun d => (cells d 0 0 100, cells d 1 0 100)) =
      some ((List.range 100).map (fun (i : Nat) => (20 + i : Int)),
        (List.range 100).map (fun (i : Nat) => (1020 + i : Int))) := by
  decide

/-- Below the wrap of the 32-bit accessor the drain count is the one of the
specification: with a counter `t` in `[-2^31, 2^31)` and a capacity of at
least 0, `num_to_read` is `min (t - w) N` when `w ≤ t` and 0 otherwise. -/
theorem num_to_read_below_wrap {T : Type} (rb : RingBuffer T) (w : Int)
    (h0 : -2147483648 ≤ rb.num_written_) (h1 : rb.num_written_ < 2147483648)
    (hN : 0 ≤ rb.num_samples_) :
    AudioPluginAudioProcessorEditor.num_to_read rb.getNumWritten w rb.getNumSamples =
      if w ≤ rb.num_written_ then min (rb.num_written_ - w) rb.num_samples_ else 0 := by
  unfold AudioPluginAudioProcessorEditor.num_to_read RingBuffer.getNumWritten
    RingBuffer.getNumSamples
  rw [toInt32_of_range _ h0 h1]
  split <;> omega

/-! ## The write cursor -/

theorem emod_of_wrap (a N : Int) (h0 : N ≤ a) (h1 : a < 2 * N) : a % N = a - N := by
  have h : a % N = (a - N) % N := by
    rw [← Int.add_emod_self (a := a - N) (b := N)]; congr 1; ring
  rw [h, Int.emod_eq_of_lt (by omega) (by omega)]

theorem write_next_pos_eq_emod {T : Type} (rb : RingBuffer T) (length : Int)
    (hp0 : 0 ≤ rb.write_pos_) (hp1 : rb.write_pos_ < rb.num_samples_)
    (hL0 : 0 ≤ length) (hL1 : length ≤ rb.num_samples_) :
    rb.write_next_pos length = (rb.write_pos_ + length) % rb.num_samples_ := by
  unfold RingBuffer.write_next_pos
  split
  · rw [emod_of_wrap _ _ (by omega) (by omega)]
  · rw [Int.emod_eq_of_lt (by omega) (by omega)]

theorem write_write_pos {T : Type} (rb rb1 : RingBuffer T) (src : Int → Int → T)
    (start length : Int) (hp0 : 0 ≤ rb.write_pos_) (hp1 : rb.write_pos_ < rb.num_samples_)
    (hL0 : 0 ≤ length) (hL1 : length ≤ rb.num_samples_)
    (h : rb.write src start length = some rb1) :
    rb1.write_pos_ = (rb.write_pos_ + length) % rb.num_samples_ := by
  by_cases hz : length = 0 ∨ rb.num_samples_ = 0
  · rw [write_noop rb src start length hz] at h
    cases h
    have hL : length = 0 := by
      rcases hz with hz | hz
      · exact hz
      · omega
    rw [hL, add_zero, Int.emod_eq_of_lt hp0 hp1]
  · rw [write_copy rb src start length hz hL1] at h
    cases h
    exact write_next_pos_eq_emod rb length hp0 hp1 hL0 hL1

theorem writeAll_cursor {T : Type} (bs : List (Block T)) :
    ∀ rb : RingBuffer T, 0 < rb.num_samples_ →
      rb.write_pos_ = rb.num_written_ % rb.num_samples_ →
      (∀ b ∈ bs, 0 ≤ b.length ∧ b.length ≤ rb.num_samples_) →
      ∃ rb1, writeAll rb bs = some rb1 ∧ rb1.num_samples_ = rb.num_samples_ ∧
        rb1.num_written_ = rb.num_written_ + totalLength bs ∧
        rb1.write_pos_ = rb1.num_written_ % rb1.num_samples_ := by
  induction bs with
  | nil => intro rb _ h _; exact ⟨rb, rfl, rfl, by simp [totalLength], h⟩
  | cons b bs ih =>
    intro rb hN hc hv
    obtain ⟨h0, hL⟩ := hv b (List.mem_cons_self _ _)
    obtain ⟨rb1, h1⟩ := write_eq_some_of_le rb b.src b.start b.length hL
    have hs := write_num_samples rb rb1 _ _ _ h1
    have hw := write_num_written rb rb1 _ _ _ h0 hL h1
    have hp := write_write_pos rb rb1 _ _ _ (by rw [hc]; exact Int.emod_nonneg _ (by omega))
      (by rw [hc]; exact Int.emod_lt_of_pos _ hN) h0 hL h1
    obtain ⟨rb2, h2, hs2, hw2, hp2⟩ := ih rb1 (by rw [hs]; exact hN)
      (by rw [hp, hs, hw, hc, Int.emod_add_emod])
      (fun c hc1 => by rw [hs]; exact hv c (List.mem_cons_of_mem _ hc1))
    refine ⟨rb2, ?_, by rw [hs2, hs], ?_, hp2⟩
    · simp only [writeAll, h1, Option.bind]
      exact h2
    · rw [hw2, hw]
      simp only [totalLength, List.map_cons, List.sum_cons]
      omega

/-- C15. Cursor invariant: for a capacity `N > 0`, the constructor leaves the
write cursor at 0, inside `[0, N)`; every sequence of writes of lengths
`0 ≤ L ≤ N` on the fresh buffer has a result, whose cursor is inside `[0, N)`
and equals the total-written counter modulo `N`; and from every state with the
cursor inside `[0, N)` a write of length `0 ≤ L ≤ N` has a result whose cursor
is `(cursor + L) mod N`, again inside `[0, N)`. -/
theorem cursor_invariant {T : Type} [Zero T] (c N : Int) (bs : List (Block T))
    (hN : 0 < N) (hc : 0 ≤ c) (hb : ∀ b ∈ bs, 0 ≤ b.length ∧ b.length ≤ N) :
    (∃ rb0 rb, RingBuffer.construct c N = some rb0 ∧
      0 ≤ rb0.write_pos_ ∧ rb0.write_pos_ < N ∧
      writeAll rb0 bs = some rb ∧
      0 ≤ rb.write_pos_ ∧ rb.write_pos_ < N ∧
      rb.num_written_ = totalLength bs ∧ rb.write_pos_ = rb.num_written_ % N) ∧
    ∀ (rb : RingBuffer T) (src : Int → Int → T) (start L : Int),
      rb.num_samples_ = N → 0 ≤ rb.write_pos_ → rb.write_pos_ < N → 0 ≤ L → L ≤ N →
        ∃ rb1, rb.write src start L = some rb1 ∧
          rb1.write_pos_ = (rb.write_pos_ + L) % N ∧
          0 ≤ rb1.write_pos_ ∧ rb1.write_pos_ < N := by
  constructor
  · have hcon : RingBuffer.construct c N = some
        ({ num_channels_ := c, num_samples_ := N, write_pos_ := 0, num_written_ := 0,
           buffer_ := List.replicate c.toNat (List.replicate N.toNat 0) } : RingBuffer T) := by
      unfold RingBuffer.construct
      rw [if_neg (by omega)]
    obtain ⟨rb, hw, hs, hn, hp⟩ := writeAll_cursor bs
      ({ num_channels_ := c, num_samples_ := N, write_pos_ := 0, num_written_ := 0,
         buffer_ := List.replicate c.toNat (List.replicate N.toNat 0) } : RingBuffer T)
      hN (by show (0 : Int) = 0 % N; simp) hb
    change rb.num_samples_ = N at hs
    change rb.num_written_ = 0 + totalLength bs at hn
    rw [hs] at hp
    have hp0 : 0 ≤ rb.write_pos_ := by rw [hp]; exact Int.emod_nonneg _ (by omega)
    have hp1 : rb.write_pos_ < N := by rw [hp]; exact Int.emod_lt_of_pos _ hN
    exact ⟨_, rb, hcon, le_refl _, hN, hw, hp0, hp1, by omega, hp⟩
  · intro rb src start L hs hp0 hp1 hL0 hL1
    obtain ⟨rb1, h1⟩ := write_eq_some_of_le rb src start L (by rw [hs]; exact hL1)
    have hq := write_write_pos rb rb1 src start L hp0 (by rw [hs]; exact hp1) hL0
      (by rw [hs]; exact hL1) h1
    rw [hs] at hq
    exact ⟨rb1, h1, hq, by rw [hq]; exact Int.emod_nonneg _ (by omega),
      by rw [hq]; exact Int.emod_lt_of_pos _ hN⟩

/-- C15 on a buffer of 2 channels and 4 samples: after the writes of 3 and 4
samples of `cursorBlocks` the cursor is `7 mod 4 = 3`, and a write of 3 samples
at cursor 3 leaves the cursor at `(3 + 3) mod 4 = 2`. -/
theorem cursor_invariant_witness :
    (0 : Int) < 4 ∧ (0 : Int) ≤ 2 ∧
    (∀ b ∈ cursorBlocks, 0 ≤ b.length ∧ b.length ≤ 4) ∧
    (∃ rb0 rb, RingBuffer.construct 2 4 = some rb0 ∧
      0 ≤ rb0.write_pos_ ∧ rb0.write_pos_ < 4 ∧
      writeAll rb0 cursorBlocks = some rb ∧
      0 ≤ rb.write_pos_ ∧ rb.write_pos_ < 4 ∧
      rb.num_written_ = totalLength cursorBlocks ∧ rb.write_pos_ = rb.num_written_ % 4) ∧
    ∃ rb1, ({ smallBuffer with write_pos_ := 3 } : RingBuffer Int).write (rampFrom 0) 0 3 =
        some rb1 ∧
      rb1.write_pos_ = (3 + 3) % 4 ∧ 0 ≤ rb1.write_pos_ ∧ rb1.write_pos_ < 4 :=
  ⟨by decide, by decide, by decide,
   (cursor_invariant 2 4 cursorBlocks (by decide) (by decide) (by decide)).1,
   (cursor_invariant 2 4 cursorBlocks (by decide) (by decide) (by decide)).2
     { smallBuffer with write_pos_ := 3 } (rampFrom 0) 0 3 rfl (by decide) (by decide)
     (by decide) (by decide)⟩

/-! ## Reset, and the copy regions -/

theorem usedReset_isSome : usedReset.isSome = true := by decide

theorem prepareToPlay_returns {T : Type} [Zero T] (p : AudioPluginAudioProcessor T) (n : Int)
    (h0 : 0 ≤ n)
    (hfree : ∀ i, p.active_audio_data_ = some i → (p.data i).lock_ = false) :
    ∃ p1, p.prepareToPlay n = some p1 := by
  unfold AudioPluginAudioProcessor.prepareToPlay RingBuffer.construct
  rw [if_neg (by omega)]
  cases hact : p.active_audio_data_ with
  | none => exact ⟨_, rfl⟩
  | some i =>
    have hl := hfree i hact
    simp only [AudioData.lock, hl, Bool.false_eq_true, if_false, Option.map, Option.bind]
    exact ⟨_, rfl⟩

/-- C13. Reset: from every processor state, if `prepareToPlay` returns, then
each of the four stores (pre and post of both slots) has total-written counter
0 (also through `getNumWritten`), write cursor 0, 2 channels, the capacity
`num_samples` and only zero samples; and `prepareToPlay` does return when
`num_samples` is not negative and the guard of the active slot, if there is
one, is free. -/
theorem reset_empties_all_stores {T : Type} [Zero T] (p : AudioPluginAudioProcessor T)
    (num_samples : Int) :
    (∀ p1, p.prepareToPlay num_samples = some p1 →
      ∀ (i : Fin 2) (rb : RingBuffer T),
        rb = (p1.data i).pre_buffer_ ∨ rb = (p1.data i).post_buffer_ →
        rb.num_written_ = 0 ∧ rb.write_pos_ = 0 ∧ rb.num_channels_ = 2 ∧
        rb.num_samples_ = num_samples ∧
        rb.buffer_ = List.replicate 2 (List.replicate num_samples.toNat 0) ∧
        (∀ row ∈ rb.buffer_, ∀ x ∈ row, x = 0) ∧
        rb.getNumWritten = 0) ∧
    (0 ≤ num_samples →
      (∀ i, p.active_audio_data_ = some i → (p.data i).lock_ = false) →
      ∃ p1, p.prepareToPlay num_samples = some p1) := by
  refine ⟨?_, fun h0 hfree => prepareToPlay_returns p num_samples h0 hfree⟩
  intro p1 hp1
  obtain ⟨buffer, hc, hb, _⟩ := prepareToPlay_eq_some p p1 num_samples hp1
  obtain ⟨_, _, hcc, hcs, hcp, hcw, hcb⟩ := construct_eq_some 2 num_samples buffer hc
  intro i rb hrb
  have hrb1 : rb = buffer := by
    rcases hrb with h | h
    · rw [h, (hb i).1]
    · rw [h, (hb i).2]
  subst hrb1
  refine ⟨hcw, hcp, hcc, hcs, by rw [hcb]; rfl, ?_, ?_⟩
  · intro row hrow x hx
    rw [hcb] at hrow
    rw [List.eq_of_mem_replicate hrow] at hx
    exact List.eq_of_mem_replicate hx
  · unfold RingBuffer.getNumWritten
    rw [hcw]; rfl

/-- C13 on a processor that has run (`usedProcessor`: capacity 8, two blocks
written, slot 1 active): a reset to capacity 6 returns and leaves the
pre-store of slot 1 empty. -/
theorem reset_empties_all_stores_witness :
    usedProcessor.prepareToPlay 6 = some (usedReset.get usedReset_isSome) ∧
    (0 : Int) ≤ 6 ∧
    (∀ i, usedProcessor.active_audio_data_ = some i → (usedProcessor.data i).lock_ = false) ∧
    ((usedProcessor.data 1).pre_buffer_.num_written_ = 11 ∧
      (usedProcessor.data 1).pre_buffer_.num_samples_ = 8) ∧
    (((usedReset.get usedReset_isSome).data 1).pre_buffer_.num_written_ = 0 ∧
      ((usedReset.get usedReset_isSome).data 1).pre_buffer_.write_pos_ = 0 ∧
      ((usedReset.get usedReset_isSome).data 1).pre_buffer_.num_channels_ = 2 ∧
      ((usedReset.get usedReset_isSome).data 1).pre_buffer_.num_samples_ = 6 ∧
      ((usedReset.get usedReset_isSome).data 1).pre_buffer_.buffer_ =
        List.replicate 2 (List.replicate (6 : Int).toNat 0) ∧
      (∀ row ∈ ((usedReset.get usedReset_isSome).data 1).pre_buffer_.buffer_,
        ∀ x ∈ row, x = 0) ∧
      ((usedReset.get usedReset_isSome).data 1).pre_buffer_.getNumWritten = 0) ∧
    ∃ p1, usedProcessor.prepareToPlay 6 = some p1 :=
  ⟨(Option.some_get usedReset_isSome).symm, by decide, by decide, by decide,
   (reset_empties_all_stores usedProcessor 6).1 (usedReset.get usedReset_isSome)
     (Option.some_get usedReset_isSome).symm 1 _ (Or.inl rfl),
   (reset_empties_all_stores usedProcessor 6).2 (by decide) (by decide)⟩

/-- The copy regions of `write` and `read` for capacities up to `2^30`: the
counts are the ones of the specification, they are not negative and add up to
`L`, and every cell they address lies inside `[0, num_samples_)`. -/
theorem copy_regions_in_bounds {T : Type} (rb : RingBuffer T) (L : Int)
    (hN : rb.num_samples_ ≤ 1073741824) (hp0 : 0 ≤ rb.write_pos_)
    (hp1 : rb.write_pos_ < rb.num_samples_) (hL0 : 0 < L) (hL1 : L ≤ rb.num_samples_) :
    (rb.write_num_copy1 L = min (rb.write_pos_ + L) rb.num_samples_ - rb.write_pos_ ∧
      rb.write_num_copy2 L = L - rb.write_num_copy1 L ∧
      0 ≤ rb.write_num_copy1 L ∧ 0 ≤ rb.write_num_copy2 L ∧
      rb.write_num_copy1 L + rb.write_num_copy2 L = L ∧
      ∀ r ∈ rb.write_regions L, ∀ i, touches r i → 0 ≤ i ∧ i < rb.num_samples_) ∧
    (rb.read_num_copy1 L = (if rb.write_pos_ < L then L - rb.write_pos_ else 0) ∧
      rb.read_num_copy2 L = L - rb.read_num_copy1 L ∧
      0 ≤ rb.read_num_copy1 L ∧ 0 ≤ rb.read_num_copy2 L ∧
      rb.read_num_copy1 L + rb.read_num_copy2 L = L ∧
      ∀ r ∈ rb.read_regions L, ∀ i, touches r i → 0 ≤ i ∧ i < rb.num_samples_) := by
  obtain ⟨hw1, hw2⟩ := write_num_copy_eq rb L hN hp0 hp1 (by omega) hL1
  obtain ⟨hr1, hr2⟩ := read_num_copy_eq rb L hN hp0 hp1 (by omega) hL1
  constructor
  · refine ⟨hw1, by rw [hw2, hw1], by rw [hw1]; omega, by rw [hw2]; omega,
      by rw [hw1, hw2]; omega, ?_⟩
    intro r hr i hi
    unfold touches at hi
    simp only [RingBuffer.write_regions, List.mem_cons, List.mem_singleton,
      List.not_mem_nil, or_false] at hr
    rcases hr with rfl | rfl
    · simp only at hi; rw [hw1] at hi; omega
    · simp only at hi; rw [hw2] at hi; omega
  · have e1 : rb.read_num_copy1 L = (if rb.write_pos_ < L then L - rb.write_pos_ else 0) := by
      rw [hr1]; split <;> split <;> omega
    refine ⟨e1, by rw [hr2, hr1], by rw [hr1]; split <;> omega, by rw [hr2]; split <;> omega,
      by rw [hr1, hr2]; omega, ?_⟩
    intro r hr i hi
    unfold touches at hi
    simp only [RingBuffer.read_regions, List.mem_cons, List.mem_singleton,
      List.not_mem_nil, or_false] at hr
    rcases hr with rfl | rfl
    · simp only at hi; rw [hr1] at hi; split at hi <;> omega
    · simp only at hi; rw [hr2] at hi; split at hi <;> omega

/-- The two `copy_n` calls of `write` on a row are the ones of `write_regions`. -/
theorem write_row_uses_write_regions {T : Type} (rb : RingBuffer T) (src : Int → Int → T)
    (start L ch : Int) (row : List T) :
    rb.write_regions L = [(rb.write_pos_, rb.write_num_copy1 L), (0, rb.write_num_copy2 L)] ∧
    rb.write_row src start L ch row =
      copy_n_into (fun i => src ch (start + rb.write_num_copy1 L + i)) (rb.write_num_copy2 L)
        (copy_n_into (fun i => src ch (start + i)) (rb.write_num_copy1 L) row rb.write_pos_) 0 :=
  ⟨rfl, rfl⟩

/-- The two `copy_n` calls of `read` on a row are the ones of `read_regions`. -/
theorem read_row_uses_read_regions {T : Type} (rb : RingBuffer T) (d0 L : Int) (row : List T)
    (ch_dest : Int → T) :
    rb.read_regions L =
      [(rb.num_samples_ - rb.read_num_copy1 L, rb.read_num_copy1 L),
       (rb.write_pos_ - rb.read_num_copy2 L, rb.read_num_copy2 L)] ∧
    rb.read_row d0 L row ch_dest =
      copy_n_from row (rb.write_pos_ - rb.read_num_copy2 L) (rb.read_num_copy2 L)
        (copy_n_from row (rb.num_samples_ - rb.read_num_copy1 L) (rb.read_num_copy1 L)
          ch_dest d0)
        (d0 + rb.read_num_copy1 L) :=
  ⟨rfl, rfl⟩

/-- C16 at a failing input: a buffer of 1 channel and capacity `2^30 + 1` with
the cursor at `2^30` (inside `[0, capacity)`) and a write of `L = 2^30` samples
(`0 < L ≤ capacity`).  The code computes `num_copy1 = 2^30`, where
`min(cursor + L, capacity) - cursor` is 1, and `num_copy2 = 0`; the first
`copy_n` therefore addresses `2^30` cells from offset `2^30`, among them the
physical index `2^30 + 1`, which is not below the capacity. -/
theorem copy_region_leaves_buffer_past_int_max :
    0 ≤ (hugeBuffer 1073741824 1073741824).write_pos_ ∧
    (hugeBuffer 1073741824 1073741824).write_pos_ <
      (hugeBuffer 1073741824 1073741824).num_samples_ ∧
    (0 : Int) < 1073741824 ∧ 1073741824 ≤ (hugeBuffer 1073741824 1073741824).num_samples_ ∧
    (hugeBuffer 1073741824 1073741824).write_num_copy1 1073741824 = 1073741824 ∧
    min ((hugeBuffer 1073741824 1073741824).write_pos_ + 1073741824)
      (hugeBuffer 1073741824 1073741824).num_samples_ -
      (hugeBuffer 1073741824 1073741824).write_pos_ = 1 ∧
    (hugeBuffer 1073741824 1073741824).write_regions 1073741824 =
      [(1073741824, 1073741824), (0, 0)] ∧
    touches (1073741824, 1073741824) 1073741825 ∧
    ¬ (1073741825 < (hugeBuffer 1073741824 1073741824).num_samples_) := by
  refine ⟨by decide, by decide, by decide, by decide, by decide, by decide, by decide, ?_,
    by decide⟩
  unfold touches
  decide

/-! ## The guard protocol of the two threads -/

set_option maxRecDepth 100000 in
set_option maxHeartbeats 4000000 in
theorem Inv_keeps_stepProducer (s : Skeleton) (h : s.Inv = true) :
    Skeleton.keeps Skeleton.stepProducer s = true := by
  obtain ⟨active, l0, l1, ppc, pad, cpc, cad⟩ := s
  revert active l0 l1 pad cad
  cases ppc <;> cases cpc <;> decide!

set_option maxRecDepth 100000 in
set_option maxHeartbeats 4000000 in
theorem Inv_keeps_stepConsumer (s : Skeleton) (h : s.Inv = true) :
    Skeleton.keeps Skeleton.stepConsumer s = true := by
  obtain ⟨active, l0, l1, ppc, pad, cpc, cad⟩ := s
  revert active l0 l1 pad cad
  cases ppc <;> cases cpc <;> decide!

set_option maxRecDepth 100000 in
set_option maxHeartbeats 4000000 in
theorem Inv_keeps_calls (s : Skeleton) (h : s.Inv = true) :
    Skeleton.keeps Skeleton.callProcessBlock s = true ∧
      Skeleton.keeps Skeleton.callTimerCallback s = true := by
  obtain ⟨active, l0, l1, ppc, pad, cpc, cad⟩ := s
  revert active l0 l1 pad cad
  cases ppc <;> cases cpc <;> decide!

theorem fin2_cases (P : Fin 2 → Prop) (h0 : P 0) (h1 : P 1) : ∀ i, P i := by
  intro i
  fin_cases i
  · exact h0
  · exact h1

theorem lock_setData {T : Type} (p : AudioPluginAudioProcessor T) (i j : Fin 2)
    (x : AudioData T) :
    ((p.setData i x).data j).lock_ = if j = i then x.lock_ else (p.data j).lock_ := by
  revert i j
  apply fin2_cases <;> apply fin2_cases <;> rfl

theorem lockOf_skeleton {T : Type} (st : Threads T) (i : Fin 2) :
    (skeleton st).lockOf i = (st.processor.data i).lock_ := by
  revert i
  apply fin2_cases <;> rfl

theorem skeleton_setData {T : Type} (p : AudioPluginAudioProcessor T)
    (pr : ProducerState T) (c : ConsumerState T) (i : Fin 2) (x : AudioData T) :
    skeleton { processor := p.setData i x, producer := pr, consumer := c } =
      (skeleton { processor := p, producer := pr, consumer := c }).setLock i x.lock_ := by
  revert i
  apply fin2_cases <;>
    simp only [skeleton, Skeleton.setLock, lock_setData, active_setData] <;> simp

theorem skeleton_setData_same {T : Type} (p : AudioPluginAudioProcessor T)
    (pr : ProducerState T) (c : ConsumerState T) (i : Fin 2) (x : AudioData T)
    (hx : x.lock_ = (p.data i).lock_) :
    skeleton { processor := p.setData i x, producer := pr, consumer := c } =
      skeleton { processor := p, producer := pr, consumer := c } := by
  rw [skeleton_setData, hx]
  clear hx
  revert i
  apply fin2_cases <;> rfl

theorem skeleton_stepProducer {T : Type} (st st1 : Threads T)
    (h : stepProducer st = some st1) :
    Skeleton.stepProducer (skeleton st) = some (skeleton st1) := by
  obtain ⟨p, pr, c⟩ := st
  obtain ⟨pc, ad, pre, post, len, ops⟩ := pr
  cases pc
  case idle =>
    simp only [stepProducer, Option.some.injEq] at h
    subst h
    rfl
  case load =>
    simp only [stepProducer, Option.some.injEq] at h
    subst h
    rfl
  all_goals
    rcases ad with _ | ad
    · simp [stepProducer] at h
  all_goals revert ad; apply fin2_cases
  all_goals
    intro h
    simp only [stepProducer, AudioData.try_lock, AudioPluginAudioProcessor.exchange,
      Option.map_eq_some'] at h
  case tryLock.some.h0 =>
    cases hl : (p.data 0).lock_ <;>
      simp only [hl, Bool.false_eq_true, if_false, if_true, Option.some.injEq] at h <;>
      subst h <;>
      simp [skeleton, Skeleton.stepProducer, Skeleton.lockOf, Skeleton.setLock, hl,
        lock_setData, active_setData]
  case tryLock.some.h1 =>
    cases hl : (p.data 1).lock_ <;>
      simp only [hl, Bool.false_eq_true, if_false, if_true, Option.some.injEq] at h <;>
      subst h <;>
      simp [skeleton, Skeleton.stepProducer, Skeleton.lockOf, Skeleton.setLock, hl,
        lock_setData, active_setData]
  case exchange.some.h0 =>
    split at h
    · rename_i hc
      simp only [Option.some.injEq] at h
      subst h
      simp only [Skeleton.stepProducer, skeleton]
      rw [if_pos hc]
      rfl
    · simp at h
  case exchange.some.h1 =>
    split at h
    · rename_i hc
      simp only [Option.some.injEq] at h
      subst h
      simp only [Skeleton.stepProducer, skeleton]
      rw [if_pos hc]
      rfl
    · simp at h
  all_goals
    first
      | (obtain ⟨x, -, h⟩ := h
         subst h
         simp [skeleton, Skeleton.stepProducer, Skeleton.lockOf, Skeleton.setLock,
           lock_setData, active_setData, AudioPluginAudioProcessor.opposite, AudioData.unlock])
      | (simp only [Option.some.injEq] at h
         subst h
         simp [skeleton, Skeleton.stepProducer, Skeleton.lockOf, Skeleton.setLock,
           lock_setData, active_setData, AudioPluginAudioProcessor.opposite, AudioData.unlock])

theorem skeleton_stepConsumer {T : Type} (st st1 : Threads T)
    (h : stepConsumer st = some st1) :
    Skeleton.stepConsumer (skeleton st) = some (skeleton st1) := by
  obtain ⟨p, pr, c⟩ := st
  obtain ⟨pc, ad, n, e⟩ := c
  cases pc
  case idle =>
    simp only [stepConsumer, Option.some.injEq] at h
    subst h
    rfl
  case forward =>
    simp only [stepConsumer, Option.some.injEq] at h
    subst h
    rfl
  case load =>
    simp only [stepConsumer] at h
    cases ha : p.active_audio_data_ <;>
      simp only [ha, Option.some.injEq] at h <;>
      subst h <;>
      simp [skeleton, Skeleton.stepConsumer, ha]
  all_goals
    rcases ad with _ | ad
    · simp [stepConsumer] at h
  all_goals revert ad; apply fin2_cases
  all_goals
    intro h
    simp only [stepConsumer, AudioData.try_lock] at h
  case tryLock.some.h0 =>
    cases hl : (p.data 0).lock_ <;>
      simp only [hl, Bool.false_eq_true, if_false, if_true, Option.some.injEq] at h <;>
      subst h <;>
      simp [skeleton, Skeleton.stepConsumer, Skeleton.lockOf, Skeleton.setLock, hl,
        lock_setData, active_setData]
  case tryLock.some.h1 =>
    cases hl : (p.data 1).lock_ <;>
      simp only [hl, Bool.false_eq_true, if_false, if_true, Option.some.injEq] at h <;>
      subst h <;>
      simp [skeleton, Skeleton.stepConsumer, Skeleton.lockOf, Skeleton.setLock, hl,
        lock_setData, active_setData]
  case unlock.some.h0 =>
    simp only [Option.some.injEq] at h
    subst h
    simp [skeleton, Skeleton.stepConsumer, Skeleton.lockOf, Skeleton.setLock,
      lock_setData, active_setData, AudioData.unlock]
  case unlock.some.h1 =>
    simp only [Option.some.injEq] at h
    subst h
    simp [skeleton, Skeleton.stepConsumer, Skeleton.lockOf, Skeleton.setLock,
      lock_setData, active_setData, AudioData.unlock]
  all_goals
    split at h
    · simp only [Option.bind_eq_some] at h
      obtain ⟨b1, -, b2, -, h⟩ := h
      simp only [Option.some.injEq] at h
      subst h
      simp [skeleton, Skeleton.stepConsumer]
    · simp at h

theorem skeleton_calls {T : Type} (st st1 : Threads T) :
    (∀ pre post len, callProcessBlock st pre post len = some st1 →
      Skeleton.callProcessBlock (skeleton st) = some (skeleton st1)) ∧
    (callTimerCallback st = some st1 →
      Skeleton.callTimerCallback (skeleton st) = some (skeleton st1)) := by
  constructor
  · intro pre post len h
    unfold callProcessBlock at h
    split at h
    · rename_i hc
      simp only [Option.some.injEq] at h
      subst h
      simp [skeleton, Skeleton.callProcessBlock, hc]
    · simp at h
  · intro h
    unfold callTimerCallback at h
    split at h
    · rename_i hc
      simp only [Option.some.injEq] at h
      subst h
      simp [skeleton, Skeleton.callTimerCallback, hc]
    · simp at h

theorem keeps_of_eq_some (f : Skeleton → Option Skeleton) (s s1 : Skeleton)
    (hk : Skeleton.keeps f s = true) (h : f s = some s1) : s1.Inv = true := by
  unfold Skeleton.keeps at hk
  rw [h] at hk
  exact hk

theorem act_keeps_Inv {T : Type} (st st1 : Threads T) (a : Action T)
    (hi : (skeleton st).Inv = true) (h : act st a = some st1) :
    (skeleton st1).Inv = true := by
  cases a with
  | produceCall pre post len =>
    exact keeps_of_eq_some _ _ _ (Inv_keeps_calls _ hi).1
      ((skeleton_calls st st1).1 pre post len h)
  | producerStep =>
    exact keeps_of_eq_some _ _ _ (Inv_keeps_stepProducer _ hi) (skeleton_stepProducer st st1 h)
  | consumeCall =>
    exact keeps_of_eq_some _ _ _ (Inv_keeps_calls _ hi).2 ((skeleton_calls st st1).2 h)
  | consumerStep =>
    exact keeps_of_eq_some _ _ _ (Inv_keeps_stepConsumer _ hi) (skeleton_stepConsumer st st1 h)

theorem runActions_keeps_Inv {T : Type} (sched : List (Action T)) :
    ∀ st st1 : Threads T, (skeleton st).Inv = true → runActions st sched = some st1 →
      (skeleton st1).Inv = true := by
  induction sched with
  | nil =>
    intro st st1 hi h
    simp only [runActions, Option.some.injEq] at h
    subst h
    exact hi
  | cons a as ih =>
    intro st st1 hi h
    simp only [runActions, Option.bind_eq_some] at h
    obtain ⟨st2, h2, h3⟩ := h
    exact ih st2 st1 (act_keeps_Inv st st2 a hi h2) h3

theorem startThreads_Inv {T : Type} [Zero T] (p : AudioPluginAudioProcessor T)
    (e : AudioPluginAudioProcessorEditor T) (ha : p.active_audio_data_.isSome = true)
    (hl : ∀ i, (p.data i).lock_ = false) :
    (skeleton (startThreads p e)).Inv = true := by
  have h0 := hl 0
  have h1 := hl 1
  simp only [skeleton, startThreads, Skeleton.Inv, Skeleton.lockOf, h0, h1, ha, producerOwns,
    consumerOwns, onFailurePath]
  simp

set_option maxRecDepth 100000 in
set_option maxHeartbeats 4000000 in
theorem Inv_facts (s : Skeleton) (h : s.Inv = true) :
    (∀ cur, onFailurePath s.ppc = true → s.pad = some cur →
      consumerOwns s.cpc s.cad (AudioPluginAudioProcessor.opposite cur) = false ∧
      s.lockOf (AudioPluginAudioProcessor.opposite cur) = false ∧
      s.active = some cur ∧
      (∀ j, producerOwns s.ppc s.pad j = false) ∧
      ∀ i, consumerOwns s.cpc s.cad i = true → i = cur) ∧
    (∀ i, producerMutates s.ppc s.pad i = true → consumerOwns s.cpc s.cad i = false) ∧
    (∀ i, producerOwns s.ppc s.pad i = true →
      s.lockOf i = true ∧ consumerOwns s.cpc s.cad i = false) ∧
    (∀ i, consumerOwns s.cpc s.cad i = true → s.lockOf i = true) := by
  obtain ⟨active, l0, l1, ppc, pad, cpc, cad⟩ := s
  revert h
  revert active l0 l1 pad cad
  cases ppc <;> cases cpc <;> decide!

set_option maxRecDepth 100000 in
set_option maxHeartbeats 4000000 in
theorem Inv_mutates (s : Skeleton) (h : s.Inv = true) :
    ∀ i, producerMutates s.ppc s.pad i = true →
      (producerOwns s.ppc s.pad i = true ∧ s.lockOf i = true ∧
        consumerOwns s.cpc s.cad i = false) ∨
      (onFailurePath s.ppc = true ∧ s.pad = some (AudioPluginAudioProcessor.opposite i) ∧
        (producerOwns s.ppc s.pad 0 = false ∧ producerOwns s.ppc s.pad 1 = false) ∧
        s.lockOf i = false ∧ consumerOwns s.cpc s.cad i = false ∧
        s.active = some (AudioPluginAudioProcessor.opposite i)) := by
  obtain ⟨active, l0, l1, ppc, pad, cpc, cad⟩ := s
  revert h
  revert active l0 l1 pad cad
  cases ppc <;> cases cpc <;> decide!

theorem prepareToPlay_phases {T : Type} [Zero T] (p : AudioPluginAudioProcessor T)
    (num_samples : Int) :
    p.prepareToPlay num_samples =
      p.prepareToPlay_lock.bind fun r =>
        (RingBuffer.construct 2 num_samples).map fun buffer =>
          (r.1.prepareToPlay_assign buffer).prepareToPlay_finish r.2 := by
  unfold AudioPluginAudioProcessor.prepareToPlay AudioPluginAudioProcessor.prepareToPlay_lock
  cases hact : p.active_audio_data_ with
  | none =>
    simp only [Option.some_bind]
    cases (RingBuffer.construct 2 num_samples : Option (RingBuffer T)) <;> rfl
  | some i =>
    simp only
    cases hl : (p.data i).lock with
    | none => rfl
    | some ad =>
      simp only [Option.map_some', Option.some_bind]
      cases (RingBuffer.construct 2 num_samples : Option (RingBuffer T)) with
      | none => rfl
      | some buffer =>
        simp only [Option.some_bind, Option.map_some', Bool.true_eq_false, if_false]
        rfl

theorem buffers_setData {T : Type} (p : AudioPluginAudioProcessor T) (i j : Fin 2)
    (x : AudioData T) :
    ((p.setData i x).data j).pre_buffer_ =
      (if j = i then x.pre_buffer_ else (p.data j).pre_buffer_) ∧
    ((p.setData i x).data j).post_buffer_ =
      (if j = i then x.post_buffer_ else (p.data j).post_buffer_) := by
  revert i j
  apply fin2_cases <;> apply fin2_cases <;> exact ⟨rfl, rfl⟩

theorem buffers_setData_same {T : Type} (p : AudioPluginAudioProcessor T) (i j : Fin 2)
    (x : AudioData T) (h1 : x.pre_buffer_ = (p.data i).pre_buffer_)
    (h2 : x.post_buffer_ = (p.data i).post_buffer_) :
    ((p.setData i x).data j).pre_buffer_ = (p.data j).pre_buffer_ ∧
    ((p.setData i x).data j).post_buffer_ = (p.data j).post_buffer_ := by
  rw [(buffers_setData p i j x).1, (buffers_setData p i j x).2]
  by_cases hji : j = i
  · rw [if_pos hji, if_pos hji, h1, h2, hji]
    exact ⟨rfl, rfl⟩
  · rw [if_neg hji, if_neg hji]
    exact ⟨rfl, rfl⟩

theorem buffers_setData_of_ne {T : Type} (p : AudioPluginAudioProcessor T) (i j : Fin 2)
    (x : AudioData T) (hji : j ≠ i) :
    ((p.setData i x).data j).pre_buffer_ = (p.data j).pre_buffer_ ∧
    ((p.setData i x).data j).post_buffer_ = (p.data j).post_buffer_ := by
  rw [(buffers_setData p i j x).1, (buffers_setData p i j x).2, if_neg hji, if_neg hji]
  exact ⟨rfl, rfl⟩

theorem stepProducer_frame {T : Type} (st st1 : Threads T) (h : stepProducer st = some st1)
    (i : Fin 2) (hm : producerMutates st.producer.pc st.producer.ad i = false) :
    (st1.processor.data i).pre_buffer_ = (st.processor.data i).pre_buffer_ ∧
    (st1.processor.data i).post_buffer_ = (st.processor.data i).post_buffer_ := by
  obtain ⟨p, pr, c⟩ := st
  obtain ⟨pc, ad, pre, post, len, ops⟩ := pr
  cases pc
  case idle =>
    simp only [stepProducer, Option.some.injEq] at h
    subst h
    exact ⟨rfl, rfl⟩
  case load =>
    simp only [stepProducer, Option.some.injEq] at h
    subst h
    exact ⟨rfl, rfl⟩
  all_goals
    rcases ad with _ | ad
    · simp [stepProducer] at h
  case tryLock.some =>
    simp only [stepProducer] at h
    split at h
    · simp only [Option.some.injEq] at h
      subst h
      refine buffers_setData_same p ad i _ ?_ ?_
      · unfold AudioData.try_lock; split <;> rfl
      · unfold AudioData.try_lock; split <;> rfl
    · simp only [Option.some.injEq] at h
      subst h
      exact ⟨rfl, rfl⟩
  case unlock.some =>
    simp only [stepProducer, Option.some.injEq] at h
    subst h
    exact buffers_setData_same p ad i _ rfl rfl
  case exchange.some =>
    simp only [stepProducer, AudioPluginAudioProcessor.exchange] at h
    split at h
    · simp only [Option.some.injEq] at h
      subst h
      exact ⟨rfl, rfl⟩
    · simp at h
  case writePre.some =>
    have hne : i ≠ ad := by
      intro hh
      subst hh
      simp [producerMutates] at hm
    simp only [stepProducer, Option.map_eq_some'] at h
    obtain ⟨x, -, h⟩ := h
    subst h
    exact buffers_setData_of_ne p ad i _ hne
  case writePost.some =>
    have hne : i ≠ ad := by
      intro hh
      subst hh
      simp [producerMutates] at hm
    simp only [stepProducer, Option.map_eq_some'] at h
    obtain ⟨x, -, h⟩ := h
    subst h
    exact buffers_setData_of_ne p ad i _ hne
  all_goals
    have hne : i ≠ AudioPluginAudioProcessor.opposite ad := by
      intro hh
      subst hh
      simp [producerMutates] at hm
    simp only [stepProducer, Option.map_eq_some', Option.some.injEq] at h
    first
      | (obtain ⟨x, -, h⟩ := h
         subst h
         exact buffers_setData_of_ne p _ i _ hne)
      | (subst h
         exact buffers_setData_of_ne p _ i _ hne)

theorem stepProducer_active {T : Type} (st st1 : Threads T) (h : stepProducer st = some st1)
    (hne : st1.processor.active_audio_data_ ≠ st.processor.active_audio_data_) :
    st.producer.pc = .exchange := by
  have hs := skeleton_stepProducer st st1 h
  have ha : (skeleton st1).active ≠ (skeleton st).active := hne
  have hp : (skeleton st).ppc = st.producer.pc := rfl
  rw [← hp]
  generalize skeleton st = s at hs ha
  generalize skeleton st1 = s1 at hs ha
  obtain ⟨active, l0, l1, ppc, pad, cpc, cad⟩ := s
  cases ppc
  case exchange => rfl
  all_goals
    exfalso
    apply ha
    simp only [Skeleton.stepProducer, Option.map_eq_some'] at hs
  case idle => cases hs; rfl
  case load => cases hs; rfl
  case tryLock =>
    rcases pad with _ | pad
    · simp at hs
    · simp only at hs
      split at hs
      · cases hs; rfl
      · cases hs
        simp only [Skeleton.setLock]
        split <;> rfl
  case unlock =>
    obtain ⟨a, -, rfl⟩ := hs
    simp only [Skeleton.setLock]
    split <;> rfl
  all_goals
    obtain ⟨a, -, rfl⟩ := hs
    rfl

theorem reachable_Inv {T : Type} [Zero T] (p : AudioPluginAudioProcessor T)
    (e : AudioPluginAudioProcessorEditor T) (sched : List (Action T)) (st : Threads T)
    (ha : p.active_audio_data_.isSome = true) (hl : ∀ i, (p.data i).lock_ = false)
    (hr : runActions (startThreads p e) sched = some st) : (skeleton st).Inv = true :=
  runActions_keeps_Inv sched _ st (startThreads_Inv p e ha hl) hr

/-- C12 (counterexample to the second formulation). On a processor prepared
with capacity 4, after the schedule `lateAcquire` the active reference is
slot 1, both guards are free and the GUI thread, which loaded the reference
when slot 0 was still active, is about to `try_lock` slot 0; its next
statement succeeds, so it now holds the guard of slot 0, a slot that was not
active when it acquired the guard. -/
theorem consumer_acquires_inactive_slot :
    (runActions (startThreads (preparedProcessor 4) freshEditor) lateAcquire).map skeleton =
      some { active := some 1, lock0 := false, lock1 := false, ppc := .idle, pad := some 0,
             cpc := .tryLock, cad := some 0 } ∧
    (runActions (startThreads (preparedProcessor 4) freshEditor)
        (lateAcquire ++ [.consumerStep])).map skeleton =
      some { active := some 1, lock0 := true, lock1 := false, ppc := .idle, pad := some 0,
             cpc := .read, cad := some 0 } ∧
    consumerOwns .read (some 0) 0 = true := by
  refine ⟨by decide, by decide, by decide⟩

/-- C12 (amended). In every state that the two threads reach from a processor
with a non-null active reference and both guards free: while the audio thread
is on its failure path with current slot `cur`, the GUI thread does not hold
the guard of the other slot, that guard is free, `cur` is still the active
slot and a guard held by the GUI thread is that of `cur`; the GUI thread never
holds the guard of a slot whose stores the next statement of the audio thread
modifies; and a guard is never held by both threads. -/
theorem producer_never_writes_held_slot {T : Type} [Zero T]
    (p : AudioPluginAudioProcessor T) (e : AudioPluginAudioProcessorEditor T)
    (sched : List (Action T)) (st : Threads T)
    (ha : p.active_audio_data_.isSome = true) (hl : ∀ i, (p.data i).lock_ = false)
    (hr : runActions (startThreads p e) sched = some st) :
    (∀ cur, onFailurePath st.producer.pc = true → st.producer.ad = some cur →
      consumerOwns st.consumer.pc st.consumer.ad (AudioPluginAudioProcessor.opposite cur) = false ∧
      (st.processor.data (AudioPluginAudioProcessor.opposite cur)).lock_ = false ∧
      st.processor.active_audio_data_ = some cur ∧
      ∀ i, consumerOwns st.consumer.pc st.consumer.ad i = true → i = cur) ∧
    (∀ i, producerMutates st.producer.pc st.producer.ad i = true →
      consumerOwns st.consumer.pc st.consumer.ad i = false) ∧
    (∀ i, ¬ (producerOwns st.producer.pc st.producer.ad i = true ∧
      consumerOwns st.consumer.pc st.consumer.ad i = true)) := by
  have hi := reachable_Inv p e sched st ha hl hr
  obtain ⟨h1, h2, h3, _⟩ := Inv_facts (skeleton st) hi
  refine ⟨?_, h2, ?_⟩
  · intro cur hf hc
    obtain ⟨a, b, c, _, d⟩ := h1 cur hf hc
    rw [lockOf_skeleton] at b
    exact ⟨a, b, c, d⟩
  · intro i hpc
    have hc : consumerOwns st.consumer.pc st.consumer.ad i = false := (h3 i hpc.1).2
    rw [hpc.2] at hc
    exact absurd hc (by decide)

theorem failedTryLockRun_isSome : failedTryLockRun.isSome = true := by decide

/-- C12 (amended) on the run of `failedTryLock`: the audio thread is on its
failure path with current slot 0 while the GUI thread holds the guard of slot
0; the guard of slot 1 is free. -/
theorem producer_never_writes_held_slot_witness :
    (preparedProcessor 4).active_audio_data_.isSome = true ∧
    (∀ i, ((preparedProcessor 4).data i).lock_ = false) ∧
    runActions (startThreads (preparedProcessor 4) freshEditor) failedTryLock =
      some (failedTryLockRun.get failedTryLockRun_isSome) ∧
    onFailurePath (failedTryLockRun.get failedTryLockRun_isSome).producer.pc = true ∧
    (failedTryLockRun.get failedTryLockRun_isSome).producer.ad = some 0 ∧
    consumerOwns (failedTryLockRun.get failedTryLockRun_isSome).consumer.pc
      (failedTryLockRun.get failedTryLockRun_isSome).consumer.ad 0 = true ∧
    consumerOwns (failedTryLockRun.get failedTryLockRun_isSome).consumer.pc
      (failedTryLockRun.get failedTryLockRun_isSome).consumer.ad
      (AudioPluginAudioProcessor.opposite 0) = false ∧
    ((failedTryLockRun.get failedTryLockRun_isSome).processor.data
      (AudioPluginAudioProcessor.opposite 0)).lock_ = false ∧
    (failedTryLockRun.get failedTryLockRun_isSome).processor.active_audio_data_ = some 0 :=
  ⟨by decide, by decide, (Option.some_get failedTryLockRun_isSome).symm, by decide, by decide,
   by decide,
   (((producer_never_writes_held_slot (preparedProcessor 4) freshEditor failedTryLock
      (failedTryLockRun.get failedTryLockRun_isSome) (by decide) (by decide)
      (Option.some_get failedTryLockRun_isSome).symm).1 0 (by decide) (by decide))).1,
   (((producer_never_writes_held_slot (preparedProcessor 4) freshEditor failedTryLock
      (failedTryLockRun.get failedTryLockRun_isSome) (by decide) (by decide)
      (Option.some_get failedTryLockRun_isSome).symm).1 0 (by decide) (by decide))).2.1,
   (((producer_never_writes_held_slot (preparedProcessor 4) freshEditor failedTryLock
      (failedTryLockRun.get failedTryLockRun_isSome) (by decide) (by decide)
      (Option.some_get failedTryLockRun_isSome).symm).1 0 (by decide) (by decide))).2.2.1⟩

/-- C11 (counterexample). On a processor prepared with capacity 4, after the
schedule `failedTryLock` the audio thread is on its failure path: it owns no
guard, the guard of slot 1 is free and the pre-store of slot 1 has counter 0.
Its next statement writes the block to the pre-store of slot 1 (counter 3),
still with the guard of slot 1 free.  And `prepareToPlay` on the constructed
processor, whose active reference is null, takes no guard and replaces the
stores of both slots. -/
theorem failure_path_writes_without_guard :
    (runActions (startThreads (preparedProcessor 4) freshEditor) failedTryLock).map
        (fun st => (skeleton st, (st.processor.data 1).pre_buffer_.num_written_)) =
      some ({ active := some 0, lock0 := true, lock1 := false, ppc := .writeOtherPre,
              pad := some 0, cpc := .read, cad := some 0 }, 0) ∧
    producerOwns .writeOtherPre (some 0) 0 = false ∧
    producerOwns .writeOtherPre (some 0) 1 = false ∧
    (runActions (startThreads (preparedProcessor 4) freshEditor)
        (failedTryLock ++ [.producerStep])).map
        (fun st => (skeleton st, (st.processor.data 1).pre_buffer_.num_written_)) =
      some ({ active := some 0, lock0 := true, lock1 := false, ppc := .writeOtherPost,
              pad := some 0, cpc := .read, cad := some 0 }, 3) ∧
    (AudioPluginAudioProcessor.init : AudioPluginAudioProcessor Int).prepareToPlay_lock =
      some (AudioPluginAudioProcessor.init, none) ∧
    ((AudioPluginAudioProcessor.init : AudioPluginAudioProcessor Int).data 1).pre_buffer_ =
      RingBuffer.empty ∧
    ((AudioPluginAudioProcessor.init : AudioPluginAudioProcessor Int).prepareToPlay 4).map
        (fun p => ((p.data 1).pre_buffer_.num_samples_, (p.data 0).lock_, (p.data 1).lock_)) =
      some (4, false, false) := by
  refine ⟨by decide, by decide, by decide, by decide, by decide, by decide, by decide⟩

/-- C11 (amended). For every statement of the audio thread in a state that
the two threads reach from a processor with a non-null active reference and
both guards free: a slot whose pre- or post-store the statement changes is
either the current slot on the success path, whose guard the audio thread
holds (and the GUI thread does not), or the other slot on the failure path,
where the audio thread holds no guard at all, the guard of that slot is free
and not held by the GUI thread, and the slot is not the active one; the
active reference changes only at the exchange, where the audio thread holds
no guard.  And `prepareToPlay` owns the guard of the active slot only (none
when the reference is null) while it assigns the new store to the pre- and
post-store of both slots. -/
theorem stores_change_under_guard_or_on_inactive_slot {T : Type} [Zero T]
    (p : AudioPluginAudioProcessor T) (e : AudioPluginAudioProcessorEditor T)
    (sched : List (Action T)) (st st1 : Threads T)
    (ha : p.active_audio_data_.isSome = true) (hl : ∀ i, (p.data i).lock_ = false)
    (hr : runActions (startThreads p e) sched = some st)
    (hs : stepProducer st = some st1) :
    (∀ i, (st1.processor.data i).pre_buffer_ ≠ (st.processor.data i).pre_buffer_ ∨
        (st1.processor.data i).post_buffer_ ≠ (st.processor.data i).post_buffer_ →
      (producerOwns st.producer.pc st.producer.ad i = true ∧
        (st.processor.data i).lock_ = true ∧
        consumerOwns st.consumer.pc st.consumer.ad i = false) ∨
      (onFailurePath st.producer.pc = true ∧
        st.producer.ad = some (AudioPluginAudioProcessor.opposite i) ∧
        (∀ j, producerOwns st.producer.pc st.producer.ad j = false) ∧
        (st.processor.data i).lock_ = false ∧
        consumerOwns st.consumer.pc st.consumer.ad i = false ∧
        st.processor.active_audio_data_ = some (AudioPluginAudioProcessor.opposite i))) ∧
    (st1.processor.active_audio_data_ ≠ st.processor.active_audio_data_ →
      st.producer.pc = .exchange ∧ ∀ j, producerOwns st.producer.pc st.producer.ad j = false) ∧
    ∀ (q q1 : AudioPluginAudioProcessor T) (num_samples : Int),
      q.prepareToPlay num_samples = some q1 →
      ∃ r buffer, q.prepareToPlay_lock = some r ∧
        RingBuffer.construct 2 num_samples = some buffer ∧
        q1 = (r.1.prepareToPlay_assign buffer).prepareToPlay_finish r.2 ∧
        r.2 = q.active_audio_data_ ∧
        (∀ i, r.2 ≠ some i → (r.1.data i).lock_ = (q.data i).lock_) ∧
        ∀ i, ((r.1.prepareToPlay_assign buffer).data i).pre_buffer_ = buffer ∧
          ((r.1.prepareToPlay_assign buffer).data i).post_buffer_ = buffer := by
  have hi := reachable_Inv p e sched st ha hl hr
  refine ⟨?_, ?_, ?_⟩
  · intro i hch
    have hm : producerMutates st.producer.pc st.producer.ad i = true := by
      cases hmm : producerMutates st.producer.pc st.producer.ad i with
      | true => rfl
      | false =>
        obtain ⟨h1, h2⟩ := stepProducer_frame st st1 hs i hmm
        rcases hch with hch | hch
        · exact absurd h1 hch
        · exact absurd h2 hch
    rcases Inv_mutates (skeleton st) hi i hm with ⟨a, b, c⟩ | ⟨a, b, ⟨c0, c1⟩, d, f, g⟩
    · rw [lockOf_skeleton] at b
      exact Or.inl ⟨a, b, c⟩
    · rw [lockOf_skeleton] at d
      refine Or.inr ⟨a, b, ?_, d, f, g⟩
      apply fin2_cases
      · exact c0
      · exact c1
  · intro hne
    have hpc := stepProducer_active st st1 hs hne
    refine ⟨hpc, ?_⟩
    intro j
    rw [hpc]
    simp [producerOwns]
  · intro q q1 num_samples hq
    rw [prepareToPlay_phases] at hq
    simp only [Option.bind_eq_some, Option.map_eq_some'] at hq
    obtain ⟨r, hr1, buffer, hb, hq1⟩ := hq
    refine ⟨r, buffer, hr1, hb, hq1.symm, ?_, ?_, ?_⟩
    · unfold AudioPluginAudioProcessor.prepareToPlay_lock at hr1
      cases hact : q.active_audio_data_ with
      | none =>
        rw [hact] at hr1
        simp only [Option.some.injEq] at hr1
        rw [← hr1]
      | some i =>
        rw [hact] at hr1
        simp only [Option.map_eq_some'] at hr1
        obtain ⟨x, -, hx⟩ := hr1
        rw [← hx]
    · intro i hne
      unfold AudioPluginAudioProcessor.prepareToPlay_lock at hr1
      cases hact : q.active_audio_data_ with
      | none =>
        rw [hact] at hr1
        simp only [Option.some.injEq] at hr1
        rw [← hr1]
      | some k =>
        rw [hact] at hr1
        simp only [Option.map_eq_some'] at hr1
        obtain ⟨x, -, hx⟩ := hr1
        rw [← hx] at hne ⊢
        have hik : i ≠ k := fun hh => hne (by rw [hh])
        rw [lock_setData, if_neg hik]
    · apply fin2_cases <;> exact ⟨rfl, rfl⟩

theorem bind_get {α β : Type} (o : Option α) (f : α → Option β) (h : o.isSome = true)
    (h2 : (o.bind f).isSome = true) : f (o.get h) = some ((o.bind f).get h2) := by
  cases o with
  | none => exact absurd h (by simp)
  | some a => exact (Option.some_get h2).symm

theorem failedTryLockNext_isSome : failedTryLockNext.isSome = true := by decide

/-- C11 (amended) on the run of `failedTryLock`: the next statement of the
audio thread changes the pre-store of slot 1. -/
theorem stores_change_under_guard_or_on_inactive_slot_witness :
    (preparedProcessor 4).active_audio_data_.isSome = true ∧
    (∀ i, ((preparedProcessor 4).data i).lock_ = false) ∧
    runActions (startThreads (preparedProcessor 4) freshEditor) failedTryLock =
      some (failedTryLockRun.get failedTryLockRun_isSome) ∧
    stepProducer (failedTryLockRun.get failedTryLockRun_isSome) =
      some (failedTryLockNext.get failedTryLockNext_isSome) ∧
    ((failedTryLockNext.get failedTryLockNext_isSome).processor.data 1).pre_buffer_ ≠
      ((failedTryLockRun.get failedTryLockRun_isSome).processor.data 1).pre_buffer_ ∧
    ((producerOwns (failedTryLockRun.get failedTryLockRun_isSome).producer.pc
        (failedTryLockRun.get failedTryLockRun_isSome).producer.ad 1 = true ∧
      ((failedTryLockRun.get failedTryLockRun_isSome).processor.data 1).lock_ = true ∧
      consumerOwns (failedTryLockRun.get failedTryLockRun_isSome).consumer.pc
        (failedTryLockRun.get failedTryLockRun_isSome).consumer.ad 1 = false) ∨
     (onFailurePath (failedTryLockRun.get failedTryLockRun_isSome).producer.pc = true ∧
      (failedTryLockRun.get failedTryLockRun_isSome).producer.ad =
        some (AudioPluginAudioProcessor.opposite 1) ∧
      (∀ j, producerOwns (failedTryLockRun.get failedTryLockRun_isSome).producer.pc
        (failedTryLockRun.get failedTryLockRun_isSome).producer.ad j = false) ∧
      ((failedTryLockRun.get failedTryLockRun_isSome).processor.data 1).lock_ = false ∧
      consumerOwns (failedTryLockRun.get failedTryLockRun_isSome).consumer.pc
        (failedTryLockRun.get failedTryLockRun_isSome).consumer.ad 1 = false ∧
      (failedTryLockRun.get failedTryLockRun_isSome).processor.active_audio_data_ =
        some (AudioPluginAudioProcessor.opposite 1))) :=
  ⟨by decide, by decide, (Option.some_get failedTryLockRun_isSome).symm,
   bind_get failedTryLockRun stepProducer failedTryLockRun_isSome failedTryLockNext_isSome,
   by decide,
   (stores_change_under_guard_or_on_inactive_slot (preparedProcessor 4) freshEditor
      failedTryLock (failedTryLockRun.get failedTryLockRun_isSome)
      (failedTryLockNext.get failedTryLockNext_isSome) (by decide) (by decide)
      (Option.some_get failedTryLockRun_isSome).symm
      (bind_get failedTryLockRun stepProducer failedTryLockRun_isSome
        failedTryLockNext_isSome)).1 1 (Or.inl (by decide))⟩

/-! ## The audio thread never waits -/

theorem HandoffStage_ConsumerOnly {T : Type} (cur : Fin 2) (len : Int) (st st1 : Threads T)
    (h : HandoffStage cur len st) (hc : ConsumerOnly st st1) : HandoffStage cur len st1 := by
  obtain ⟨hp, ha, hb⟩ := hc
  unfold HandoffStage at h ⊢
  rw [hp, ha, (hb cur).1, (hb cur).2, (hb (AudioPluginAudioProcessor.opposite cur)).1,
    (hb (AudioPluginAudioProcessor.opposite cur)).2]
  exact h

theorem HandoffStage_step {T : Type} (cur : Fin 2) (len : Int) (st : Threads T)
    (h : HandoffStage cur len st) :
    ∃ st1, stepProducer st = some st1 ∧ HandoffStage cur len st1 ∧
      remaining st1.producer.pc ≤ remaining st.producer.pc - 1 := by
  obtain ⟨p, pr, c⟩ := st
  obtain ⟨pc, ad, pre, post, n, ops⟩ := pr
  obtain ⟨hlen, h⟩ := h
  simp only at hlen
  subst hlen
  cases pc
  case idle =>
    exact ⟨_, rfl, ⟨rfl, h⟩, Nat.le_refl _⟩
  case load =>
    obtain ⟨ha, h1, h2, ho⟩ := h
    refine ⟨_, rfl, ⟨rfl, ?_⟩, by simp [remaining]⟩
    exact ⟨ha, ha, h1, h2, ho⟩
  case tryLock =>
    obtain ⟨had, ha, h1, h2, ho⟩ := h
    simp only at had ha h1 h2 ho
    subst had ho
    cases hl : (p.data cur).lock_
    · refine ⟨{ processor := p.setData cur { p.data cur with lock_ := true }
                producer := { pc := .writePre, ad := some cur, pre_data := pre,
                              post_data := post, length := n,
                              guard_ops := [] ++ [.try_lock cur] }
                consumer := c }, ?_, ⟨rfl, ?_⟩, by simp [remaining]⟩
      · simp only [stepProducer, AudioData.try_lock, hl, Bool.false_eq_true, if_false]
        rfl
      · dsimp only
        simp [active_setData, data_setData_same, *]
    · refine ⟨{ processor := p
                producer := { pc := .clonePre, ad := some cur, pre_data := pre,
                              post_data := post, length := n,
                              guard_ops := [] ++ [.try_lock cur] }
                consumer := c }, ?_, ⟨rfl, ?_⟩, by simp [remaining]⟩
      · simp only [stepProducer, AudioData.try_lock, hl, if_true]
        rfl
      · exact ⟨rfl, ha, h1, h2, rfl⟩
  case writePre =>
    obtain ⟨had, ha, h1, h2, ho⟩ := h
    simp only at had ha h1 h2 ho
    subst had ho
    obtain ⟨rb1, hw⟩ := write_eq_some_of_le (p.data cur).pre_buffer_ pre 0 n h1
    refine ⟨_, by simp only [stepProducer, hw]; rfl, ⟨rfl, ?_⟩, by simp [remaining]⟩
    dsimp only
    simp [active_setData, data_setData_same, *]
  case writePost =>
    obtain ⟨had, ha, h2, ho⟩ := h
    simp only at had ha h2 ho
    subst had ho
    obtain ⟨rb1, hw⟩ := write_eq_some_of_le (p.data cur).post_buffer_ post 0 n h2
    refine ⟨_, by simp only [stepProducer, hw]; rfl, ⟨rfl, ?_⟩, by simp [remaining]⟩
    dsimp only
    simp [active_setData, *]
  case unlock =>
    obtain ⟨had, ha, ho⟩ := h
    simp only at had ha ho
    subst had ho
    refine ⟨_, rfl, ⟨rfl, ?_⟩, by simp [remaining]⟩
    dsimp only
    simp [active_setData, *]
  case clonePre =>
    obtain ⟨had, ha, h1, h2, ho⟩ := h
    simp only at had ha h1 h2 ho
    subst had ho
    refine ⟨_, rfl, ⟨rfl, ?_⟩, by simp [remaining]⟩
    dsimp only
    simp [active_setData, data_setData_same, data_setData_of_ne p _ cur _ (opposite_ne cur).symm, *]
  case clonePost =>
    obtain ⟨had, ha, h1, h2, ho⟩ := h
    simp only at had ha h1 h2 ho
    subst had ho
    refine ⟨_, rfl, ⟨rfl, ?_⟩, by simp [remaining]⟩
    dsimp only
    simp [active_setData, data_setData_same, *]
  case writeOtherPre =>
    obtain ⟨had, ha, h1, h2, ho⟩ := h
    simp only at had ha h1 h2 ho
    subst had ho
    obtain ⟨rb1, hw⟩ := write_eq_some_of_le
      (p.data (AudioPluginAudioProcessor.opposite cur)).pre_buffer_ pre 0 n h1
    refine ⟨_, by simp only [stepProducer, hw]; rfl, ⟨rfl, ?_⟩, by simp [remaining]⟩
    dsimp only
    simp [active_setData, data_setData_same, *]
  case writeOtherPost =>
    obtain ⟨had, ha, h2, ho⟩ := h
    simp only at had ha h2 ho
    subst had ho
    obtain ⟨rb1, hw⟩ := write_eq_some_of_le
      (p.data (AudioPluginAudioProcessor.opposite cur)).post_buffer_ post 0 n h2
    refine ⟨_, by simp only [stepProducer, hw]; rfl, ⟨rfl, ?_⟩, by simp [remaining]⟩
    dsimp only
    simp [active_setData, *]
  case exchange =>
    obtain ⟨had, ha, ho⟩ := h
    simp only at had ha ho
    subst had ho
    have hne : some cur ≠ some (AudioPluginAudioProcessor.opposite cur) :=
      fun hh => opposite_ne cur (Option.some.inj hh).symm
    refine ⟨_, by simp only [stepProducer, AudioPluginAudioProcessor.exchange, ha]
                  rw [if_pos ⟨trivial, hne⟩], ⟨rfl, ?_⟩, by simp [remaining]⟩
    exact Or.inr ⟨rfl, rfl⟩

theorem handoffUnder_completes {T : Type} (env : Nat → Threads T → Threads T)
    (henv : ∀ k s, ConsumerOnly s (env k s)) (cur : Fin 2) (len : Int) :
    ∀ (k : Nat) (st : Threads T), HandoffStage cur len st → remaining st.producer.pc ≤ k →
      ∃ st1, handoffUnder env k st = some st1 ∧ HandoffStage cur len st1 ∧
        st1.producer.pc = .idle := by
  intro k
  induction k with
  | zero =>
    intro st hs hr
    refine ⟨st, rfl, hs, ?_⟩
    revert hr
    cases st.producer.pc <;> simp [remaining]
  | succ k ih =>
    intro st hs hr
    have hc := henv k st
    have hs1 := HandoffStage_ConsumerOnly cur len st (env k st) hs hc
    obtain ⟨st1, h1, hs2, hr1⟩ := HandoffStage_step cur len (env k st) hs1
    rw [hc.1] at hr1
    obtain ⟨st2, h2, hs3, hi⟩ := ih st1 hs2 (by omega)
    refine ⟨st2, ?_, hs3, hi⟩
    simp only [handoffUnder, h1, Option.some_bind]
    exact h2

theorem stepConsumer_ConsumerOnly {T : Type} (st st1 : Threads T)
    (h : stepConsumer st = some st1) : ConsumerOnly st st1 := by
  obtain ⟨p, pr, c⟩ := st
  obtain ⟨pc, ad, n, e⟩ := c
  cases pc
  case idle =>
    simp only [stepConsumer, Option.some.injEq] at h
    subst h
    exact ⟨rfl, rfl, fun _ => ⟨rfl, rfl⟩⟩
  case forward =>
    simp only [stepConsumer, Option.some.injEq] at h
    subst h
    exact ⟨rfl, rfl, fun _ => ⟨rfl, rfl⟩⟩
  case load =>
    simp only [stepConsumer] at h
    cases ha : p.active_audio_data_ <;>
      simp only [ha, Option.some.injEq] at h <;>
      subst h <;>
      exact ⟨rfl, rfl, fun _ => ⟨rfl, rfl⟩⟩
  all_goals
    rcases ad with _ | ad
    · simp [stepConsumer] at h
  case tryLock.some =>
    simp only [stepConsumer] at h
    split at h
    · simp only [Option.some.injEq] at h
      subst h
      refine ⟨rfl, active_setData _ _ _, fun i => buffers_setData_same p ad i _ ?_ ?_⟩
      · unfold AudioData.try_lock; split <;> rfl
      · unfold AudioData.try_lock; split <;> rfl
    · simp only [Option.some.injEq] at h
      subst h
      exact ⟨rfl, rfl, fun _ => ⟨rfl, rfl⟩⟩
  case unlock.some =>
    simp only [stepConsumer, Option.some.injEq] at h
    subst h
    exact ⟨rfl, active_setData _ _ _, fun i => buffers_setData_same p ad i _ rfl rfl⟩
  case read.some =>
    simp only [stepConsumer] at h
    split at h
    · simp only [Option.bind_eq_some] at h
      obtain ⟨b1, -, b2, -, h⟩ := h
      simp only [Option.some.injEq] at h
      subst h
      exact ⟨rfl, rfl, fun _ => ⟨rfl, rfl⟩⟩
    · simp at h

theorem guiInterference_ConsumerOnly {T : Type} (k : Nat) (st : Threads T) :
    ConsumerOnly st (guiInterference k st) := by
  unfold guiInterference
  cases h : stepConsumer st with
  | none => exact ⟨rfl, rfl, fun _ => ⟨rfl, rfl⟩⟩
  | some st1 => exact stepConsumer_ConsumerOnly st st1 h

/-- C14. Non-blocking producer: from every state in which the audio thread
is outside the handoff, the active reference is a slot `cur` and the block
length is at most the capacity of the two stores of `cur`, and under every
interference that leaves the audio thread, the active reference and the
stores alone (the guards may be taken, held and released in any way, for any
time), the call of `processBlock` is over after at most 7 statements of the
audio thread.  The guard operations it has invoked are `try_lock` on `cur`
followed by `unlock` on `cur` (success path, the active reference stays) or
the `try_lock` on `cur` alone (failure path, the other slot becomes active);
the blocking `lock` is not among them. -/
theorem producer_never_blocks {T : Type} (st : Threads T)
    (env : Nat → Threads T → Threads T) (cur : Fin 2) (pre_data post_data : Int → Int → T)
    (length : Int)
    (hidle : st.producer.pc = .idle)
    (hact : st.processor.active_audio_data_ = some cur)
    (hpre : length ≤ (st.processor.data cur).pre_buffer_.num_samples_)
    (hpost : length ≤ (st.processor.data cur).post_buffer_.num_samples_)
    (henv : ∀ k s, ConsumerOnly s (env k s)) :
    ∃ st0 st1, callProcessBlock st pre_data post_data length = some st0 ∧
      handoffUnder env 7 st0 = some st1 ∧
      st1.producer.pc = .idle ∧
      ((st1.producer.guard_ops = [.try_lock cur, .unlock cur] ∧
          st1.processor.active_audio_data_ = some cur) ∨
        (st1.producer.guard_ops = [.try_lock cur] ∧
          st1.processor.active_audio_data_ = some (AudioPluginAudioProcessor.opposite cur))) ∧
      ∀ i, GuardOp.lock i ∉ st1.producer.guard_ops := by
  have hcall : callProcessBlock st pre_data post_data length = some
      { st with producer :=
        { pc := .load, ad := st.producer.ad, pre_data := pre_data, post_data := post_data,
          length := length, guard_ops := [] } } := by
    unfold callProcessBlock
    rw [if_pos hidle]
  obtain ⟨st1, h1, hs, hi⟩ := handoffUnder_completes env henv cur length 7 _
    (show HandoffStage cur length
      { st with producer :=
        { pc := .load, ad := st.producer.ad, pre_data := pre_data, post_data := post_data,
          length := length, guard_ops := [] } } from ⟨rfl, hact, hpre, hpost, rfl⟩)
    (by simp [remaining])
  refine ⟨_, st1, hcall, h1, hi, ?_, ?_⟩
  · obtain ⟨_, hs⟩ := hs
    rw [hi] at hs
    exact hs
  · obtain ⟨_, hs⟩ := hs
    rw [hi] at hs
    intro i
    rcases hs with ⟨ho, _⟩ | ⟨ho, _⟩ <;> rw [ho] <;> simp

/-- C14 on a processor of capacity 4 with the GUI thread running its drain
between the statements of the audio thread. -/
theorem producer_never_blocks_witness :
    drainStarted.producer.pc = .idle ∧
    drainStarted.processor.active_audio_data_ = some 0 ∧
    (3 : Int) ≤ (drainStarted.processor.data 0).pre_buffer_.num_samples_ ∧
    (3 : Int) ≤ (drainStarted.processor.data 0).post_buffer_.num_samples_ ∧
    ∃ st0 st1, callProcessBlock drainStarted (rampFrom 0) (rampFrom 500) 3 = some st0 ∧
      handoffUnder guiInterference 7 st0 = some st1 ∧
      st1.producer.pc = .idle ∧
      ((st1.producer.guard_ops = [.try_lock 0, .unlock 0] ∧
          st1.processor.active_audio_data_ = some 0) ∨
        (st1.producer.guard_ops = [.try_lock 0] ∧
          st1.processor.active_audio_data_ = some (AudioPluginAudioProcessor.opposite 0))) ∧
      ∀ i, GuardOp.lock i ∉ st1.producer.guard_ops :=
  ⟨by decide, by decide, by decide, by decide,
   producer_never_blocks drainStarted guiInterference 0 (rampFrom 0) (rampFrom 500) 3
     (by decide) (by decide) (by decide) (by decide) guiInterference_ConsumerOnly⟩

/-! ## The statement-level model and the sequential one -/

theorem handoff_alone_is_processBlock {T : Type} (st : Threads T)
    (pre_data post_data : Int → Int → T) (length : Int) (hidle : st.producer.pc = .idle) :
    ((callProcessBlock st pre_data post_data length).bind
        (handoffUnder (fun _ s => s) 7)).map (fun st1 => st1.processor) =
      st.processor.processBlock pre_data post_data length := by
  obtain ⟨p, pr, c⟩ := st
  simp only at hidle
  simp only [callProcessBlock, hidle, if_true, Option.some_bind, handoffUnder, stepProducer,
    AudioPluginAudioProcessor.processBlock]
  cases hact : p.active_audio_data_ with
  | none => rfl
  | some ad =>
    simp only
    cases hl : (p.data ad).lock_ with
    | false =>
      simp only [AudioData.try_lock, hl, Bool.false_eq_true, if_false, if_true, Option.some_bind,
        AudioPluginAudioProcessor.processBlock_locked, data_setData_same]
      cases hw1 : (p.data ad).pre_buffer_.write pre_data 0 length with
      | none => rfl
      | some pre =>
        simp only [Option.map_some', Option.some_bind, data_setData_same, setData_setData]
        cases hw2 : (p.data ad).post_buffer_.write post_data 0 length with
        | none => rfl
        | some post =>
          simp only [Option.map_some', Option.some_bind, data_setData_same, setData_setData]
    | true =>
      simp only [AudioData.try_lock, hl, if_true, Bool.false_eq_true, if_false, Option.some_bind,
        AudioPluginAudioProcessor.processBlock_contended,
        AudioPluginAudioProcessor.processBlock_clone_and_write, data_setData_same,
        setData_setData, data_setData_opposite]
      cases hw1 : (p.data ad).pre_buffer_.write pre_data 0 length with
      | none => rfl
      | some pre =>
        simp only [Option.map_some', Option.some_bind, data_setData_same, setData_setData]
        cases hw2 : (p.data ad).post_buffer_.write post_data 0 length with
        | none => rfl
        | some post =>
          simp only [Option.map_some', Option.some_bind, data_setData_same, setData_setData,
            AudioPluginAudioProcessor.exchange, active_setData, hact]
          split <;> rfl

theorem drain_alone_is_timerCallback {T : Type} (st : Threads T)
    (hidle : st.consumer.pc = .idle)
    (hfree : ∀ ad, st.processor.active_audio_data_ = some ad →
      (st.processor.data ad).lock_ = false) :
    (runActions st [.consumeCall, .consumerStep, .consumerStep, .consumerStep, .consumerStep,
        .consumerStep]).map (fun st1 => (st1.processor, st1.consumer.editor)) =
      AudioPluginAudioProcessorEditor.timerCallback st.processor st.consumer.editor := by
  obtain ⟨p, pr, c⟩ := st
  obtain ⟨pc, cad, n, e⟩ := c
  simp only at hidle hfree
  subst hidle
  simp only [runActions, act, callTimerCallback, if_true, Option.some_bind, stepConsumer,
    AudioPluginAudioProcessorEditor.timerCallback]
  cases hact : p.active_audio_data_ with
  | none => rfl
  | some ad =>
    have hl := hfree ad hact
    simp only [Option.some_bind, AudioData.try_lock, hl, Bool.false_eq_true, if_false, if_true,
      data_setData_same]
    split
    · cases hr1 : (p.data ad).pre_buffer_.read e.buffer_ 0
          (AudioPluginAudioProcessorEditor.num_to_read (p.data ad).pre_buffer_.getNumWritten
            e.saved_written_size_ (p.data ad).pre_buffer_.getNumSamples) with
      | none => rfl
      | some b1 =>
        simp only [Option.some_bind]
        cases hr2 : (p.data ad).post_buffer_.read (fun ch => b1 (ch + 2)) 0
            (AudioPluginAudioProcessorEditor.num_to_read (p.data ad).pre_buffer_.getNumWritten
              e.saved_written_size_ (p.data ad).pre_buffer_.getNumSamples) with
        | none => rfl
        | some b2 =>
          simp only [Option.some_bind, Option.map_some', data_setData_same, setData_setData]
    · rfl

end SimpleOscilloscope
